import Mathlib

/-!
# life.go : World / Shape simulation core

A shallow embedding of `world.go`, `shape.go`, `events.go`, `level.go` and
`constants.go`.

Modelling conventions

* Go pointers to shapes are addresses (`Ptr`) into `World.heap`; the registry
  `World.Objects` is a list of such addresses, so aliasing is preserved.
* Physics bodies are handles (`BodyRef`) into `World.bodies`; the handles that
  are still inside the box2d world are listed in `World.liveBodies`.
* `float64` quantities are rationals.
* Go function values (level hooks, event handlers, collision callbacks, map
  spawn functions) are identifiers interpreted by an environment `Env` as
  arbitrary state transformers that return normally.
* Every operation that can panic or that calls user code returns an `Out`:
  the state reached, the events performed by the operation itself, and the
  panic in flight (if any).
-/

namespace Life

/-! ## constants.go -/

abbrev Ptr := Nat
abbrev BodyRef := Nat

abbrev AxisX := String
abbrev AxisY := String

def EPSILON_DIRECTION_CHANGED : ℚ := 0

def DirectionUp : AxisY := "up"
def DirectionDown : AxisY := "down"
def DirectionLeft : AxisX := "left"
def DirectionRight : AxisX := "right"

/-- The `Axis` struct: a nil pointer is `none`. -/
structure Axis where
  X : Option AxisX := none
  Y : Option AxisY := none
deriving DecidableEq, Repr

def PTM : ℚ := 8

def PixelsToMeters (p : ℚ) : ℚ := p / PTM

def MetersToPixels (m : ℚ) : ℚ := m * PTM

abbrev ShapeType := String

def ShapeCircle : ShapeType := "circle"
def ShapeSquare : ShapeType := "square"
def ShapeRectangle : ShapeType := "rectangle"
def ShapeLine : ShapeType := "line"
def ShapeDot : ShapeType := "dot"

/-! ## eventlist.go -/

abbrev EventType := String

def EventMouseDown : EventType := "mousedown"
def EventMouseUp : EventType := "mouseup"
def EventClick : EventType := "click"
def EventCollision : EventType := "collision"
def EventDirectionChange : EventType := "event-direction-change"

/-! ## vector.go -/

structure Vector2 where
  X : ℚ := 0
  Y : ℚ := 0
deriving DecidableEq, Repr

def NewVector2 (x y : ℚ) : Vector2 := ⟨x, y⟩

/-! ## Data model -/

/-- Payload handed to an event handler (`Data interface{}`). -/
inductive Payload where
  | collision (shapeA shapeB : Ptr)
  | direction (shape : Ptr)
  | point (x y : ℚ)
deriving DecidableEq, Repr

/-- The part of a box2d body that the source sets or reads; `hasFixture` says
that the fixture list of the body is not nil, and the fields after it
describe the one fixture that `createPhysicsBody` attaches. -/
structure Body where
  posX : ℚ := 0
  posY : ℚ := 0
  angle : ℚ := 0
  velX : ℚ := 0
  velY : ℚ := 0
  angVel : ℚ := 0
  mass : ℚ := 0
  isStatic : Bool := true
  gravityScale : ℚ := 1
  fixedRotation : Bool := false
  hasFixture : Bool := false
  isCircle : Bool := false
  radius : ℚ := 0
  halfW : ℚ := 0
  halfH : ℚ := 0
  sensor : Bool := false
  friction : ℚ := 0
  restitution : ℚ := 0
  categoryBits : Nat := 1
  maskBits : Nat := 65535
  groupIndex : Int := 0
deriving DecidableEq, Repr

/-- A function value stored in a handler list: a function supplied by user
code, or the closure `onceHandler` that `Once` builds around one for the
emitter `source` (a shape, or the world for `none`) and the event `event`. -/
inductive EventHandler where
  | fn (id : Nat)
  | once (source : Option Ptr) (event : EventType) (id : Nat)
deriving DecidableEq, Repr

/-- The `Shape` struct of shape.go (rendering-only fields are left out). -/
structure Shape where
  ID : String := ""
  Name : String := ""
  Tag : String := ""
  kind : ShapeType := ShapeRectangle
  X : ℚ := 0
  Y : ℚ := 0
  Width : ℚ := 0
  Height : ℚ := 0
  Radius : ℚ := 0
  RotationAngle : ℚ := 0
  RotationSpeed : ℚ := 0
  RotationLock : Bool := false
  Mass : ℚ := 0
  ZIndex : Int := 0
  Scale : ℚ := 0
  Opacity : ℚ := 0
  IsBody : Bool := false
  Physics : Bool := false
  Velocity : Vector2 := {}
  Speed : ℚ := 0
  Rebound : ℚ := 0
  Friction : ℚ := 0
  Body : Option BodyRef := none
  CollisionObjects : List Ptr := []
  Clicked : Bool := false
  OnCollisionFunc : Option Nat := none
  world : Bool := false
  directions : Axis := {}
  Ghost : Bool := false
  noCollideWith : String → Bool := fun _ => false
  LastCollisionImpulse : ℚ := 0
  events : EventType → List EventHandler := fun _ => []

/-- A function value stored in `Level.Init`. -/
inductive InitFn where
  | user (id : Nat)
  | defaultInit
deriving DecidableEq, Repr

/-- The `Level` struct of level.go; `MapItems` maps a one-character string to
a spawn function. -/
structure Level where
  Map : List String := []
  MapItems : String → Option Nat := fun _ => none
  Init : Option InitFn := none
  Tick : Option Nat := none
  Render : Option Nat := none
  OnMount : Option Nat := none
  OnDestroy : Option Nat := none

/-- A function value stored in `World.Tick` or `World.Render`. -/
inductive LoopFn where
  | dispatch
  | level (id : Nat)
  | noop
deriving DecidableEq, Repr

structure CollisionEvent where
  ShapeA : Ptr
  ShapeB : Ptr
deriving DecidableEq, Repr

structure MouseState where
  X : ℚ := 0
  Y : ℚ := 0
  IsLeftClicked : Bool := false
  IsRightClicked : Bool := false
  IsMiddleClicked : Bool := false
deriving DecidableEq, Repr

/-- The fields of `ShapeProps` that reach the modelled part of `Shape`;
`kind` is the field `Type`. -/
structure ShapeProps where
  kind : ShapeType := ""
  X : ℚ := 0
  Y : ℚ := 0
  Width : ℚ := 0
  Height : ℚ := 0
  Radius : ℚ := 0
  ZIndex : Int := 0
  IsBody : Bool := false
  Name : String := ""
  Rotation : ℚ := 0
  RotationLock : Bool := false
  Tag : String := ""
  OnCollisionFunc : Option Nat := none
  Physics : Bool := false
  Rebound : ℚ := 0
  Friction : ℚ := 0
  Mass : ℚ := 0
  Speed : ℚ := 0
  Velocity : Vector2 := {}
  Opacity : ℚ := 0
  Ghost : Bool := false
  Scale : ℚ := 0
  LastCollisionImpulse : ℚ := 0
deriving DecidableEq, Repr

/-- The `DrawCommand` struct of world.go; `kind` is the field `Type`, and
`Props` is the copy of the properties that `Pen` made. -/
structure DrawCommand where
  kind : ShapeType
  Props : ShapeProps
deriving DecidableEq, Repr

/-- The `World` struct of world.go together with the memory it points to:
the shapes (`heap`) and the box2d bodies (`bodies`, `liveBodies`,
`nextBody`). -/
structure World where
  Width : Int := 800
  Height : Int := 600
  heap : Ptr → Shape := fun _ => {}
  bodies : BodyRef → Body := fun _ => {}
  liveBodies : List BodyRef := []
  nextBody : Nat := 0
  Tick : Option LoopFn := none
  Render : Option LoopFn := none
  lastUpdate : Option ℚ := none
  Objects : List Ptr := []
  Mouse : MouseState := {}
  Keys : Nat → Bool := fun _ => false
  Paused : Bool := false
  OnMouseDown : Option Nat := none
  OnMouseUp : Option Nat := none
  Levels : List Level := []
  CurrentLevel : Int := 0
  pendingLevelSwitch : Option Int := none
  collisionQueue : List CollisionEvent := []
  events : EventType → List EventHandler := fun _ => []
  drawCommands : List DrawCommand := []

/-- A contact handed to the listener: the bodies of its two fixtures
(`none` is a nil fixture), its enabled flag, the Y component of the normal of
its world manifold and the `totalImpulse` of the impulse handed to
`PostSolve`. -/
structure Contact where
  fixtureA : Option BodyRef
  fixtureB : Option BodyRef
  enabled : Bool := true
  normalY : ℚ := 0
  impulse : ℚ := 0
deriving DecidableEq, Repr

/-- One listener callback made by the engine during a step. -/
inductive ContactCb where
  | begin (c : Contact)
  | finish (c : Contact)
  | preSolve (c : Contact)
  | postSolve (c : Contact)
deriving DecidableEq, Repr

/-- What the operations themselves do, in order. -/
inductive Ev where
  | onDestroy (id : Nat)
  | init (id : Nat)
  | onMount (id : Nat)
  | spawn (id : Nat) (x y width height : ℚ)
  | destroyBody (b : BodyRef)
  | emit (source : Option Ptr) (event : EventType) (data : Payload)
  | handler (id : Nat) (data : Payload)
  | onCollision (id : Nat) (other : Ptr)
  | disableContact (c : Contact)
  | physicsStep (dt : ℚ)
  | shapeUpdate (s : Ptr)
  | tick (id : Nat)
  | sampleInput
  | mouseCallback (id : Nat) (x y : ℚ)
deriving DecidableEq, Repr

/-- User code and external collaborators. -/
structure Env where
  hook : Nat → World → World
  tick : Nat → ℚ → ℚ → World → World
  spawn : Nat → Vector2 → ℚ → ℚ → World → World
  handler : Nat → Payload → World → World
  onCollision : Nat → Ptr → World → World
  mouse : Nat → ℚ → ℚ → World → World
  stepContacts : World → ℚ → List ContactCb
  stepBodies : World → ℚ → BodyRef → Body
  maxDepth : Nat

/-- Input sampled from ebiten during one frame, and the clock. -/
structure Frame where
  now : ℚ
  cursorX : Int := 0
  cursorY : Int := 0
  left : Bool := false
  right : Bool := false
  middle : Bool := false
  keyMax : Nat := 0
  pressed : Nat → Bool := fun _ => false
  leftJustPressed : Bool := false
  leftJustReleased : Bool := false

/-- Result of an operation: state reached, events performed, panic in
flight. -/
structure Out where
  w : World
  log : List Ev := []
  fail : Option String := none

def Out.ret (w : World) : Out := { w := w }

def Out.panic (msg : String) (w : World) : Out := { w := w, fail := some msg }

/-- Sequencing: a panic stops everything after it. -/
def Out.andThen (o : Out) (f : World → Out) : Out :=
  match o.fail with
  | some _ => o
  | none => { w := (f o.w).w, log := o.log ++ (f o.w).log, fail := (f o.w).fail }

/-- A `for ... range xs` loop over a snapshot `xs`. -/
def forEach {α : Type} (xs : List α) (f : α → World → Out) (w : World) : Out :=
  xs.foldl (fun o x => o.andThen (f x)) (Out.ret w)

/-- Write through a shape pointer. -/
def setShape (w : World) (p : Ptr) (f : Shape → Shape) : World :=
  { w with heap := Function.update w.heap p (f (w.heap p)) }

/-- Write through a body pointer. -/
def setBody (w : World) (b : BodyRef) (f : Body → Body) : World :=
  { w with bodies := Function.update w.bodies b (f (w.bodies b)) }

/-! ## events.go -/

/-- The handler list `e.events[event]` of the emitter embedded in a shape
(`some s`) or in the world (`none`). -/
def handlersOf (source : Option Ptr) (event : EventType) (w : World) : List EventHandler :=
  match source with
  | some s => (w.heap s).events event
  | none => w.events event

/-- The assignment `e.events[event] = hs`. -/
def setHandlers (source : Option Ptr) (event : EventType) (hs : List EventHandler)
    (w : World) : World :=
  match source with
  | some s => setShape w s (fun sh => { sh with events := Function.update sh.events event hs })
  | none => { w with events := Function.update w.events event hs }

def On (source : Option Ptr) (event : EventType) (handler : EventHandler) (w : World) :
    World :=
  setHandlers source event (handlersOf source event w ++ [handler]) w

/-- The test `&h == &handler` of `RemoveListener`. The loop variable `h` and
the parameter `handler` are two distinct variables, and in Go pointers to
distinct variables are unequal whatever the variables hold. -/
def sameAddress (_h _handler : EventHandler) : Bool := false

def RemoveListener (source : Option Ptr) (event : EventType) (handler : EventHandler)
    (w : World) : World :=
  let handlers := handlersOf source event w
  match handlers.findIdx? (fun h => sameAddress h handler) with
  | some i => setHandlers source event (handlers.eraseIdx i) w
  | none => w

def Once (source : Option Ptr) (event : EventType) (handler : Nat) (w : World) : World :=
  On source event (EventHandler.once source event handler) w

/-- The user function that a call of the handler runs. -/
def EventHandler.target : EventHandler → Nat
  | EventHandler.fn id => id
  | EventHandler.once _ _ id => id

/-- Call of one handler with the payload. The closure built by `Once` calls
the user function and then `RemoveListener` for itself. -/
def callHandler (env : Env) (data : Payload) (h : EventHandler) (w : World) : Out :=
  match h with
  | EventHandler.fn id => { w := env.handler id data w, log := [Ev.handler id data] }
  | EventHandler.once source event id =>
    Out.andThen { w := env.handler id data w, log := [Ev.handler id data] } fun w1 =>
      Out.ret (RemoveListener source event (EventHandler.once source event id) w1)

/-- The body of `Emit`: the handlers read from the map are called in order
with the payload. -/
def callHandlers (env : Env) (hs : List EventHandler) (data : Payload) (w : World) : Out :=
  forEach hs (callHandler env data) w

/-- Method `Emit` on the emitter embedded in a shape (`some s`) or in the world
(`none`). -/
def Emit (env : Env) (source : Option Ptr) (event : EventType) (data : Payload)
    (w : World) : Out :=
  let hs := handlersOf source event w
  Out.andThen { w := w, log := [Ev.emit source event data] } (callHandlers env hs data)

/-! ## box2d body methods used by shape.go -/

def nilDeref : String := "runtime error: invalid memory address or nil pointer dereference"

/-- The float64 value of the constant `Deg = math.Pi / 180`. -/
def Deg : ℚ := 5030569068109113 / 288230376151711744

/-- Method `(*B2Body).SetTransform` of box2d: it reads the fields of its
receiver, so a nil receiver is dereferenced. -/
def bodySetTransform (b : Option BodyRef) (x y angle : ℚ) (w : World) : Out :=
  match b with
  | none => Out.panic nilDeref w
  | some r => Out.ret (setBody w r (fun d => { d with posX := x, posY := y, angle := angle }))

/-- Method `(*B2Body).SetLinearVelocity` of box2d: a nil receiver is
dereferenced; a static body ignores the call. -/
def bodySetLinearVelocity (b : Option BodyRef) (x y : ℚ) (w : World) : Out :=
  match b with
  | none => Out.panic nilDeref w
  | some r =>
    Out.ret (setBody w r (fun d => if d.isStatic then d else { d with velX := x, velY := y }))

/-- Method `(*B2Body).SetFixedRotation` of box2d. -/
def bodySetFixedRotation (b : Option BodyRef) (flag : Bool) (w : World) : Out :=
  match b with
  | none => Out.panic nilDeref w
  | some r =>
    Out.ret (setBody w r (fun d =>
      if d.fixedRotation = flag then d else { d with fixedRotation := flag, angVel := 0 }))

/-! ## shape.go -/

def requireInitMsg : String := "Required: (*World).Register(Shape) pre-op."

def requireInit (s : Ptr) (w : World) : Out :=
  if (w.heap s).Body = none then Out.panic requireInitMsg w else Out.ret w

def LockRotation (s : Ptr) (lock : Bool) (w : World) : Out :=
  (requireInit s w).andThen fun w1 =>
    let w2 := setShape w1 s (fun sh => { sh with RotationLock := lock })
    bodySetFixedRotation (w2.heap s).Body lock w2

def SetX (s : Ptr) (x : ℚ) (w : World) : Out :=
  let w1 := setShape w s (fun sh => { sh with X := x })
  let sh := w1.heap s
  let centerX := x + sh.Width / 2
  bodySetTransform sh.Body (PixelsToMeters centerX) (PixelsToMeters (sh.Y + sh.Height / 2))
    sh.RotationAngle w1

def SetY (s : Ptr) (y : ℚ) (w : World) : Out :=
  let w1 := setShape w s (fun sh => { sh with Y := y })
  let sh := w1.heap s
  let centerY := y + sh.Height / 2
  bodySetTransform sh.Body (PixelsToMeters (sh.X + sh.Width / 2)) (PixelsToMeters centerY)
    sh.RotationAngle w1

def SetPosition (s : Ptr) (x y : ℚ) (w : World) : Out :=
  let w1 := setShape w s (fun sh => { sh with X := x, Y := y })
  let sh := w1.heap s
  let centerX := x + sh.Width / 2
  let centerY := y + sh.Height / 2
  bodySetTransform sh.Body (PixelsToMeters centerX) (PixelsToMeters centerY) sh.RotationAngle w1

def SetRotation (s : Ptr) (angle : ℚ) (w : World) : Out :=
  let w1 := setShape w s (fun sh => { sh with RotationAngle := angle })
  match (w1.heap s).Body with
  | none => Out.panic nilDeref w1
  | some r => bodySetTransform (some r) (w1.bodies r).posX (w1.bodies r).posY (angle * Deg) w1

def SetScale (s : Ptr) (scale : ℚ) (w : World) : Out :=
  let w1 := setShape w s (fun sh => { sh with Scale := scale })
  let sh := w1.heap s
  bodySetTransform sh.Body (PixelsToMeters sh.X) (PixelsToMeters sh.Y) (sh.RotationAngle * Deg) w1

def SetVelocity (s : Ptr) (x y : ℚ) (w : World) : Out :=
  bodySetLinearVelocity (w.heap s).Body x y w

def SetXVelocity (s : Ptr) (x : ℚ) (w : World) : Out :=
  match (w.heap s).Body with
  | none => Out.panic nilDeref w
  | some r =>
    (bodySetLinearVelocity (some r) x (w.bodies r).velY w).andThen fun w1 =>
      Out.ret (setShape w1 s (fun sh => { sh with Velocity := { sh.Velocity with X := x } }))

def SetYVelocity (s : Ptr) (y : ℚ) (w : World) : Out :=
  match (w.heap s).Body with
  | none => Out.panic nilDeref w
  | some r =>
    (bodySetLinearVelocity (some r) (w.bodies r).velX y w).andThen fun w1 =>
      Out.ret (setShape w1 s (fun sh => { sh with Velocity := { sh.Velocity with Y := y } }))

def Rotate (s : Ptr) (angle : ℚ) (w : World) : Out :=
  match (w.heap s).Body with
  | none => Out.panic nilDeref w
  | some r =>
    bodySetTransform (some r) (w.bodies r).posX (w.bodies r).posY
      ((w.bodies r).angle + angle * Deg) w

def CollideWith (s object : Ptr) (w : World) : World :=
  setShape w s (fun sh => { sh with CollisionObjects := sh.CollisionObjects ++ [object] })

def FinishCollideWith (s object : Ptr) (w : World) : World :=
  setShape w s (fun sh =>
    { sh with CollisionObjects :=
        sh.CollisionObjects.eraseP (fun obj => (w.heap obj).ID == (w.heap object).ID) })

def IsCollidingWith (s target : Ptr) (w : World) : Bool :=
  (w.heap s).CollisionObjects.any (fun obj => (w.heap obj).ID == (w.heap target).ID)

def NotCollideWith (s other : Ptr) (w : World) : Out :=
  (requireInit s w).andThen fun w1 =>
  (requireInit other w1).andThen fun w2 =>
    let w3 := setShape w2 s (fun sh =>
      { sh with noCollideWith := Function.update sh.noCollideWith (w2.heap other).ID true })
    Out.ret (setShape w3 other (fun sh =>
      { sh with noCollideWith := Function.update sh.noCollideWith (w3.heap s).ID true }))

def RestoreCollisionWith (s other : Ptr) (w : World) : Out :=
  (requireInit s w).andThen fun w1 =>
  (requireInit other w1).andThen fun w2 =>
    let w3 := setShape w2 s (fun sh =>
      { sh with noCollideWith := Function.update sh.noCollideWith (w2.heap other).ID false })
    Out.ret (setShape w3 other (fun sh =>
      { sh with noCollideWith := Function.update sh.noCollideWith (w3.heap s).ID false }))

def ShouldCollideWith (s other : Ptr) (w : World) : Bool :=
  !(w.heap s).noCollideWith (w.heap other).ID

/-- The first half of `updateDirection` (X axis). -/
def updateDirectionX (env : Env) (s : Ptr) (w : World) : Out :=
  let sh := w.heap s
  if |sh.Velocity.X| > EPSILON_DIRECTION_CHANGED then
    let newDirection : AxisX := match sh.directions.X with
      | some d => d
      | none => ""
    let newDirection : AxisX :=
      if sh.Velocity.X < 0 ∧ (sh.directions.X = none ∨ sh.directions.X ≠ some DirectionLeft) then
        DirectionLeft
      else if sh.Velocity.X > 0 ∧
          (sh.directions.X = none ∨ sh.directions.X ≠ some DirectionRight) then
        DirectionRight
      else newDirection
    let w1 := setShape w s (fun sh1 =>
      { sh1 with directions := { sh1.directions with X := some newDirection } })
    if (w1.heap s).directions.X ≠ none ∧ (w1.heap s).directions.Y ≠ none then
      Emit env (some s) EventDirectionChange (Payload.direction s) w1
    else Out.ret w1
  else if sh.Velocity.X ≠ 0 then SetXVelocity s 0 w
  else Out.ret w

/-- The second half of `updateDirection` (Y axis). -/
def updateDirectionY (env : Env) (s : Ptr) (w : World) : Out :=
  let sh := w.heap s
  if |sh.Velocity.Y| > EPSILON_DIRECTION_CHANGED then
    let newDirection : AxisY := match sh.directions.Y with
      | some d => d
      | none => ""
    let newDirection : AxisY :=
      if sh.Velocity.Y < 0 ∧ (sh.directions.Y = none ∨ sh.directions.Y ≠ some DirectionUp) then
        DirectionUp
      else if sh.Velocity.Y > 0 ∧
          (sh.directions.Y = none ∨ sh.directions.Y ≠ some DirectionDown) then
        DirectionDown
      else newDirection
    let w1 := setShape w s (fun sh1 =>
      { sh1 with directions := { sh1.directions with Y := some newDirection } })
    if (w1.heap s).directions.Y ≠ none ∧ (w1.heap s).directions.X ≠ none then
      Emit env (some s) EventDirectionChange (Payload.direction s) w1
    else Out.ret w1
  else if sh.Velocity.Y ≠ 0 then SetXVelocity s 0 w
  else Out.ret w

def updateDirection (env : Env) (s : Ptr) (w : World) : Out :=
  (updateDirectionX env s w).andThen (updateDirectionY env s)

/-- Go's `float64(int(f))`: truncation toward zero. -/
def truncQ (q : ℚ) : ℚ := ((q.num.tdiv q.den : Int) : ℚ)

def updatePhysicsInfo (s : Ptr) (w : World) : Out :=
  match (w.heap s).Body with
  | none => Out.panic nilDeref w
  | some r =>
    let b := w.bodies r
    Out.ret (setShape w s (fun sh =>
      { sh with
        X := MetersToPixels b.posX - sh.Width / 2
        Y := MetersToPixels b.posY - sh.Height / 2
        RotationAngle := b.angle
        RotationSpeed := b.angVel
        Velocity := NewVector2 (truncQ (MetersToPixels b.velX)) (truncQ (MetersToPixels b.velY))
        Mass := if b.mass > 0 then b.mass else 1 }))

/-- Method `(*Shape).Update`. -/
def shapeUpdate (env : Env) (s : Ptr) (w : World) : Out :=
  (updateDirection env s w).andThen (updatePhysicsInfo s)

/-! ## world.go : contact listener -/

/-- The lookup loop shared by the four listener callbacks: scan the registry
for the shapes owning `bodyA` and `bodyB`. -/
def resolveShapes (w : World) (bodyA bodyB : BodyRef) : Option Ptr × Option Ptr :=
  w.Objects.foldl (fun acc obj =>
    if (w.heap obj).Body = some bodyA then (some obj, acc.2)
    else if (w.heap obj).Body = some bodyB then (acc.1, some obj)
    else acc) (none, none)

/-- Callback `PreSolve`: the contact as the callback leaves it. -/
def PreSolve (w : World) (contact : Contact) : Contact :=
  match contact.fixtureA, contact.fixtureB with
  | some bodyA, some bodyB =>
    match resolveShapes w bodyA bodyB with
    | (some shapeA, some shapeB) =>
      if !ShouldCollideWith shapeA shapeB w || !ShouldCollideWith shapeB shapeA w then
        { contact with enabled := false }
      else contact
    | _ => contact
  | _, _ => contact

def PostSolve (contact : Contact) (w : World) : Out :=
  match contact.fixtureA, contact.fixtureB with
  | some bodyA, some bodyB =>
    match resolveShapes w bodyA bodyB with
    | (some shapeA, some shapeB) =>
      if |contact.normalY| > 7 / 10 then
        if contact.impulse > 1 / 2 then
          let w1 := setShape w shapeA (fun sh => { sh with LastCollisionImpulse := contact.impulse })
          Out.ret (setShape w1 shapeB (fun sh =>
            { sh with LastCollisionImpulse := contact.impulse }))
        else Out.ret w
      else Out.ret w
    | _ => Out.ret w
  | _, _ => Out.panic nilDeref w

def queueCollision (shapeA shapeB : Ptr) (w : World) : World :=
  { w with collisionQueue := w.collisionQueue ++ [{ ShapeA := shapeA, ShapeB := shapeB }] }

def BeginContact (contact : Contact) (w : World) : World :=
  match contact.fixtureA, contact.fixtureB with
  | some bodyA, some bodyB =>
    match resolveShapes w bodyA bodyB with
    | (some shapeA, some shapeB) => queueCollision shapeA shapeB w
    | _ => w
  | _, _ => w

def EndContact (contact : Contact) (w : World) : World :=
  match contact.fixtureA, contact.fixtureB with
  | some bodyA, some bodyB =>
    match resolveShapes w bodyA bodyB with
    | (some shapeA, some shapeB) =>
      FinishCollideWith shapeB shapeA (FinishCollideWith shapeA shapeB w)
    | _ => w
  | _, _ => w

/-- One callback made by the engine while it steps. -/
def listenerCall (cb : ContactCb) (w : World) : Out :=
  match cb with
  | ContactCb.begin c => Out.ret (BeginContact c w)
  | ContactCb.finish c => Out.ret (EndContact c w)
  | ContactCb.preSolve c =>
    { w := w, log := if PreSolve w c = c then [] else [Ev.disableContact c] }
  | ContactCb.postSolve c => PostSolve c w

/-- Call of `PhysicsWorld.Step`: the engine calls the listener, then moves the
bodies. -/
def physicsStep (env : Env) (dt : ℚ) (w : World) : Out :=
  Out.andThen { w := w, log := [Ev.physicsStep dt] } fun w0 =>
    (forEach (env.stepContacts w0 dt) listenerCall w0).andThen fun w1 =>
      Out.ret { w1 with bodies := env.stepBodies w0 dt }

/-! ## world.go : collision queue -/

/-- Call of `shape.OnCollisionFunc(other)` when the field is set. -/
def callOnCollision (env : Env) (s other : Ptr) (w : World) : Out :=
  match (w.heap s).OnCollisionFunc with
  | none => Out.ret w
  | some id => { w := env.onCollision id other w, log := [Ev.onCollision id other] }

/-- The body of the loop of `processCollisions`. -/
def dispatchCollision (env : Env) (collision : CollisionEvent) (w : World) : Out :=
  let shapeA := collision.ShapeA
  let shapeB := collision.ShapeB
  (Emit env none EventCollision (Payload.collision shapeA shapeB) w).andThen fun w1 =>
    let w2 := CollideWith shapeB shapeA (CollideWith shapeA shapeB w1)
    (callOnCollision env shapeA shapeB w2).andThen (callOnCollision env shapeB shapeA)

def processCollisions (env : Env) (w : World) : Out :=
  let collisions := w.collisionQueue
  forEach collisions (dispatchCollision env) { w with collisionQueue := [] }

/-! ## world.go : levels -/

def SwitchToLevel (levelIndex : Int) (w : World) : World :=
  if levelIndex < 0 ∨ levelIndex ≥ w.Levels.length then w
  else { w with pendingLevelSwitch := some levelIndex }

def NextLevel (w : World) : World :=
  if w.CurrentLevel + 1 ≥ w.Levels.length then w
  else SwitchToLevel (w.CurrentLevel + 1) w

/-- Call of `PhysicsWorld.DestroyBody`: the body leaves the physics world and
its fixtures are destroyed. -/
def DestroyBody (b : BodyRef) (w : World) : World :=
  { w with
    liveBodies := w.liveBodies.filter (fun x => x != b)
    bodies := Function.update w.bodies b { w.bodies b with hasFixture := false } }

/-- Byte offset and rune of every character of a row, as `range row`
yields them. -/
def rowCellsFrom : List Char → Nat → List (Nat × Char)
  | [], _ => []
  | c :: cs, i => (i, c) :: rowCellsFrom cs (i + c.utf8Size)

def rowCells (row : String) : List (Nat × Char) := rowCellsFrom row.data 0

/-- The body of the inner loop of `GenerateLevelFromMap`. -/
def spawnTile (env : Env) (objects : String → Option Nat) (tileWidth tileHeight : ℚ)
    (y : Nat) (cell : Nat × Char) (w : World) : Out :=
  match objects (String.singleton cell.2) with
  | none => Out.ret w
  | some fn =>
    let overlap : ℚ := 1 / 2
    let pos : Vector2 :=
      { X := (cell.1 : ℚ) * tileWidth - overlap / 2, Y := (y : ℚ) * tileHeight - overlap / 2 }
    { w := env.spawn fn pos (tileWidth + overlap) (tileHeight + overlap) w
      log := [Ev.spawn fn pos.X pos.Y (tileWidth + overlap) (tileHeight + overlap)] }

/-- Function `GenerateLevelFromMap`. The column index of a tile is the byte
offset of its character, as in Go; a first row of length 0 makes the tile
width a division by zero (an infinity in Go, 0 here). -/
def GenerateLevelFromMap (env : Env) (levelMap : List String) (objects : String → Option Nat)
    (w : World) : Out :=
  if levelMap.length = 0 then Out.ret w
  else
    let rows := levelMap.length
    let cols := (levelMap.headD "").utf8ByteSize
    let tileWidth : ℚ := (w.Width : ℚ) / (cols : ℚ)
    let tileHeight : ℚ := (w.Height : ℚ) / (rows : ℚ)
    forEach levelMap.enum (fun yrow w1 =>
      forEach (rowCells yrow.2) (spawnTile env objects tileWidth tileHeight yrow.1) w1) w

/-- Call of a function stored in `Level.Init`. The closure installed by
`NewWorld` calls `world.Levels[world.CurrentLevel].Init(world)`; `depth` is
the room left on the goroutine stack. -/
def callInit (env : Env) : Nat → InitFn → World → Out
  | _, InitFn.user id, w => { w := env.hook id w, log := [Ev.init id] }
  | 0, InitFn.defaultInit, w => Out.panic "stack overflow" w
  | depth + 1, InitFn.defaultInit, w =>
    if w.CurrentLevel < 0 ∨ w.CurrentLevel ≥ w.Levels.length then
      Out.panic "index out of range" w
    else
      match (w.Levels.getD w.CurrentLevel.toNat {}).Init with
      | none => Out.panic nilDeref w
      | some f => callInit env depth f w

/-- The body of the teardown loop of `SelectLevel`. -/
def teardownShape (obj : Ptr) (w : World) : Out :=
  match (w.heap obj).Body with
  | some b =>
    { w := setShape (DestroyBody b w) obj (fun sh => { sh with Body := none })
      log := [Ev.destroyBody b] }
  | none => Out.ret w

/-- The last three steps of `SelectLevel`: the level's init hook, the spawn
functions of its map, its mount hook. -/
def enterLevel (env : Env) (level : Level) (w : World) : Out :=
  (match level.Init with
    | some f => callInit env env.maxDepth f w
    | none => Out.ret w).andThen fun w5 =>
  (GenerateLevelFromMap env level.Map level.MapItems w5).andThen fun w6 =>
  match level.OnMount with
  | some id => { w := env.hook id w6, log := [Ev.onMount id] }
  | none => Out.ret w6

/-- The assignments of `SelectLevel` between the teardown loop and the init
hook: the registry is replaced by an empty one and the level's `Tick` and
`Render` are installed. -/
def installLevel (level : Level) (w : World) : World :=
  { w with
    Objects := []
    Tick := some (match level.Tick with
      | some id => LoopFn.level id
      | none => LoopFn.noop)
    Render := some (match level.Render with
      | some id => LoopFn.level id
      | none => LoopFn.noop) }

def SelectLevel (env : Env) (index : Int) (w : World) : Out :=
  if index < 0 ∨ index ≥ w.Levels.length then Out.ret w
  else
    let w1 := { w with CurrentLevel := index }
    let level := w1.Levels.getD index.toNat {}
    (match level.OnDestroy with
      | some id => ({ w := env.hook id w1, log := [Ev.onDestroy id] } : Out)
      | none => Out.ret w1).andThen fun w2 =>
    (forEach w2.Objects teardownShape w2).andThen fun w3 =>
    enterLevel env level (installLevel level w3)

/-! ## world.go : registry -/

def geometryMsg : String := "Width and Height must be greater than 0 for rectangle shapes"

/-- Function `createPhysicsBody`: a fresh body is created in the physics
world before the geometry check, so it exists even when the check panics.
The mass follows box2d's `SetMassData` (0 for a static body, 1 for a
non-positive mass). -/
def createPhysicsBody (object : Ptr) (w : World) : Out :=
  let o := w.heap object
  let isStatic : Bool := !o.IsBody || o.Tag == "border"
  let centerX := o.X + o.Width / 2
  let centerY := o.Y + o.Height / 2
  let body : BodyRef := w.nextBody
  let bodyDef : Body :=
    { isStatic := isStatic
      gravityScale := if o.Physics then 1 else 0
      fixedRotation := false
      posX := PixelsToMeters centerX
      posY := PixelsToMeters centerY
      mass := if isStatic then 0 else if o.Mass ≤ 0 then 1 else o.Mass }
  let w1 : World :=
    { w with
      bodies := Function.update w.bodies body bodyDef
      liveBodies := w.liveBodies ++ [body]
      nextBody := body + 1 }
  if o.kind ≠ ShapeCircle ∧ (o.Width ≤ 0 ∨ o.Height ≤ 0) then Out.panic geometryMsg w1
  else
    let w2 := setBody w1 body (fun d =>
      { d with
        hasFixture := true
        isCircle := o.kind = ShapeCircle
        radius := if o.kind = ShapeCircle then PixelsToMeters o.Radius else 0
        halfW := if o.kind = ShapeCircle then 0 else PixelsToMeters (o.Width / 2)
        halfH := if o.kind = ShapeCircle then 0 else PixelsToMeters (o.Height / 2)
        sensor := o.Ghost
        friction := o.Friction
        restitution := o.Rebound
        categoryBits := 1
        maskBits := 65535
        groupIndex := 0 })
    Out.ret (setShape w2 object (fun sh => { sh with Body := some body }))

def Register (object : Ptr) (w : World) : Out :=
  let w1 := setShape w object (fun sh => { sh with world := true })
  createPhysicsBody object { w1 with Objects := w1.Objects ++ [object] }

def Unregister (object : Ptr) (w : World) : Out :=
  match w.Objects.find? (fun obj => (w.heap obj).ID == (w.heap object).ID) with
  | none => Out.ret w
  | some obj =>
    let o1 : Out := match (w.heap obj).Body with
      | some b => { w := DestroyBody b w, log := [Ev.destroyBody b] }
      | none => Out.ret w
    o1.andThen fun w1 =>
      Out.ret { w1 with
        Objects := w1.Objects.eraseP (fun x => (w.heap x).ID == (w.heap object).ID) }

/-- The fields of `WorldProps` that reach the modelled part of `World`. -/
structure WorldProps where
  Width : Int := 0
  Height : Int := 0
  Paused : Bool := false
  Levels : List Level := []

/-- Constructor `NewWorld`; `now` is the reading of the clock. The audio
manager, the gravity vector and the drawing fields are not modelled. -/
def NewWorld (props : WorldProps) (now : ℚ) : World :=
  { Width := if props.Width = 0 then 800 else props.Width
    Height := if props.Height = 0 then 600 else props.Height
    Tick := some LoopFn.dispatch
    Render := some LoopFn.dispatch
    Paused := props.Paused
    lastUpdate := some now
    Levels :=
      if props.Levels.length = 0 then
        [{ Map := [], MapItems := fun _ => none, Init := some InitFn.defaultInit,
           Tick := none, Render := none }]
      else props.Levels
    CurrentLevel := 0
    pendingLevelSwitch := none
    collisionQueue := [] }

/-! ## world.go : frame -/

def HoveredObjects (w : World) : List Ptr :=
  w.Objects.filter (fun obj =>
    decide (w.Mouse.X ≥ (w.heap obj).X ∧ w.Mouse.X ≤ (w.heap obj).X + (w.heap obj).Width ∧
      w.Mouse.Y ≥ (w.heap obj).Y ∧ w.Mouse.Y ≤ (w.heap obj).Y + (w.heap obj).Height))

def handleMouseDown (env : Env) (x y : ℚ) (w : World) : Out :=
  (forEach (HoveredObjects w) (fun obj w1 =>
    if (w1.heap obj).Clicked then Out.ret w1
    else
      Emit env (some obj) EventMouseDown (Payload.point x y)
        (setShape w1 obj (fun sh => { sh with Clicked := true }))) w).andThen fun w2 =>
  match w2.OnMouseDown with
  | some id => { w := env.mouse id x y w2, log := [Ev.mouseCallback id x y] }
  | none => Out.ret w2

def handleMouseUp (env : Env) (x y : ℚ) (w : World) : Out :=
  (forEach (HoveredObjects w) (fun obj w1 =>
    (Emit env (some obj) EventMouseUp (Payload.point x y) w1).andThen fun w2 =>
    (Emit env (some obj) EventClick (Payload.point x y) w2).andThen fun w3 =>
      if (w3.heap obj).Clicked then
        Out.ret (setShape w3 obj (fun sh => { sh with Clicked := false }))
      else Out.ret w3) w).andThen fun w4 =>
  match w4.OnMouseUp with
  | some id => { w := env.mouse id x y w4, log := [Ev.mouseCallback id x y] }
  | none => Out.ret w4

def updateInput (env : Env) (fr : Frame) (w : World) : Out :=
  let w1 : World :=
    { w with
      Mouse :=
        { X := (fr.cursorX : ℚ), Y := (fr.cursorY : ℚ), IsLeftClicked := fr.left,
          IsRightClicked := fr.right, IsMiddleClicked := fr.middle }
      Keys := fun key => if key ≤ fr.keyMax then fr.pressed key else w.Keys key }
  Out.andThen { w := w1, log := [Ev.sampleInput] } fun w2 =>
  (if fr.leftJustPressed then handleMouseDown env w2.Mouse.X w2.Mouse.Y w2
    else Out.ret w2).andThen fun w3 =>
  if fr.leftJustReleased then handleMouseUp env w3.Mouse.X w3.Mouse.Y w3 else Out.ret w3

/-- Call of `w.Tick(LoopData ...)` when the field is set. -/
def callTick (env : Env) (dt now : ℚ) (w : World) : Out :=
  match w.Tick with
  | none => Out.ret w
  | some LoopFn.noop => Out.ret w
  | some (LoopFn.level id) => { w := env.tick id dt now w, log := [Ev.tick id] }
  | some LoopFn.dispatch =>
    if w.CurrentLevel < 0 then Out.panic "index out of range" w
    else if w.CurrentLevel < w.Levels.length then
      match (w.Levels.getD w.CurrentLevel.toNat {}).Tick with
      | some id => { w := env.tick id dt now w, log := [Ev.tick id] }
      | none => Out.ret w
    else Out.ret w

/-- The elapsed time computed at the start of `Update`. -/
def elapsed (w : World) (now : ℚ) : ℚ :=
  match w.lastUpdate with
  | some t => now - t
  | none => 1 / 60

/-- Method `(*World).Update`; the call of `AudioManager.Update` between the
physics step and the dispatch of the queue is not modelled. -/
def Update (env : Env) (fr : Frame) (w : World) : Out :=
  if w.Paused then Out.ret w
  else
    let now := fr.now
    let deltaTime : ℚ := elapsed w now
    let w0 := { w with lastUpdate := some now }
    (physicsStep env deltaTime w0).andThen fun w1 =>
    (processCollisions env w1).andThen fun w2 =>
    match w2.pendingLevelSwitch with
    | some levelIndex => SelectLevel env levelIndex { w2 with pendingLevelSwitch := none }
    | none =>
      (forEach w2.Objects (fun obj w3 =>
        Out.andThen { w := w3, log := [Ev.shapeUpdate obj] } (shapeUpdate env obj)) w2).andThen
        fun w4 => (callTick env deltaTime now w4).andThen (updateInput env fr)

/-! ## Concrete inputs -/

/-- User code that does nothing and an engine that reports no contact and
moves no body. -/
def idleEnv : Env :=
  { hook := fun _ w => w
    tick := fun _ _ _ w => w
    spawn := fun _ _ _ _ w => w
    handler := fun _ _ w => w
    onCollision := fun _ _ w => w
    mouse := fun _ _ _ w => w
    stepContacts := fun _ _ => []
    stepBodies := fun w _ => w.bodies
    maxDepth := 0 }

/-- Two levels, each with its own destroy and init hook; level 0 is active
and one shape (address 0, body 0) is live. -/
def twoLevelWorld : World :=
  { Levels :=
      [{ OnDestroy := some 10, Init := some (InitFn.user 20) },
       { OnDestroy := some 11, Init := some (InitFn.user 21) }]
    CurrentLevel := 0
    Objects := [0]
    heap := fun _ => { ID := "a", Body := some 0 }
    liveBodies := [0]
    nextBody := 1 }

/-- Each body in the registry belongs to one registered shape. -/
def BodiesOwnedOnce (w : World) : Prop :=
  ∀ p ∈ w.Objects, ∀ q ∈ w.Objects, (w.heap p).Body ≠ none →
    (w.heap p).Body = (w.heap q).Body → p = q

/-- A shape as `NewShape` leaves it: geometry set, no body, no world. -/
def detachedWorld : World :=
  { heap := fun _ => { ID := "a", Width := 10, Height := 10, Scale := 1, Opacity := 1 } }

/-- Two registered shapes: address 0 (ID "a", body 0), which already exempts
"b", and address 1 (ID "b", body 1). -/
def pairWorld : World :=
  { heap := fun p =>
      if p = 0 then
        { ID := "a", Width := 10, Height := 10, Body := some 0, world := true,
          noCollideWith := fun k => k == "b" }
      else { ID := "b", Width := 10, Height := 10, Body := some 1, world := true }
    Objects := [0, 1]
    liveBodies := [0, 1]
    nextBody := 2 }

/-- Emissions among the events of a log. -/
def Ev.isEmit : Ev → Bool
  | Ev.emit _ _ _ => true
  | _ => false

/-- A sequence of `queueCollision` calls. -/
def enqueueAll (ps : List (Ptr × Ptr)) (w : World) : World :=
  ps.foldl (fun w1 p => queueCollision p.1 p.2 w1) w

/-- The world-level collision event carrying a queued pair. -/
def collisionEmit (c : CollisionEvent) : Ev :=
  Ev.emit none EventCollision (Payload.collision c.ShapeA c.ShapeB)

/-- The world of `pairWorld` with handler 7 listening for collisions on the
world emitter and collision callback 8 on every shape. -/
def listeningWorld : World :=
  { events := fun e => if e = EventCollision then [EventHandler.fn 7] else []
    heap := fun p =>
      { ID := if p = 0 then "a" else "b", Width := 10, Height := 10, Body := some p,
        world := true, OnCollisionFunc := some 8 }
    Objects := [0, 1, 2, 3]
    liveBodies := [0, 1, 2, 3]
    nextBody := 4 }

/-- Events of the rest of a frame: a shape's `Update`, a `Tick` call, input
sampling and the mouse callbacks it makes. -/
def Ev.isFrameTail : Ev → Bool
  | Ev.shapeUpdate _ => true
  | Ev.tick _ => true
  | Ev.sampleInput => true
  | Ev.mouseCallback _ _ _ => true
  | _ => false

/-- The registry, the body references, the level table, the pending switch
and the set of live bodies are the same in both worlds. -/
structure Untouched (w w1 : World) : Prop where
  objects : w1.Objects = w.Objects
  body : ∀ p, (w1.heap p).Body = (w.heap p).Body
  pending : w1.pendingLevelSwitch = w.pendingLevelSwitch
  levels : w1.Levels = w.Levels
  liveBodies : w1.liveBodies = w.liveBodies

/-- The level table and the pending switch are the same in both worlds. -/
structure SwitchKept (w w1 : World) : Prop where
  pending : w1.pendingLevelSwitch = w.pendingLevelSwitch
  levels : w1.Levels = w.Levels

/-- A frame at clock reading 1 with no input. -/
def idleFrame : Frame := { now := 1 }

/-- World `twoLevelWorld` with a switch to level 1 pending and one queued
collision of the live shape with itself. -/
def pendingWorld : World :=
  { twoLevelWorld with
    lastUpdate := some 0
    pendingLevelSwitch := some 1
    collisionQueue := [{ ShapeA := 0, ShapeB := 0 }] }

/-- User code in which hook 21 registers the shape at address 5 and every
other function does nothing. -/
def spawningEnv : Env :=
  { idleEnv with hook := fun id w => if id = 21 then (Register 5 w).w else w }

/-- IDs of the registry entries, in registry order. -/
def registryIDs (w : World) : List String := w.Objects.map (fun p => (w.heap p).ID)

/-- A newly created world and the shapes user code has allocated: address
0 holds a 10 by 10 rectangle with ID "a", address 1 one with ID "b". -/
def freshWorld : World :=
  { NewWorld {} 0 with
    heap := fun p => { ID := if p = 0 then "a" else "b", Width := 10, Height := 10 } }

/-! ## world.go : teardown of the world, tag filters -/

/-- Method `(*World).Destroy`: the bodies of the registry entries are
destroyed and the registry is dropped. The fields set to nil afterwards
(`PhysicsWorld`, `contactListener`) and the audio cleanup are not
modelled. -/
def Destroy (w : World) : Out :=
  (forEach w.Objects (fun obj w1 =>
    match (w1.heap obj).Body with
    | some b => ({ w := DestroyBody b w1, log := [Ev.destroyBody b] } : Out)
    | none => Out.ret w1) w).andThen fun w2 => Out.ret { w2 with Objects := [] }

def IsOutOfMap (s : Ptr) (w : World) : Bool :=
  if (w.heap s).world = false then false
  else
    decide ((w.heap s).X < 0 ∨ (w.heap s).X > (w.Width : ℚ) ∨
      (w.heap s).Y < 0 ∨ (w.heap s).Y > (w.Height : ℚ))

def GetElementsByTagName (tag : String) (w : World) : List Ptr :=
  w.Objects.filter (fun obj => (w.heap obj).Tag == tag)

/-- The value of a Go `int` (64 bits, two's complement) after wrap-around. -/
def wrapInt64 (x : Int) : Int := (x + 2 ^ 63) % 2 ^ 64 - 2 ^ 63

/-- The value of a Go `int16` after wrap-around. -/
def wrapInt16 (x : Int) : Int := (x + 2 ^ 15) % 2 ^ 16 - 2 ^ 15

/-- The hash loop of `getTagGroupIndex` and `getTagCategoryBit`:
`hash = hash*31 + int(char)` over the runes of the tag, in `int`. -/
def tagHash (tag : String) : Int :=
  tag.data.foldl (fun hash char => wrapInt64 (hash * 31 + (char.toNat : Int))) 0

/-- Function `getTagGroupIndex`; `%` of Go truncates toward zero. -/
def getTagGroupIndex (tag : String) : Int :=
  (tagHash tag).tmod 32000 + 1

def negativeShiftMsg : String := "runtime error: negative shift amount"

/-- Function `getTagCategoryBit`: `uint16(1 << bitPosition)`, or `none` when
the shift count is negative and the shift panics. -/
def getTagCategoryBit (tag : String) : Option Nat :=
  let bitPosition := (tagHash tag).tmod 15 + 1
  if bitPosition < 0 then none else some ((1 <<< bitPosition.toNat) % 65536)

/-- The guarded write of the loops of `SetTagCollisionFilter` and
`setupCategoryMaskFiltering`: the filter of the fixture of the shape's body
is changed when the shape has a body and the body has a fixture. -/
def setFilterOf (shape : Ptr) (f : Body → Body) (w : World) : World :=
  match (w.heap shape).Body with
  | some b => if (w.bodies b).hasFixture then setBody w b f else w
  | none => w

/-- The loop of `setupCategoryMaskFiltering` that collects the mask:
`maskBits |= uint16(1 << getTagCategoryBit(tag))` for every listed tag. -/
def maskBitsOf : List String → Nat → Option Nat
  | [], maskBits => some maskBits
  | t :: ts, maskBits =>
    match getTagCategoryBit t with
    | none => none
    | some bit => maskBitsOf ts (maskBits ||| ((1 <<< bit) % 65536))

def setupCategoryMaskFiltering (tag : String) (collidesWith : List String) (w : World) : Out :=
  let taggedShapes := GetElementsByTagName tag w
  match getTagCategoryBit tag with
  | none => Out.panic negativeShiftMsg w
  | some bit =>
    let categoryBit := (1 <<< bit) % 65536
    match maskBitsOf collidesWith 0 with
    | none => Out.panic negativeShiftMsg w
    | some maskBits =>
      Out.ret (taggedShapes.foldl (fun w1 shape =>
        setFilterOf shape
          (fun d => { d with categoryBits := categoryBit, maskBits := maskBits }) w1) w)

def SetTagCollisionFilter (tag : String) (collidesWith : List String) (w : World) : Out :=
  let taggedShapes := GetElementsByTagName tag w
  if taggedShapes.length = 0 then Out.ret w
  else
    let groupIndex := wrapInt16 (getTagGroupIndex tag)
    let groupIndex := if collidesWith.length = 0 then wrapInt16 (-groupIndex) else groupIndex
    let w1 := taggedShapes.foldl (fun w1 shape =>
      setFilterOf shape (fun d => { d with groupIndex := groupIndex }) w1) w
    if collidesWith.length > 0 then setupCategoryMaskFiltering tag collidesWith w1
    else Out.ret w1

/-- One registered shape (address 0, body 0 with its fixture) tagged
"player-bullet" and one (address 1, body 1) tagged "a". -/
def taggedWorld : World :=
  { heap := fun p =>
      { ID := if p = 0 then "x" else "y", Tag := if p = 0 then "player-bullet" else "a",
        Width := 10, Height := 10, Body := some p, world := true }
    bodies := fun _ => { hasFixture := true }
    Objects := [0, 1]
    liveBodies := [0, 1]
    nextBody := 2 }

/-- One registered shape at address 0 whose body (handle 0) moves right and
down at one metre per step unit; the cached velocity is what
`updatePhysicsInfo` reads from that body, and no direction has been recorded
yet. -/
def movingWorld : World :=
  { heap := fun _ =>
      { ID := "m", Width := 10, Height := 10, Body := some 0, world := true,
        Velocity := { X := 8, Y := 8 } }
    bodies := fun _ => { velX := 1, velY := 1, isStatic := false, hasFixture := true }
    Objects := [0]
    liveBodies := [0]
    nextBody := 1 }

/-- Every shape that holds a body reference is in the registry. -/
def BodiesRegistered (w : World) : Prop :=
  ∀ p, (w.heap p).Body ≠ none → p ∈ w.Objects

/-- A world 800 by 600 with one registered shape, at address 0 with body 0,
placed at x = -1; every other address holds a detached shape. Its only
level has init hook 21. -/
def strayWorld : World :=
  { heap := fun p =>
      if p = 0 then
        { ID := "s", X := -1, Width := 10, Height := 10, Body := some 0, world := true }
      else { ID := "t", Width := 10, Height := 10 }
    bodies := fun _ => { isStatic := false, hasFixture := true }
    Levels := [{ Init := some (InitFn.user 21) }]
    Objects := [0]
    liveBodies := [0]
    nextBody := 1 }

/-- A newly created world in which address 0 holds a detached rectangle of
width 0 and height 10. -/
def degenerateWorld : World :=
  { NewWorld {} 0 with heap := fun _ => { ID := "d", Width := 0, Height := 10 } }

/-- Calls of `On(event, h)` for the handlers of a list, in the order of the
list, on one emitter. -/
def registerAll (source : Option Ptr) (event : EventType) (hs : List EventHandler)
    (w : World) : World :=
  hs.foldl (fun w1 h => On source event h w1) w

/-- The world of `movingWorld` with the directions (right, down) recorded for
the shape, which moves along the X axis only: the cached velocity is (8, 0)
and the body moves right at one metre per step unit. -/
def slidingWorld : World :=
  { movingWorld with
    heap := fun _ =>
      { ID := "m", Width := 10, Height := 10, Body := some 0, world := true,
        Velocity := { X := 8, Y := 0 },
        directions := { X := some DirectionRight, Y := some DirectionDown } }
    bodies := fun _ => { velX := 1, velY := 0, isStatic := false, hasFixture := true } }

/-- Events that are the emission of a direction change by shape `s`. -/
def Ev.isDirectionChange (s : Ptr) : Ev → Bool
  | Ev.emit (some p) event _ => p = s && event = EventDirectionChange
  | _ => false

/-- The world of `movingWorld` with the directions (right, down) recorded for
the shape, which now moves left and up: the cached velocity is (-8, -8). -/
def turningWorld : World :=
  { movingWorld with
    heap := fun _ =>
      { ID := "m", Width := 10, Height := 10, Body := some 0, world := true,
        Velocity := { X := -8, Y := -8 },
        directions := { X := some DirectionRight, Y := some DirectionDown } }
    bodies := fun _ => { velX := -1, velY := -1, isStatic := false, hasFixture := true } }

/-- A world 800 by 600 with an attached shape at x = -1 (address 0), an
attached shape at (400, 300) (address 1) and detached shapes at x = -1
elsewhere. -/
def boundsWorld : World :=
  { Width := 800
    Height := 600
    heap := fun p =>
      if p = 0 then { ID := "a", X := -1, Width := 10, Height := 10, world := true }
      else if p = 1 then
        { ID := "b", X := 400, Y := 300, Width := 10, Height := 10, world := true }
      else { ID := "c", X := -1, Width := 10, Height := 10 }
    Objects := [0, 1] }

/-- The spawn function called by an event, when the event is such a call. -/
def Ev.spawnFn : Ev → Option Nat
  | Ev.spawn id _ _ _ _ => some id
  | _ => none

/-- The call that the inner loop of `GenerateLevelFromMap` makes for one
character: none when the character has no entry in the mapping. -/
def tileCall (objects : String → Option Nat) (tileWidth tileHeight : ℚ) (y : Nat)
    (cell : Nat × Char) : List Ev :=
  match objects (String.singleton cell.2) with
  | none => []
  | some fn =>
    [Ev.spawn fn ((cell.1 : ℚ) * tileWidth - 1 / 2 / 2) ((y : ℚ) * tileHeight - 1 / 2 / 2)
      (tileWidth + 1 / 2) (tileHeight + 1 / 2)]

/-- The mapping with the single key "#", bound to spawn function 1. -/
def wallItems : String → Option Nat := fun k => if k = "#" then some 1 else none

/-- The contact between body 0 and body 1. -/
def grazeContact : Contact := { fixtureA := some 0, fixtureB := some 1 }

/-- An engine whose step reports that body 0 and body 1 start touching and
stop touching within the same step; user code does nothing. -/
def grazingEnv : Env :=
  { idleEnv with
    stepContacts := fun _ _ => [ContactCb.begin grazeContact, ContactCb.finish grazeContact] }

/-- The cached transform of shape `s` is what `updatePhysicsInfo` would read
back from its body: `X = centerX*PTM - Width/2`, `Y = centerY*PTM - Height/2`
and `RotationAngle` the angle of the body. -/
def CacheCoherent (s : Ptr) (w : World) : Bool :=
  match (w.heap s).Body with
  | none => false
  | some r =>
    decide ((w.heap s).X = MetersToPixels (w.bodies r).posX - (w.heap s).Width / 2 ∧
      (w.heap s).Y = MetersToPixels (w.bodies r).posY - (w.heap s).Height / 2 ∧
      (w.heap s).RotationAngle = (w.bodies r).angle)

/-- One registered shape at address 0, 10 by 10 at (0, 0) with scale 1 and
angle 0, whose body (handle 0) has its centre at (5/8, 5/8) metres and angle
0. -/
def coherentWorld : World :=
  { heap := fun _ =>
      { ID := "c", Width := 10, Height := 10, Scale := 1, Body := some 0, world := true }
    bodies := fun _ => { posX := 5 / 8, posY := 5 / 8, hasFixture := true }
    Objects := [0]
    liveBodies := [0]
    nextBody := 1 }

/-! ## Package sort of the Go standard library

`World.Draw` sorts with `sort.Slice`. The library is not part of the
repository; what follows transcribes its algorithm (pattern-defeating
quicksort, Go 1.19 and later) on a list that stands for the slice, with
`less` comparing the elements currently at two indices. Every loop carries a
bound on its number of iterations. -/

/-- The call `less(i, j)` on the current content of the slice. -/
def lessAt {α : Type} (less : α → α → Bool) (data : List α) (i j : Nat) : Bool :=
  match data[i]?, data[j]? with
  | some x, some y => less x y
  | _, _ => false

/-- The call `swap(i, j)`. -/
def swapAt {α : Type} (data : List α) (i j : Nat) : List α :=
  match data[i]?, data[j]? with
  | some x, some y => (data.set i y).set j x
  | _, _ => data

/-- The inner loop of `insertionSort_func`:
`for j := i; j > a && less(j, j-1); j-- { swap(j, j-1) }`. -/
def insertionInner {α : Type} (less : α → α → Bool) (a : Nat) : Nat → List α → List α
  | 0, data => data
  | j + 1, data =>
    if a < j + 1 ∧ lessAt less data (j + 1) j = true then
      insertionInner less a j (swapAt data (j + 1) j)
    else data

/-- Function `insertionSort_func`: insertion sort of `data[a:b]`. -/
def insertionSort_func {α : Type} (less : α → α → Bool) (data : List α) (a b : Nat) : List α :=
  (List.range' (a + 1) (b - (a + 1))).foldl (fun d i => insertionInner less a i d) data

/-- Function `siftDown_func`; the first argument bounds the iterations. -/
def siftDown_func {α : Type} (less : α → α → Bool) : Nat → List α → Nat → Nat → Nat → List α
  | 0, data, _, _, _ => data
  | fuel + 1, data, root, hi, first =>
    let child := 2 * root + 1
    if child ≥ hi then data
    else
      let child :=
        if child + 1 < hi ∧ lessAt less data (first + child) (first + child + 1) = true then
          child + 1
        else child
      if lessAt less data (first + root) (first + child) = false then data
      else siftDown_func less fuel (swapAt data (first + root) (first + child)) child hi first

/-- Function `heapSort_func`. -/
def heapSort_func {α : Type} (less : α → α → Bool) (data : List α) (a b : Nat) : List α :=
  let first := a
  let lo := 0
  let hi := b - a
  let data := (List.range ((hi - 1) / 2 + 1)).reverse.foldl
    (fun d i => siftDown_func less hi d i hi first) data
  (List.range hi).reverse.foldl
    (fun d i => siftDown_func less hi (swapAt d first (first + i)) lo i first) data

/-- The loop `for i <= j && p(i) { i++ }`. -/
def scanUp (p : Nat → Bool) : Nat → Nat → Nat → Nat
  | 0, i, _ => i
  | fuel + 1, i, j => if i ≤ j ∧ p i = true then scanUp p fuel (i + 1) j else i

/-- The loop `for i <= j && p(j) { j-- }`. -/
def scanDown (p : Nat → Bool) : Nat → Nat → Nat → Nat
  | 0, _, j => j
  | fuel + 1, i, j => if i ≤ j ∧ p j = true then scanDown p fuel i (j - 1) else j

/-- The second loop of `partition_func`; the result is the slice and `j`. -/
def partitionLoop {α : Type} (less : α → α → Bool) (a : Nat) :
    Nat → List α → Nat → Nat → List α × Nat
  | 0, data, _, j => (data, j)
  | fuel + 1, data, i, j =>
    let i := scanUp (fun k => lessAt less data k a) data.length i j
    let j := scanDown (fun k => !lessAt less data k a) data.length i j
    if i > j then (data, j)
    else partitionLoop less a fuel (swapAt data i j) (i + 1) (j - 1)

/-- Function `partition_func`: the slice, the new index of the pivot and
`alreadyPartitioned`. -/
def partition_func {α : Type} (less : α → α → Bool) (data : List α) (a b pivot : Nat) :
    List α × Nat × Bool :=
  let data := swapAt data a pivot
  let i := a + 1
  let j := b - 1
  let i := scanUp (fun k => lessAt less data k a) data.length i j
  let j := scanDown (fun k => !lessAt less data k a) data.length i j
  if i > j then (swapAt data j a, j, true)
  else
    let data := swapAt data i j
    let r := partitionLoop less a data.length data (i + 1) (j - 1)
    (swapAt r.1 r.2 a, r.2, false)

/-- The loop of `partitionEqual_func`; the result is the slice and `i`. -/
def partitionEqualLoop {α : Type} (less : α → α → Bool) (a : Nat) :
    Nat → List α → Nat → Nat → List α × Nat
  | 0, data, i, _ => (data, i)
  | fuel + 1, data, i, j =>
    let i := scanUp (fun k => !lessAt less data a k) data.length i j
    let j := scanDown (fun k => lessAt less data a k) data.length i j
    if i > j then (data, i)
    else partitionEqualLoop less a fuel (swapAt data i j) (i + 1) (j - 1)

/-- Function `partitionEqual_func`. -/
def partitionEqual_func {α : Type} (less : α → α → Bool) (data : List α) (a b pivot : Nat) :
    List α × Nat :=
  let data := swapAt data a pivot
  partitionEqualLoop less a data.length data (a + 1) (b - 1)

/-- The shifting loops of `partialInsertionSort_func`:
`for j := i - 1; j >= 1; j--` and `for j := i + 1; j < b; j++`, each swapping
`j` and `j-1` until `!less(j, j-1)`. -/
def shiftLeft {α : Type} (less : α → α → Bool) : Nat → List α → List α
  | 0, data => data
  | j + 1, data =>
    if lessAt less data (j + 1) j = false then data
    else shiftLeft less j (swapAt data (j + 1) j)

def shiftRight {α : Type} (less : α → α → Bool) (b : Nat) : Nat → List α → Nat → List α
  | 0, data, _ => data
  | fuel + 1, data, j =>
    if j < b then
      if lessAt less data j (j - 1) = false then data
      else shiftRight less b fuel (swapAt data j (j - 1)) (j + 1)
    else data

/-- The loop of `partialInsertionSort_func` with `steps` iterations left. -/
def partialInsertionLoop {α : Type} (less : α → α → Bool) (a b : Nat) :
    Nat → List α → Nat → List α × Bool
  | 0, data, _ => (data, false)
  | steps + 1, data, i =>
    let i := scanUp (fun k => !lessAt less data k (k - 1)) data.length i (b - 1)
    if i = b then (data, true)
    else if b - a < 50 then (data, false)
    else
      let data := swapAt data i (i - 1)
      let data := if i - a ≥ 2 then shiftLeft less (i - 1) data else data
      let data := if b - i ≥ 2 then shiftRight less b data.length data (i + 1) else data
      partialInsertionLoop less a b steps data i

/-- Function `partialInsertionSort_func` (`maxSteps = 5`,
`shortestShifting = 50`). -/
def partialInsertionSort_func {α : Type} (less : α → α → Bool) (data : List α) (a b : Nat) :
    List α × Bool :=
  partialInsertionLoop less a b 5 data (a + 1)

/-- Method `(*xorshift).Next` on a `uint64`:
`r ^= r << 13; r ^= r >> 7; r ^= r << 17`. -/
def xorshiftNext (r : Nat) : Nat :=
  let r := r ^^^ ((r <<< 13) % 2 ^ 64)
  let r := r ^^^ (r >>> 7)
  r ^^^ ((r <<< 17) % 2 ^ 64)

/-- Function `bits.Len`. -/
def bitsLen (n : Nat) : Nat := if n = 0 then 0 else Nat.log2 n + 1

/-- Function `nextPowerOfTwo`. -/
def nextPowerOfTwo (length : Nat) : Nat := 1 <<< bitsLen length

/-- Function `breakPatterns_func`. -/
def breakPatterns_func {α : Type} (data : List α) (a b : Nat) : List α :=
  let length := b - a
  if length ≥ 8 then
    let modulus := nextPowerOfTwo length
    let idx := a + (length / 4) * 2 - 1
    let step := fun (st : List α × Nat) (i : Nat) =>
      let random := xorshiftNext st.2
      let other := random &&& (modulus - 1)
      let other := if other ≥ length then other - length else other
      (swapAt st.1 (idx - 1 + i) (a + other), random)
    ([0, 1, 2].foldl step (data, length)).1
  else data

/-- Function `order2_func`: the two indices in order and the count of
swaps. -/
def order2_func {α : Type} (less : α → α → Bool) (data : List α) (a b swaps : Nat) :
    Nat × Nat × Nat :=
  if lessAt less data b a = true then (b, a, swaps + 1) else (a, b, swaps)

/-- Function `median_func`: the index of the median and the count of
swaps. -/
def median_func {α : Type} (less : α → α → Bool) (data : List α) (a b c swaps : Nat) :
    Nat × Nat :=
  let r1 := order2_func less data a b swaps
  let r2 := order2_func less data r1.2.1 c r1.2.2
  let r3 := order2_func less data r1.1 r2.1 r2.2.2
  (r3.2.1, r3.2.2)

/-- Function `medianAdjacent_func`. -/
def medianAdjacent_func {α : Type} (less : α → α → Bool) (data : List α) (a swaps : Nat) :
    Nat × Nat :=
  median_func less data (a - 1) a (a + 1) swaps

/-- The type `sortedHint`. -/
inductive SortedHint where
  | unknownHint
  | increasingHint
  | decreasingHint
deriving DecidableEq, Repr

/-- Function `choosePivot_func` (`shortestNinther = 50`, `maxSwaps = 12`). -/
def choosePivot_func {α : Type} (less : α → α → Bool) (data : List α) (a b : Nat) :
    Nat × SortedHint :=
  let l := b - a
  let i := a + l / 4 * 1
  let j := a + l / 4 * 2
  let k := a + l / 4 * 3
  let r : Nat × Nat :=
    if l ≥ 8 then
      if l ≥ 50 then
        let ri := medianAdjacent_func less data i 0
        let rj := medianAdjacent_func less data j ri.2
        let rk := medianAdjacent_func less data k rj.2
        median_func less data ri.1 rj.1 rk.1 rk.2
      else median_func less data i j k 0
    else (j, 0)
  if r.2 = 0 then (r.1, SortedHint.increasingHint)
  else if r.2 = 12 then (r.1, SortedHint.decreasingHint)
  else (r.1, SortedHint.unknownHint)

/-- The loop of `reverseRange_func`. -/
def reverseLoop {α : Type} : Nat → List α → Nat → Nat → List α
  | 0, data, _, _ => data
  | fuel + 1, data, i, j =>
    if i < j then reverseLoop fuel (swapAt data i j) (i + 1) (j - 1) else data

/-- Function `reverseRange_func`. -/
def reverseRange_func {α : Type} (data : List α) (a b : Nat) : List α :=
  reverseLoop data.length data a (b - 1)

/-- Function `pdqsort_func` (`maxInsertion = 12`). The first argument bounds
the number of loop iterations and nested calls; each of them works on a
shorter range. -/
def pdqsort_func {α : Type} (less : α → α → Bool) :
    Nat → List α → Nat → Nat → Nat → Bool → Bool → List α
  | 0, data, _, _, _, _, _ => data
  | fuel + 1, data, a, b, limit, wasBalanced, wasPartitioned =>
    let length := b - a
    if length ≤ 12 then insertionSort_func less data a b
    else if limit = 0 then heapSort_func less data a b
    else
      let data := if wasBalanced then data else breakPatterns_func data a b
      let limit := if wasBalanced then limit else limit - 1
      let ph := choosePivot_func less data a b
      let data := if ph.2 = SortedHint.decreasingHint then reverseRange_func data a b else data
      let pivot := if ph.2 = SortedHint.decreasingHint then (b - 1) - (ph.1 - a) else ph.1
      let hint :=
        if ph.2 = SortedHint.decreasingHint then SortedHint.increasingHint else ph.2
      let pis : List α × Bool :=
        if wasBalanced ∧ wasPartitioned ∧ hint = SortedHint.increasingHint then
          partialInsertionSort_func less data a b
        else (data, false)
      if pis.2 = true then pis.1
      else
        let data := pis.1
        if a > 0 ∧ lessAt less data (a - 1) pivot = false then
          let r := partitionEqual_func less data a b pivot
          pdqsort_func less fuel r.1 r.2 b limit wasBalanced wasPartitioned
        else
          let r := partition_func less data a b pivot
          let mid := r.2.1
          let leftLen := mid - a
          let rightLen := b - mid
          let balanceThreshold := length / 8
          if leftLen < rightLen then
            let data := pdqsort_func less fuel r.1 a mid limit true true
            pdqsort_func less fuel data (mid + 1) b limit
              (decide (leftLen ≥ balanceThreshold)) r.2.2
          else
            let data := pdqsort_func less fuel r.1 (mid + 1) b limit true true
            pdqsort_func less fuel data a mid limit
              (decide (rightLen ≥ balanceThreshold)) r.2.2

/-- Function `sort.Slice`:
`pdqsort_func(lessSwap{less, swap}, 0, length, bits.Len(uint(length)))`. -/
def sortSlice {α : Type} (less : α → α → Bool) (x : List α) : List α :=
  pdqsort_func less (x.length + 1) x 0 x.length (bitsLen x.length) true true

/-- Insertion of `x` into a sorted prefix given in reverse order, the way
the inner loop of `insertionSort_func` moves it: past every element it is
less than, from the right. -/
def insertRev {α : Type} (less : α → α → Bool) (x : α) : List α → List α
  | [] => [x]
  | y :: r => if less x y = true then y :: insertRev less x r else x :: y :: r

/-- Insertion sort as a function on lists: every element in turn is inserted
from the right into the sorted prefix. -/
def insertionSortList {α : Type} (less : α → α → Bool) (l : List α) : List α :=
  (l.foldl (fun acc x => insertRev less x acc) []).reverse

/-- What package sort asks of a `less` function: a strict weak ordering. -/
def StrictWeakOrder {α : Type} (less : α → α → Bool) : Prop :=
  (∀ a, less a a = false) ∧
  (∀ a b c, less a b = true → less b c = true → less a c = true) ∧
  (∀ a b c, less a b = false → less b c = false → less a c = false)

/-- What the documentation of `sort.Slice` promises for a slice and a strict
weak ordering: the result holds the same elements and no element is less than
one before it. Nothing is promised about the order of elements neither of
which is less than the other. -/
def SortsSlices {α : Type} (sort : (α → α → Bool) → List α → List α) : Prop :=
  ∀ less l, StrictWeakOrder less →
    (sort less l).Perm l ∧ (sort less l).Pairwise (fun a b => less b a = false)
/-! ## world.go : immediate drawing -/

/-- Method `(*World).Pen`. The defaults of the rendering fields `Pattern` and
`Background` are not modelled. -/
def Pen (shapeType : ShapeType) (props : Option ShapeProps) (w : World) : World :=
  let props : ShapeProps := match props with
    | some p => p
    | none => {}
  let drawProps : ShapeProps := { props with kind := shapeType }
  let drawProps := if drawProps.Width = 0 then { drawProps with Width := 10 } else drawProps
  let drawProps := if drawProps.Height = 0 then { drawProps with Height := 10 } else drawProps
  let drawProps :=
    if drawProps.Radius = 0 ∧ shapeType = ShapeCircle then { drawProps with Radius := 10 }
    else drawProps
  { w with drawCommands := w.drawCommands ++ [{ kind := shapeType, Props := drawProps }] }

/-- The defaults that `NewShape` writes into the properties it is given,
before it builds the shape; `name` is what `RandName()` returns. -/
def shapeDefaults (props : ShapeProps) (name : String) : ShapeProps :=
  let props := if props.kind = "" then { props with kind := ShapeRectangle } else props
  let props := if props.Name = "" then { props with Name := name } else props
  let props := if props.Tag = "" then { props with Tag := "unknown" } else props
  let props := if props.Width = 0 then { props with Width := 10 } else props
  let props := if props.Height = 0 then { props with Height := 10 } else props
  let props := if props.Speed = 0 then { props with Speed := 3 } else props
  let props := if props.Scale = 0 then { props with Scale := 1 } else props
  let props := if props.Opacity = 0 then { props with Opacity := 1 } else props
  if props.Radius = 0 ∧ props.kind = ShapeCircle then
    if props.Width ≠ 0 then { props with Radius := props.Width / 2 }
    else if props.Height ≠ 0 then { props with Radius := props.Height / 2 }
    else { props with Radius := 20 }
  else props

/-- Constructor `NewShape`; `id` and `name` are the strings that the random
generators `ID()` and `RandName()` return for this call. The shape has no
body and no world, and nothing is registered. -/
def NewShape (props : Option ShapeProps) (id name : String) : Shape :=
  let props : ShapeProps := shapeDefaults (match props with
    | some p => p
    | none => {}) name
  let shape : Shape :=
    { ID := id
      Name := props.Name
      Tag := props.Tag
      kind := props.kind
      X := props.X
      Y := props.Y
      Width := props.Width
      Height := props.Height
      Radius := props.Radius
      RotationAngle := props.Rotation
      RotationLock := props.RotationLock
      ZIndex := props.ZIndex
      Scale := props.Scale
      Opacity := props.Opacity
      IsBody := props.IsBody
      Physics := props.Physics
      Velocity := props.Velocity
      Speed := props.Speed
      Rebound := props.Rebound
      Friction := props.Friction
      OnCollisionFunc := props.OnCollisionFunc
      Ghost := props.Ghost
      LastCollisionImpulse := props.LastCollisionImpulse }
  if props.Radius > 0 ∧ props.kind = ShapeCircle then
    { shape with Width := props.Radius * 2, Height := props.Radius * 2 }
  else shape

/-- An entry of the slice `allShapes` of `Draw`: a pointer to a registered
shape, or to the shape built for the command at index `i` of the buffer. -/
inductive DrawRef where
  | live (p : Ptr)
  | temp (i : Nat)
deriving DecidableEq, Repr

def DrawRef.isTemp : DrawRef → Bool
  | DrawRef.temp _ => true
  | DrawRef.live _ => false

/-- The `less` closure that `Draw` hands to `sort.Slice`, on the two shapes
at the compared indices. -/
def drawLess (si sj : Shape) : Bool :=
  if si.Tag = "border" ∧ sj.Tag ≠ "border" then true
  else if si.Tag ≠ "border" ∧ sj.Tag = "border" then false
  else decide (si.ZIndex < sj.ZIndex)

/-- Result of `Draw`: the state reached, the shapes built for the commands,
and the shapes whose `Draw(screen)` was called, in the order of the calls. -/
structure DrawOut where
  w : World
  tempShapes : List Shape
  drawn : List DrawRef

/-- The shape behind an entry of `allShapes`. -/
def derefShape (w : World) (tempShapes : List Shape) : DrawRef → Shape
  | DrawRef.live p => w.heap p
  | DrawRef.temp i => tempShapes.getD i {}

/-- The slice `allShapes` before it is sorted: the registry, then the shapes
of the commands. -/
def allShapes (w : World) : List DrawRef :=
  w.Objects.map DrawRef.live ++ (List.range w.drawCommands.length).map DrawRef.temp

/-- The shapes that `Draw` builds for the commands of the buffer. -/
def buildTempShapes (rand : Nat → String × String) (w : World) : List Shape :=
  w.drawCommands.enum.map (fun icmd =>
    { NewShape (some icmd.2.Props) (rand icmd.1).1 (rand icmd.1).2 with kind := icmd.2.kind })

/-- Method `(*World).Draw`. `sort` stands for `sort.Slice` and `rand i` for
what `ID()` and `RandName()` return while the shape of command `i` is built.
The screen, its fill and the painting done by `(*Shape).Draw` are not
modelled. -/
def Draw (sort : (DrawRef → DrawRef → Bool) → List DrawRef → List DrawRef)
    (rand : Nat → String × String) (w : World) : DrawOut :=
  let tempShapes := buildTempShapes rand w
  let sorted := sort (fun a b => drawLess (derefShape w tempShapes a) (derefShape w tempShapes b))
    (allShapes w)
  { w := { w with drawCommands := [] }, tempShapes := tempShapes, drawn := sorted }

/-- The sort key that `drawLess` compares: whether the tag is "border", then
the z-index. -/
def drawKey (s : Shape) : Bool × Int := (decide (s.Tag = "border"), s.ZIndex)

/-- A sequence of `Pen` calls, first to last. -/
def penAll (cmds : List (ShapeType × Option ShapeProps)) (w : World) : World :=
  cmds.foldl (fun w1 c => Pen c.1 c.2 w1) w

/-- Three registered shapes: address 0 tagged "border" with z-index 0,
address 1 tagged "x" with z-index 5 and address 2 tagged "x" with z-index
-5. -/
def layeredWorld : World :=
  { heap := fun p =>
      if p = 0 then { ID := "a", Tag := "border", ZIndex := 0, Width := 10, Height := 10 }
      else if p = 1 then { ID := "b", Tag := "x", ZIndex := 5, Width := 10, Height := 10 }
      else { ID := "c", Tag := "x", ZIndex := -5, Width := 10, Height := 10 }
    Objects := [0, 1, 2] }

/-- The strings handed out by the random generators in the examples. -/
def fixedRand : Nat → String × String := fun _ => ("abcdefg", "James")

/-- Thirteen registered shapes tagged "x", at addresses 0 to 12 in registry
order: the shape at address 1 has z-index 0, the twelve others z-index 1. -/
def crowdWorld : World :=
  { heap := fun p =>
      { ID := "s", Tag := "x", ZIndex := if p = 1 then 0 else 1, Width := 10, Height := 10 }
    Objects := [0, 1, 2, 3, 4, 5, 6, 7, 8, 9, 10, 11, 12] }

/-- Two `Pen` calls: a rectangle at x = 1 with z-index 1000, and a circle with
no properties. -/
def sketchCmds : List (ShapeType × Option ShapeProps) :=
  [(ShapeRectangle, some { X := 1, ZIndex := 1000 }), (ShapeCircle, none)]

/-- Three registered shapes tagged "x": addresses 0 and 2 with z-index 0 and
address 1 with z-index -1. -/
def tiedWorld : World :=
  { heap := fun p =>
      { ID := "t", Tag := "x", ZIndex := if p = 1 then -1 else 0, Width := 10, Height := 10 }
    Objects := [0, 1, 2] }

/-! ## User code given by its calls on the registry -/

/-- A call that user code makes on the registry. -/
inductive UserCall where
  | register (s : Ptr)
  | unregister (s : Ptr)
deriving DecidableEq, Repr

/-- What the level hooks and the spawn functions do to the registry: the
`Register` and `Unregister` calls that each of them makes, in order. -/
structure Scripts where
  hook : Nat → List UserCall
  spawn : Nat → Vector2 → ℚ → ℚ → List UserCall

/-- One call of a script: the world that `Register` or `Unregister` leaves. -/
def runUserCall (w : World) (c : UserCall) : World :=
  match c with
  | UserCall.register s => (Register s w).w
  | UserCall.unregister s => (Unregister s w).w

/-- The calls of a script, first to last. -/
def runScript (cs : List UserCall) (w : World) : World := cs.foldl runUserCall w

/-- The hooks and spawn functions of `env` act on the registry as the calls
of the scripts do, and leave the IDs of the shapes alone; whatever else they
do is free. -/
structure FollowsScripts (env : Env) (sc : Scripts) : Prop where
  hookObjects : ∀ id u, (env.hook id u).Objects = (runScript (sc.hook id) u).Objects
  hookIDs : ∀ id u p, ((env.hook id u).heap p).ID = (u.heap p).ID
  spawnObjects : ∀ id pos a b u,
    (env.spawn id pos a b u).Objects = (runScript (sc.spawn id pos a b) u).Objects
  spawnIDs : ∀ id pos a b u p, ((env.spawn id pos a b u).heap p).ID = (u.heap p).ID

/-- Effect of a call on a registry whose shapes have the IDs `ids`:
`Register` appends its argument, `Unregister` removes the first entry with
the ID of its argument. -/
def applyUserCall (ids : Ptr → String) (objs : List Ptr) (c : UserCall) : List Ptr :=
  match c with
  | UserCall.register s => objs ++ [s]
  | UserCall.unregister s => objs.eraseP (fun x => ids x == ids s)

def applyScript (ids : Ptr → String) (cs : List UserCall) (objs : List Ptr) : List Ptr :=
  cs.foldl (applyUserCall ids) objs

/-- The script behind a call that `SelectLevel` makes after the teardown: the
init hook, a spawn function, the mount hook. -/
def enterScript (sc : Scripts) : Ev → List UserCall
  | Ev.init id => sc.hook id
  | Ev.onMount id => sc.hook id
  | Ev.spawn id x y width height => sc.spawn id { X := x, Y := y } width height
  | _ => []

/-- The calls on the registry behind a log, in order. -/
def logScript (sc : Scripts) (log : List Ev) : List UserCall :=
  (log.map (enterScript sc)).flatten

/-- The registry after `o` is what the calls behind the log of `o` make of
the registry of `v`, and the IDs are those of `v`. -/
def Tracks (sc : Scripts) (v : World) (o : Out) : Prop :=
  (∀ p, (o.w.heap p).ID = (v.heap p).ID) ∧
  o.w.Objects = applyScript (fun p => (v.heap p).ID) (logScript sc o.log) v.Objects

/-! ## Record of the Register calls -/

/-- A call that changes the registry. -/
inductive RegistryCall where
  | register (s : Ptr)
  | unregister (s : Ptr)
  | selectLevel (index : Int)
deriving DecidableEq, Repr

/-- A record of the `Register` calls made so far, by the program itself or by
a level hook or spawn function: `registered` is the list of their arguments in
call order, `objs` is the registry, `stamps` gives for every registry entry,
in registry order, the number of the call that appended it, and `fresh` says
that every call so far was for a shape whose ID was not in the registry at the
time of the call. -/
structure Ledger where
  objs : List Ptr
  stamps : List Nat
  registered : List Ptr
  fresh : Bool
deriving DecidableEq, Repr

/-- One call on the record; `ids` gives the ID of every shape. `Register`
stamps the entry it appends with the number of the call; `Unregister` drops
the stamp at the position of the entry it removes. -/
def stampUserCall (ids : Ptr → String) (g : Ledger) (c : UserCall) : Ledger :=
  match c with
  | UserCall.register s =>
    { objs := g.objs ++ [s]
      stamps := g.stamps ++ [g.registered.length]
      registered := g.registered ++ [s]
      fresh := g.fresh && !(g.objs.map ids).contains (ids s) }
  | UserCall.unregister s =>
    { g with
      objs := g.objs.eraseP (fun x => ids x == ids s)
      stamps := g.stamps.eraseIdx (g.objs.findIdx (fun x => ids x == ids s)) }

def stampScript (ids : Ptr → String) (g : Ledger) (cs : List UserCall) : Ledger :=
  cs.foldl (stampUserCall ids) g

/-- A world together with the record of its `Register` calls. -/
structure Stamped where
  w : World
  stamps : List Nat
  registered : List Ptr
  fresh : Bool

def Stamped.ledger (st : Stamped) : Ledger :=
  { objs := st.w.Objects, stamps := st.stamps, registered := st.registered, fresh := st.fresh }

def Stamped.ids (st : Stamped) : Ptr → String := fun p => (st.w.heap p).ID

/-- The record after `SelectLevel`. At a valid index the destroy hook makes
its calls on the registry as it is, the teardown then drops every entry with
its stamp, and the calls behind the rest of the log (init hook, spawn
functions, mount hook) follow. -/
def stampSelectLevel (env : Env) (sc : Scripts) (k : Int) (st : Stamped) : Ledger :=
  if k < 0 ∨ k ≥ st.w.Levels.length then st.ledger
  else
    let g1 : Ledger := match (st.w.Levels.getD k.toNat {}).OnDestroy with
      | some id => stampScript st.ids st.ledger (sc.hook id)
      | none => st.ledger
    stampScript st.ids { g1 with objs := [], stamps := [] }
      (logScript sc (SelectLevel env k st.w).log)

/-- One call on a stamped world; `none` when the call panics. -/
def runCall (env : Env) (sc : Scripts) (c : RegistryCall) (st : Stamped) : Option Stamped :=
  let pack := fun (w : World) (g : Ledger) =>
    ({ w := w, stamps := g.stamps, registered := g.registered, fresh := g.fresh } : Stamped)
  match c with
  | RegistryCall.register s =>
    if (Register s st.w).fail = none then
      some (pack (Register s st.w).w (stampUserCall st.ids st.ledger (UserCall.register s)))
    else none
  | RegistryCall.unregister s =>
    some (pack (Unregister s st.w).w (stampUserCall st.ids st.ledger (UserCall.unregister s)))
  | RegistryCall.selectLevel k =>
    if (SelectLevel env k st.w).fail = none then
      some (pack (SelectLevel env k st.w).w (stampSelectLevel env sc k st))
    else none

def runCalls (env : Env) (sc : Scripts) : List RegistryCall → Stamped → Option Stamped
  | [], st => some st
  | c :: cs, st =>
    match runCall env sc c st with
    | some st1 => runCalls env sc cs st1
    | none => none

/-- The registry is the list of registered shapes read at the stamps, and the
stamps increase along the registry. -/
def Stamped.Ordered (st : Stamped) : Prop :=
  st.w.Objects = st.stamps.map (fun n => st.registered.getD n 0) ∧
  st.stamps.Pairwise (fun a b => a < b) ∧
  ∀ n ∈ st.stamps, n < st.registered.length

def Ledger.Ordered (g : Ledger) : Prop :=
  g.objs = g.stamps.map (fun n => g.registered.getD n 0) ∧
  g.stamps.Pairwise (fun a b => a < b) ∧
  ∀ n ∈ g.stamps, n < g.registered.length

/-- A newly created world with the shapes user code has allocated and an
empty record. -/
def newStamped (props : WorldProps) (now : ℚ) (shapes : Ptr → Shape) : Stamped :=
  { w := { NewWorld props now with heap := shapes }, stamps := [], registered := [],
    fresh := true }

/-- The scripts of `spawningEnv`: hook 21 registers the shape at address 5,
and nothing else touches the registry. -/
def spawningScripts : Scripts :=
  { hook := fun id => if id = 21 then [UserCall.register 5] else []
    spawn := fun _ _ _ _ => [] }

/-- The shapes user code has allocated: address 0 with ID "a", address 1 with
ID "b", every other address with ID "n"; all are 10 by 10 and detached. -/
def lobbyShapes : Ptr → Shape := fun p =>
  { ID := if p = 0 then "a" else if p = 1 then "b" else "n", Width := 10, Height := 10 }

/-- One level, whose init hook is hook 21. -/
def lobbyProps : WorldProps := { Levels := [{ Init := some (InitFn.user 21) }] }

/-- Register 0, register 1, select level 0 (whose init hook registers 5),
register 1 again, unregister 5. -/
def sampleCalls : List RegistryCall :=
  [RegistryCall.register 0, RegistryCall.register 1, RegistryCall.selectLevel 0,
   RegistryCall.register 1, RegistryCall.unregister 5]

/-- User code whose event handlers request a switch to level 0 and which
does nothing else. -/
def meddlingEnv : Env :=
  { idleEnv with handler := fun _ _ w => SwitchToLevel 0 w }

/-- World `pendingWorld` (level 0 active, a switch to level 1 pending, one
queued collision) with handler 7 listening for collisions on the world
emitter. -/
def contestedWorld : World :=
  { pendingWorld with
    events := fun e => if e = EventCollision then [EventHandler.fn 7] else [] }

/-- World `contestedWorld` with a third level and no switch pending. -/
def crossroadsWorld : World :=
  { contestedWorld with
    Levels :=
      [{ OnDestroy := some 10, Init := some (InitFn.user 20) },
       { OnDestroy := some 11, Init := some (InitFn.user 21) },
       { OnDestroy := some 12, Init := some (InitFn.user 22) }]
    pendingLevelSwitch := none }

/-- Relation between the worlds before and after a piece of user code that
takes none of the shapes `S` out of the registry and changes none of their
body references. -/
structure Held (S : List Ptr) (w w1 : World) : Prop where
  objects : ∀ p ∈ S, p ∈ w.Objects → p ∈ w1.Objects
  body : ∀ p ∈ S, p ∈ w.Objects → (w1.heap p).Body = (w.heap p).Body

/-- Level 0 is active with three live shapes (addresses 0, 1, 2 with IDs "a",
"b", "c" and bodies 0, 1, 2); every other address holds a detached shape
with ID "n". One collision of shapes 0 and 1 is queued and handler 7 listens
for collisions on the world emitter. Level 1 has destroy hook 11 and init
hook 21. -/
def crowdedWorld : World :=
  { Levels :=
      [{ OnDestroy := some 10, Init := some (InitFn.user 20) },
       { OnDestroy := some 11, Init := some (InitFn.user 21) }]
    CurrentLevel := 0
    lastUpdate := some 0
    Objects := [0, 1, 2]
    heap := fun p =>
      if p = 0 then { ID := "a", Width := 10, Height := 10, Body := some 0, world := true }
      else if p = 1 then { ID := "b", Width := 10, Height := 10, Body := some 1, world := true }
      else if p = 2 then { ID := "c", Width := 10, Height := 10, Body := some 2, world := true }
      else { ID := "n", Width := 10, Height := 10 }
    liveBodies := [0, 1, 2]
    nextBody := 3
    collisionQueue := [{ ShapeA := 0, ShapeB := 1 }]
    events := fun e => if e = EventCollision then [EventHandler.fn 7] else [] }

/-- User code whose event handlers call `Unregister` on the shape at address
0 and which does nothing else. -/
def dodgingEnv : Env :=
  { idleEnv with handler := fun _ _ w => (Unregister 0 w).w }

/-- User code in which hook 11 calls `Unregister` on the shape at address 1
and every other function does nothing. -/
def desertingEnv : Env :=
  { idleEnv with hook := fun id w => if id = 11 then (Unregister 1 w).w else w }

/-- User code in which hook 21 calls `Register` on the shape at address 0
and every other function does nothing. -/
def revivingEnv : Env :=
  { idleEnv with hook := fun id w => if id = 21 then (Register 0 w).w else w }

/-! ## Theorems -/

/-! ### Sequencing laws -/

theorem Out.ret_andThen (w : World) (f : World → Out) : (Out.ret w).andThen f = f w := by
  simp [Out.ret, Out.andThen]

theorem Out.andThen_ret (o : Out) : o.andThen Out.ret = o := by
  cases o with
  | mk w log fail =>
    cases fail <;> simp [Out.ret, Out.andThen]

theorem Out.andThen_assoc (o : Out) (f g : World → Out) :
    (o.andThen f).andThen g = o.andThen (fun w => (f w).andThen g) := by
  cases o with
  | mk w log fail =>
    cases fail with
    | some m => simp [Out.andThen]
    | none =>
      simp only [Out.andThen]
      cases h : (f w).fail <;> simp [h, List.append_assoc]

theorem foldl_andThen {α : Type} (f : α → World → Out) (xs : List α) (o : Out) :
    xs.foldl (fun o x => o.andThen (f x)) o = o.andThen (forEach xs f) := by
  induction xs generalizing o with
  | nil => exact (Out.andThen_ret o).symm
  | cons x xs ih =>
    simp only [List.foldl_cons]
    rw [ih, Out.andThen_assoc]
    congr 1
    funext w
    simp only [forEach, List.foldl_cons]
    rw [ih, Out.ret_andThen]

theorem forEach_nil {α : Type} (f : α → World → Out) (w : World) :
    forEach [] f w = Out.ret w := rfl

theorem forEach_cons {α : Type} (f : α → World → Out) (x : α) (xs : List α) (w : World) :
    forEach (x :: xs) f w = (f x w).andThen (forEach xs f) := by
  simp only [forEach, List.foldl_cons]
  rw [foldl_andThen, Out.ret_andThen]

theorem forEach_append {α : Type} (f : α → World → Out) (xs ys : List α) (w : World) :
    forEach (xs ++ ys) f w = (forEach xs f w).andThen (forEach ys f) := by
  induction xs generalizing w with
  | nil => simp [forEach_nil, Out.ret_andThen]
  | cons x xs ih =>
    simp only [List.cons_append, forEach_cons, Out.andThen_assoc]
    congr 1
    funext w1
    exact ih w1

/-! ### Level switch requests -/

/-- C1 (the code at the failing input). Level 0 is active and has destroy
hook 10; level 1 has destroy hook 11. `SelectLevel 1` calls hook 11, the
destroy hook of the level being entered, then tears the shape down and calls
level 1's init hook; hook 10, the destroy hook of the level that was active,
is never called. -/
theorem SelectLevel_calls_destroy_hook_of_target :
    twoLevelWorld.CurrentLevel = 0 ∧
    (twoLevelWorld.Levels.getD 0 {}).OnDestroy = some 10 ∧
    (twoLevelWorld.Levels.getD 1 {}).OnDestroy = some 11 ∧
    (SelectLevel idleEnv 1 twoLevelWorld).log =
      [Ev.onDestroy 11, Ev.destroyBody 0, Ev.init 21] ∧
    Ev.onDestroy 10 ∉ (SelectLevel idleEnv 1 twoLevelWorld).log := by
  decide

/-- C5. An index below 0 or at least the number of levels is ignored by
`SwitchToLevel` and by `SelectLevel`: both return normally, the world is the
one they were given (active level, pending switch, registry, hooks and
everything else), and `SelectLevel` performs no event, so no hook is
called. -/
theorem invalid_level_index_is_ignored (env : Env) (w : World) (k : Int)
    (hk : k < 0 ∨ k ≥ w.Levels.length) :
    SwitchToLevel k w = w ∧
    SelectLevel env k w = { w := w, log := [], fail := none } := by
  simp [SwitchToLevel, SelectLevel, hk, Out.ret]

theorem invalid_level_index_is_ignored_witness :
    ((2 : Int) < 0 ∨ (2 : Int) ≥ (SwitchToLevel 1 twoLevelWorld).Levels.length) ∧
    SwitchToLevel 2 (SwitchToLevel 1 twoLevelWorld) = SwitchToLevel 1 twoLevelWorld ∧
    SelectLevel idleEnv 2 (SwitchToLevel 1 twoLevelWorld) =
      { w := SwitchToLevel 1 twoLevelWorld, log := [], fail := none } :=
  ⟨by decide, invalid_level_index_is_ignored idleEnv (SwitchToLevel 1 twoLevelWorld) 2 (by decide)⟩

/-! ### Shape mutators and exemptions -/

/-- C7 (the code at the failing input). For the detached shape at address 0
every listed operation fails. `LockRotation`, `SetVelocity`, `SetXVelocity`,
`SetYVelocity`, `Rotate`, `NotCollideWith` and `RestoreCollisionWith` fail
with the world as it was; `SetX`, `SetY`, `SetPosition`, `SetRotation` and
`SetScale` have no `requireInit` guard: they write the cached field and fail
only afterwards, on the nil body. -/
theorem detached_setters_write_before_failing :
    (detachedWorld.heap 0).Body = none ∧
    LockRotation 0 true detachedWorld = Out.panic requireInitMsg detachedWorld ∧
    SetVelocity 0 5 7 detachedWorld = Out.panic nilDeref detachedWorld ∧
    SetXVelocity 0 5 detachedWorld = Out.panic nilDeref detachedWorld ∧
    SetYVelocity 0 5 detachedWorld = Out.panic nilDeref detachedWorld ∧
    Rotate 0 5 detachedWorld = Out.panic nilDeref detachedWorld ∧
    NotCollideWith 0 1 detachedWorld = Out.panic requireInitMsg detachedWorld ∧
    RestoreCollisionWith 0 1 detachedWorld = Out.panic requireInitMsg detachedWorld ∧
    ((SetX 0 5 detachedWorld).fail = some nilDeref ∧ (detachedWorld.heap 0).X = 0 ∧
      ((SetX 0 5 detachedWorld).w.heap 0).X = 5) ∧
    ((SetY 0 5 detachedWorld).fail = some nilDeref ∧ (detachedWorld.heap 0).Y = 0 ∧
      ((SetY 0 5 detachedWorld).w.heap 0).Y = 5) ∧
    ((SetPosition 0 5 7 detachedWorld).fail = some nilDeref ∧
      ((SetPosition 0 5 7 detachedWorld).w.heap 0).X = 5 ∧
      ((SetPosition 0 5 7 detachedWorld).w.heap 0).Y = 7) ∧
    ((SetRotation 0 5 detachedWorld).fail = some nilDeref ∧
      (detachedWorld.heap 0).RotationAngle = 0 ∧
      ((SetRotation 0 5 detachedWorld).w.heap 0).RotationAngle = 5) ∧
    ((SetScale 0 5 detachedWorld).fail = some nilDeref ∧ (detachedWorld.heap 0).Scale = 1 ∧
      ((SetScale 0 5 detachedWorld).w.heap 0).Scale = 5) := by
  refine ⟨rfl, rfl, rfl, rfl, rfl, rfl, rfl, rfl, ?_, ?_, ?_, ?_, ?_⟩ <;> decide

/-- C8. For shapes `a` and `b` that both have a body, whatever their
exemption sets hold, `a.NotCollideWith(b)` followed by
`a.RestoreCollisionWith(b)` returns normally and afterwards
`a.ShouldCollideWith(b)` and `b.ShouldCollideWith(a)` are both true. -/
theorem NotCollideWith_then_Restore_collides_again (w : World) (a b : Ptr)
    (ha : (w.heap a).Body ≠ none) (hb : (w.heap b).Body ≠ none) :
    ((NotCollideWith a b w).andThen (RestoreCollisionWith a b)).fail = none ∧
    ShouldCollideWith a b ((NotCollideWith a b w).andThen (RestoreCollisionWith a b)).w = true ∧
    ShouldCollideWith b a ((NotCollideWith a b w).andThen (RestoreCollisionWith a b)).w = true := by
  by_cases hab : a = b
  · subst hab
    simp [NotCollideWith, RestoreCollisionWith, requireInit, ha, Out.andThen, Out.ret, setShape,
      ShouldCollideWith]
  · have hba : b ≠ a := fun h => hab h.symm
    simp [NotCollideWith, RestoreCollisionWith, requireInit, ha, hb, Out.andThen, Out.ret, setShape,
      ShouldCollideWith, Function.update_noteq hab, Function.update_noteq hba, hab, hba]

theorem NotCollideWith_then_Restore_collides_again_witness :
    (pairWorld.heap 0).Body ≠ none ∧ (pairWorld.heap 1).Body ≠ none ∧
    ShouldCollideWith 0 1 pairWorld = false ∧
    ((NotCollideWith 0 1 pairWorld).andThen (RestoreCollisionWith 0 1)).fail = none ∧
    ShouldCollideWith 0 1
      ((NotCollideWith 0 1 pairWorld).andThen (RestoreCollisionWith 0 1)).w = true ∧
    ShouldCollideWith 1 0
      ((NotCollideWith 0 1 pairWorld).andThen (RestoreCollisionWith 0 1)).w = true :=
  ⟨by decide, by decide, by decide,
   NotCollideWith_then_Restore_collides_again pairWorld 0 1 (by decide) (by decide)⟩

/-! ### Contact listener -/

/-- The step of the lookup loop of the contact listener. -/
theorem resolveShapes_eq_foldl (w : World) (bodyA bodyB : BodyRef) :
    resolveShapes w bodyA bodyB =
      w.Objects.foldl (fun acc obj =>
        if (w.heap obj).Body = some bodyA then (some obj, acc.2)
        else if (w.heap obj).Body = some bodyB then (acc.1, some obj)
        else acc) (none, none) := rfl

theorem resolve_foldl_found (w : World) (bodyA bodyB : BodyRef) (a b : Ptr)
    (ha : (w.heap a).Body = some bodyA) (hb : (w.heap b).Body = some bodyB)
    (hne : bodyA ≠ bodyB) (l : List Ptr)
    (hua : ∀ p ∈ l, (w.heap p).Body = some bodyA → p = a)
    (hub : ∀ p ∈ l, (w.heap p).Body = some bodyB → p = b)
    (acc : Option Ptr × Option Ptr) :
    l.foldl (fun acc obj =>
        if (w.heap obj).Body = some bodyA then (some obj, acc.2)
        else if (w.heap obj).Body = some bodyB then (acc.1, some obj)
        else acc) acc =
      (if a ∈ l then some a else acc.1, if b ∈ l then some b else acc.2) := by
  induction l generalizing acc with
  | nil => simp
  | cons x l ih =>
    have hua1 : ∀ p ∈ l, (w.heap p).Body = some bodyA → p = a :=
      fun p hp => hua p (List.mem_cons_of_mem _ hp)
    have hub1 : ∀ p ∈ l, (w.heap p).Body = some bodyB → p = b :=
      fun p hp => hub p (List.mem_cons_of_mem _ hp)
    rw [List.foldl_cons, ih hua1 hub1]
    by_cases hxa : (w.heap x).Body = some bodyA
    · have hx : x = a := hua x (List.mem_cons_self _ _) hxa
      have hbx : b ≠ x := by
        intro h
        rw [h, hxa] at hb
        exact hne (Option.some.inj hb)
      subst hx
      rw [if_pos hxa]
      simp [hbx]
    · by_cases hxb : (w.heap x).Body = some bodyB
      · have hx : x = b := hub x (List.mem_cons_self _ _) hxb
        have hax : a ≠ x := by
          intro h
          rw [h] at ha
          exact hxa ha
        subst hx
        rw [if_neg hxa, if_pos hxb]
        simp [hax]
      · have hax : a ≠ x := by
          intro h
          rw [h] at ha
          exact hxa ha
        have hbx : b ≠ x := by
          intro h
          rw [h] at hb
          exact hxb hb
        rw [if_neg hxa, if_neg hxb]
        simp [hax, hbx]

theorem resolve_foldl_fst (w : World) (bodyA bodyB : BodyRef) (l : List Ptr)
    (acc : Option Ptr × Option Ptr) (p : Ptr)
    (h : (l.foldl (fun acc obj =>
        if (w.heap obj).Body = some bodyA then (some obj, acc.2)
        else if (w.heap obj).Body = some bodyB then (acc.1, some obj)
        else acc) acc).1 = some p) :
    acc.1 = some p ∨ (p ∈ l ∧ (w.heap p).Body = some bodyA) := by
  induction l generalizing acc with
  | nil => exact Or.inl h
  | cons x l ih =>
    rw [List.foldl_cons] at h
    rcases ih _ h with h1 | ⟨h1, h2⟩
    · by_cases hxa : (w.heap x).Body = some bodyA
      · rw [if_pos hxa] at h1
        have hx : x = p := Option.some.inj h1
        subst hx
        exact Or.inr ⟨List.mem_cons_self _ _, hxa⟩
      · by_cases hxb : (w.heap x).Body = some bodyB
        · rw [if_neg hxa, if_pos hxb] at h1
          exact Or.inl h1
        · rw [if_neg hxa, if_neg hxb] at h1
          exact Or.inl h1
    · exact Or.inr ⟨List.mem_cons_of_mem _ h1, h2⟩

theorem resolve_foldl_snd (w : World) (bodyA bodyB : BodyRef) (l : List Ptr)
    (acc : Option Ptr × Option Ptr) (p : Ptr)
    (h : (l.foldl (fun acc obj =>
        if (w.heap obj).Body = some bodyA then (some obj, acc.2)
        else if (w.heap obj).Body = some bodyB then (acc.1, some obj)
        else acc) acc).2 = some p) :
    acc.2 = some p ∨ (p ∈ l ∧ (w.heap p).Body = some bodyB) := by
  induction l generalizing acc with
  | nil => exact Or.inl h
  | cons x l ih =>
    rw [List.foldl_cons] at h
    rcases ih _ h with h1 | ⟨h1, h2⟩
    · by_cases hxa : (w.heap x).Body = some bodyA
      · rw [if_pos hxa] at h1
        exact Or.inl h1
      · by_cases hxb : (w.heap x).Body = some bodyB
        · rw [if_neg hxa, if_pos hxb] at h1
          have hx : x = p := Option.some.inj h1
          subst hx
          exact Or.inr ⟨List.mem_cons_self _ _, hxb⟩
        · rw [if_neg hxa, if_neg hxb] at h1
          exact Or.inl h1
    · exact Or.inr ⟨List.mem_cons_of_mem _ h1, h2⟩

theorem resolveShapes_registered (w : World) (bodyA bodyB : BodyRef) (a b : Ptr)
    (hown : BodiesOwnedOnce w) (ha : a ∈ w.Objects) (hb : b ∈ w.Objects)
    (hba : (w.heap a).Body = some bodyA) (hbb : (w.heap b).Body = some bodyB)
    (hne : bodyA ≠ bodyB) :
    resolveShapes w bodyA bodyB = (some a, some b) := by
  rw [resolveShapes_eq_foldl,
    resolve_foldl_found w bodyA bodyB a b hba hbb hne w.Objects
      (fun p hp h => hown p hp a ha (by simp [h]) (by rw [h, hba]))
      (fun p hp h => hown p hp b hb (by simp [h]) (by rw [h, hbb]))]
  simp [ha, hb]

theorem NotCollideWith_effect (w : World) (a b : Ptr)
    (ha : (w.heap a).Body ≠ none) (hb : (w.heap b).Body ≠ none) :
    (NotCollideWith a b w).fail = none ∧
    (NotCollideWith a b w).w.Objects = w.Objects ∧
    (∀ p, ((NotCollideWith a b w).w.heap p).Body = (w.heap p).Body) ∧
    ShouldCollideWith a b (NotCollideWith a b w).w = false ∧
    ShouldCollideWith b a (NotCollideWith a b w).w = false := by
  by_cases hab : a = b
  · subst hab
    refine ⟨?_, ?_, ?_, ?_, ?_⟩ <;>
    simp [NotCollideWith, requireInit, ha, Out.andThen, Out.ret, setShape, ShouldCollideWith]
    intro p
    by_cases hp : p = a
    · subst hp; simp
    · simp [Function.update_noteq hp]
  · have hba : b ≠ a := fun h => hab h.symm
    refine ⟨?_, ?_, ?_, ?_, ?_⟩ <;>
    simp [NotCollideWith, requireInit, ha, hb, Out.andThen, Out.ret, setShape,
      ShouldCollideWith, Function.update_noteq hab, Function.update_noteq hba, hab, hba]
    intro p
    by_cases hp : p = b
    · subst hp; simp
    · by_cases hp2 : p = a
      · subst hp2; simp [Function.update_noteq hp]
      · simp [Function.update_noteq hp, Function.update_noteq hp2]

/-- C9. In a world where every body in the registry belongs to one
registered shape, take registered shapes `a`, `b` with distinct bodies.
After `a.NotCollideWith(b)` (which returns normally), `PreSolve` for a
contact between the two bodies, in either fixture order, leaves the contact
disabled. If neither shape has the other's ID in its exemption set, `PreSolve`
returns the contact as it was. And for any contact between two distinct
bodies that is enabled, `PreSolve` disables it exactly when both bodies belong
to registered shapes and one of the two `ShouldCollideWith` answers is
false. -/
theorem PreSolve_disables_exactly_exempted_pairs (w : World) (a b : Ptr)
    (bodyA bodyB : BodyRef) (hown : BodiesOwnedOnce w)
    (ha : a ∈ w.Objects) (hb : b ∈ w.Objects)
    (hba : (w.heap a).Body = some bodyA) (hbb : (w.heap b).Body = some bodyB)
    (hne : bodyA ≠ bodyB) :
    (NotCollideWith a b w).fail = none ∧
    (∀ c : Contact,
      (c.fixtureA = some bodyA ∧ c.fixtureB = some bodyB) ∨
        (c.fixtureA = some bodyB ∧ c.fixtureB = some bodyA) →
      (PreSolve (NotCollideWith a b w).w c).enabled = false) ∧
    (∀ c : Contact,
      (c.fixtureA = some bodyA ∧ c.fixtureB = some bodyB) ∨
        (c.fixtureA = some bodyB ∧ c.fixtureB = some bodyA) →
      (w.heap a).noCollideWith (w.heap b).ID = false →
      (w.heap b).noCollideWith (w.heap a).ID = false →
      PreSolve w c = c) ∧
    (∀ (c : Contact) (x y : BodyRef), c.fixtureA = some x → c.fixtureB = some y → x ≠ y →
      c.enabled = true →
      ((PreSolve w c).enabled = false ↔
        ∃ p ∈ w.Objects, ∃ q ∈ w.Objects,
          (w.heap p).Body = some x ∧ (w.heap q).Body = some y ∧
          (ShouldCollideWith p q w = false ∨ ShouldCollideWith q p w = false))) := by
  have hae : (w.heap a).Body ≠ none := by simp [hba]
  have hbe : (w.heap b).Body ≠ none := by simp [hbb]
  obtain ⟨hf, hobj, hbody, hsab, hsba⟩ := NotCollideWith_effect w a b hae hbe
  have hown1 : BodiesOwnedOnce (NotCollideWith a b w).w := by
    intro p hp q hq h1 h2
    rw [hobj] at hp hq
    rw [hbody] at h1
    rw [hbody, hbody] at h2
    exact hown p hp q hq h1 h2
  refine ⟨hf, ?_, ?_, ?_⟩
  · intro c hc
    rcases hc with ⟨h1, h2⟩ | ⟨h1, h2⟩
    · have hr := resolveShapes_registered (NotCollideWith a b w).w bodyA bodyB a b hown1
        (by rw [hobj]; exact ha) (by rw [hobj]; exact hb) (by rw [hbody]; exact hba)
        (by rw [hbody]; exact hbb) hne
      simp [PreSolve, h1, h2, hr, hsab]
    · have hr := resolveShapes_registered (NotCollideWith a b w).w bodyB bodyA b a hown1
        (by rw [hobj]; exact hb) (by rw [hobj]; exact ha) (by rw [hbody]; exact hbb)
        (by rw [hbody]; exact hba) (Ne.symm hne)
      simp [PreSolve, h1, h2, hr, hsab]
  · intro c hc hna hnb
    rcases hc with ⟨h1, h2⟩ | ⟨h1, h2⟩
    · have hr := resolveShapes_registered w bodyA bodyB a b hown ha hb hba hbb hne
      simp [PreSolve, h1, h2, hr, ShouldCollideWith, hna, hnb]
    · have hr := resolveShapes_registered w bodyB bodyA b a hown hb ha hbb hba (Ne.symm hne)
      simp [PreSolve, h1, h2, hr, ShouldCollideWith, hna, hnb]
  · intro c x y hx hy hxy hen
    constructor
    · intro hdis
      rcases hres : resolveShapes w x y with ⟨ra, rb⟩
      cases ra with
      | none => simp [PreSolve, hx, hy, hres, hen] at hdis
      | some p =>
        cases rb with
        | none => simp [PreSolve, hx, hy, hres, hen] at hdis
        | some q =>
          have hp := resolve_foldl_fst w x y w.Objects (none, none) p
            (by rw [← resolveShapes_eq_foldl, hres])
          have hq := resolve_foldl_snd w x y w.Objects (none, none) q
            (by rw [← resolveShapes_eq_foldl, hres])
          simp at hp hq
          refine ⟨p, hp.1, q, hq.1, hp.2, hq.2, ?_⟩
          by_cases hcond : ShouldCollideWith p q w = false ∨ ShouldCollideWith q p w = false
          · exact hcond
          · exfalso
            simp only [not_or, Bool.not_eq_false] at hcond
            simp [PreSolve, hx, hy, hres, hen, hcond.1, hcond.2] at hdis
    · rintro ⟨p, hp, q, hq, hbp, hbq, hcond⟩
      have hr := resolveShapes_registered w x y p q hown hp hq hbp hbq hxy
      rcases hcond with h | h
      · simp [PreSolve, hx, hy, hr, h]
      · simp [PreSolve, hx, hy, hr, h]

theorem PreSolve_disables_exactly_exempted_pairs_witness :
    BodiesOwnedOnce pairWorld ∧ (0 : Ptr) ∈ pairWorld.Objects ∧ (1 : Ptr) ∈ pairWorld.Objects ∧
    (pairWorld.heap 0).Body = some 0 ∧ (pairWorld.heap 1).Body = some 1 ∧ (0 : BodyRef) ≠ 1 ∧
    (PreSolve (NotCollideWith 0 1 pairWorld).w
        { fixtureA := some 1, fixtureB := some 0 }).enabled = false :=
  ⟨by unfold BodiesOwnedOnce; decide, by decide, by decide, by decide, by decide, by decide,
   (PreSolve_disables_exactly_exempted_pairs pairWorld 0 1 0 1
      (by unfold BodiesOwnedOnce; decide) (by decide) (by decide) (by decide) (by decide)
      (by decide)).2.1 _ (Or.inr ⟨rfl, rfl⟩)⟩

/-! ### Collision queue -/

theorem Out.andThen_ok (o : Out) (f : World → Out) (h : o.fail = none) :
    o.andThen f = { w := (f o.w).w, log := o.log ++ (f o.w).log, fail := (f o.w).fail } := by
  simp [Out.andThen, h]

/-- A loop whose body never fails, leaves the queue alone and emits `k x`. -/
theorem forEach_emits {α : Type} (f : α → World → Out) (k : α → List Ev)
    (hf : ∀ x w, (f x w).fail = none ∧ (f x w).log.filter Ev.isEmit = k x ∧
      (f x w).w.collisionQueue = w.collisionQueue)
    (xs : List α) (w : World) :
    (forEach xs f w).fail = none ∧
    (forEach xs f w).log.filter Ev.isEmit = (xs.map k).flatten ∧
    (forEach xs f w).w.collisionQueue = w.collisionQueue := by
  induction xs generalizing w with
  | nil => simp [forEach_nil, Out.ret]
  | cons x xs ih =>
    obtain ⟨h1, h2, h3⟩ := hf x w
    obtain ⟨i1, i2, i3⟩ := ih (f x w).w
    rw [forEach_cons, Out.andThen_ok _ _ h1]
    simp [i1, i2, i3, h2, h3]

theorem RemoveListener_eq (source : Option Ptr) (event : EventType) (handler : EventHandler)
    (w : World) : RemoveListener source event handler w = w := by
  have h : ∀ l : List EventHandler, l.findIdx? (fun h => sameAddress h handler) = none := by
    intro l
    induction l with
    | nil => rfl
    | cons x l ih => simp [List.findIdx?_cons, sameAddress, ih]
  unfold RemoveListener
  simp only [h]

theorem callHandler_eq (env : Env) (d : Payload) (h : EventHandler) (w : World) :
    callHandler env d h w =
      { w := env.handler h.target d w, log := [Ev.handler h.target d], fail := none } := by
  cases h with
  | fn id => rfl
  | once source event id =>
    simp [callHandler, Out.andThen, Out.ret, RemoveListener_eq, EventHandler.target]

theorem callHandlers_quiet (env : Env)
    (hh : ∀ id d w, (env.handler id d w).collisionQueue = w.collisionQueue)
    (hs : List EventHandler) (d : Payload) (w : World) :
    (callHandlers env hs d w).fail = none ∧
    (callHandlers env hs d w).log.filter Ev.isEmit = [] ∧
    (callHandlers env hs d w).w.collisionQueue = w.collisionQueue := by
  have h := forEach_emits (callHandler env d) (fun _ => [])
    (fun h w1 => by
      rw [callHandler_eq]
      exact ⟨rfl, by simp [Ev.isEmit], hh _ d w1⟩) hs w
  simpa [callHandlers] using h

theorem dispatchCollision_emits_once (env : Env)
    (hh : ∀ id d w, (env.handler id d w).collisionQueue = w.collisionQueue)
    (hc : ∀ id p w, (env.onCollision id p w).collisionQueue = w.collisionQueue)
    (c : CollisionEvent) (w : World) :
    (dispatchCollision env c w).fail = none ∧
    (dispatchCollision env c w).log.filter Ev.isEmit = [collisionEmit c] ∧
    (dispatchCollision env c w).w.collisionQueue = w.collisionQueue := by
  have hon : ∀ s o v, (callOnCollision env s o v).fail = none ∧
      (callOnCollision env s o v).log.filter Ev.isEmit = [] ∧
      (callOnCollision env s o v).w.collisionQueue = v.collisionQueue := by
    intro s o v
    unfold callOnCollision
    cases (v.heap s).OnCollisionFunc with
    | none => simp [Out.ret]
    | some id => simp [Ev.isEmit, hc]
  obtain ⟨e1, e2, e3⟩ := callHandlers_quiet env hh (handlersOf none EventCollision w)
    (Payload.collision c.ShapeA c.ShapeB) w
  have hemit : (Emit env none EventCollision (Payload.collision c.ShapeA c.ShapeB) w).fail = none ∧
      (Emit env none EventCollision (Payload.collision c.ShapeA c.ShapeB) w).log.filter Ev.isEmit
        = [collisionEmit c] ∧
      (Emit env none EventCollision (Payload.collision c.ShapeA c.ShapeB) w).w.collisionQueue
        = w.collisionQueue := by
    simp [Emit, Out.andThen, e1, e2, e3, Ev.isEmit, collisionEmit]
  obtain ⟨m1, m2, m3⟩ := hemit
  unfold dispatchCollision
  simp only []
  rw [Out.andThen_ok _ _ m1]
  obtain ⟨a1, a2, a3⟩ := hon c.ShapeA c.ShapeB
    (CollideWith c.ShapeB c.ShapeA (CollideWith c.ShapeA c.ShapeB
      (Emit env none EventCollision (Payload.collision c.ShapeA c.ShapeB) w).w))
  rw [Out.andThen_ok _ _ a1]
  obtain ⟨b1, b2, b3⟩ := hon c.ShapeB c.ShapeA
    (callOnCollision env c.ShapeA c.ShapeB
      (CollideWith c.ShapeB c.ShapeA (CollideWith c.ShapeA c.ShapeB
        (Emit env none EventCollision (Payload.collision c.ShapeA c.ShapeB) w).w))).w
  refine ⟨b1, ?_, ?_⟩
  · simp [m2, a2, b2]
  · simp only [b3, a3]
    simp [CollideWith, setShape, m3]

theorem enqueueAll_queue (ps : List (Ptr × Ptr)) (w : World) :
    (enqueueAll ps w).collisionQueue =
      w.collisionQueue ++ ps.map (fun p => CollisionEvent.mk p.1 p.2) := by
  induction ps generalizing w with
  | nil => simp [enqueueAll]
  | cons p ps ih =>
    have := ih (queueCollision p.1 p.2 w)
    simp only [enqueueAll, List.foldl_cons] at this ⊢
    rw [this]
    simp [queueCollision]

theorem processCollisions_emits (env : Env)
    (hh : ∀ id d w, (env.handler id d w).collisionQueue = w.collisionQueue)
    (hc : ∀ id p w, (env.onCollision id p w).collisionQueue = w.collisionQueue)
    (w : World) :
    (processCollisions env w).fail = none ∧
    (processCollisions env w).log.filter Ev.isEmit = w.collisionQueue.map collisionEmit ∧
    (processCollisions env w).w.collisionQueue = [] := by
  have h := forEach_emits (dispatchCollision env) (fun c => [collisionEmit c])
    (dispatchCollision_emits_once env hh hc) w.collisionQueue { w with collisionQueue := [] }
  have hflat : ∀ l : List CollisionEvent,
      (l.map (fun c => [collisionEmit c])).flatten = l.map collisionEmit := by
    intro l
    induction l with
    | nil => rfl
    | cons c l ih => simp [ih]
  rw [hflat] at h
  simpa [processCollisions] using h

theorem processCollisions_of_empty (env : Env) (w : World) (h : w.collisionQueue = []) :
    (processCollisions env w).log = [] := by
  simp [processCollisions, h, forEach_nil, Out.ret]

/-- C6. Handlers and collision callbacks that leave the queue alone. Pairs
are enqueued with `queueCollision`; `processCollisions` then returns
normally, the emissions in its log are exactly one world-level collision
event per queued pair, in queue order (duplicates included, nothing
coalesced), the queue is empty afterwards, and a second `processCollisions`
emits nothing. Starting from an empty queue the emissions are the enqueued
pairs in enqueue order. -/
theorem processCollisions_dispatches_each_pair_once (env : Env)
    (hh : ∀ id d w, (env.handler id d w).collisionQueue = w.collisionQueue)
    (hc : ∀ id p w, (env.onCollision id p w).collisionQueue = w.collisionQueue)
    (w : World) (ps : List (Ptr × Ptr)) :
    (processCollisions env (enqueueAll ps w)).fail = none ∧
    (processCollisions env (enqueueAll ps w)).log.filter Ev.isEmit =
      (w.collisionQueue ++ ps.map (fun p => CollisionEvent.mk p.1 p.2)).map collisionEmit ∧
    (w.collisionQueue = [] →
      (processCollisions env (enqueueAll ps w)).log.filter Ev.isEmit =
        ps.map (fun p => Ev.emit none EventCollision (Payload.collision p.1 p.2))) ∧
    (processCollisions env (enqueueAll ps w)).w.collisionQueue = [] ∧
    (processCollisions env (processCollisions env (enqueueAll ps w)).w).log = [] := by
  obtain ⟨h1, h2, h3⟩ := processCollisions_emits env hh hc (enqueueAll ps w)
  rw [enqueueAll_queue] at h2
  refine ⟨h1, h2, ?_, h3, ?_⟩
  · intro hq
    rw [h2, hq]
    simp [collisionEmit]
  · exact processCollisions_of_empty env _ h3

theorem processCollisions_dispatches_each_pair_once_witness :
    (∀ id d w, (idleEnv.handler id d w).collisionQueue = w.collisionQueue) ∧
    (∀ id p w, (idleEnv.onCollision id p w).collisionQueue = w.collisionQueue) ∧
    (processCollisions idleEnv (enqueueAll [(0, 1), (2, 3)] listeningWorld)).log.filter Ev.isEmit =
      [Ev.emit none EventCollision (Payload.collision 0 1),
       Ev.emit none EventCollision (Payload.collision 2 3)] ∧
    (processCollisions idleEnv (enqueueAll [(0, 1), (2, 3)] listeningWorld)).w.collisionQueue
      = [] :=
  ⟨fun _ _ _ => rfl, fun _ _ _ => rfl,
   (processCollisions_dispatches_each_pair_once idleEnv (fun _ _ _ => rfl) (fun _ _ _ => rfl)
      listeningWorld [(0, 1), (2, 3)]).2.2.1 rfl,
   (processCollisions_dispatches_each_pair_once idleEnv (fun _ _ _ => rfl) (fun _ _ _ => rfl)
      listeningWorld [(0, 1), (2, 3)]).2.2.2.1⟩

/-! ### Frames -/

theorem untouched_refl (w : World) : Untouched w w := ⟨rfl, fun _ => rfl, rfl, rfl, rfl⟩

theorem untouched_trans {a b c : World} (h1 : Untouched a b) (h2 : Untouched b c) :
    Untouched a c :=
  ⟨h2.objects.trans h1.objects, fun p => (h2.body p).trans (h1.body p),
   h2.pending.trans h1.pending, h2.levels.trans h1.levels, h2.liveBodies.trans h1.liveBodies⟩

theorem switchKept_refl (w : World) : SwitchKept w w := ⟨rfl, rfl⟩

theorem switchKept_trans {a b c : World} (h1 : SwitchKept a b) (h2 : SwitchKept b c) :
    SwitchKept a c :=
  ⟨h2.pending.trans h1.pending, h2.levels.trans h1.levels⟩

theorem untouched_switchKept {a b : World} (h : Untouched a b) : SwitchKept a b :=
  ⟨h.pending, h.levels⟩

theorem andThen_rel (R : World → World → Prop)
    (htrans : ∀ a b c, R a b → R b c → R a c) (w0 : World) (o : Out) (f : World → Out)
    (h1 : R w0 o.w) (h2 : ∀ w, R w (f w).w) : R w0 (o.andThen f).w := by
  unfold Out.andThen
  cases o.fail with
  | some m => exact h1
  | none => exact htrans _ _ _ h1 (h2 o.w)

theorem forEach_rel {α : Type} (R : World → World → Prop) (hrefl : ∀ a, R a a)
    (htrans : ∀ a b c, R a b → R b c → R a c) (f : α → World → Out)
    (hf : ∀ x w, R w (f x w).w) (xs : List α) (w : World) : R w (forEach xs f w).w := by
  induction xs generalizing w with
  | nil => exact hrefl w
  | cons x xs ih =>
    rw [forEach_cons]
    exact andThen_rel R htrans w _ _ (hf x w) ih

theorem andThen_fail_none (o : Out) (f : World → Out) (h1 : o.fail = none)
    (h2 : ∀ w, (f w).fail = none) : (o.andThen f).fail = none := by
  rw [Out.andThen_ok _ _ h1]
  exact h2 o.w

theorem forEach_fail_none {α : Type} (f : α → World → Out) (xs : List α)
    (hf : ∀ x ∈ xs, ∀ w, (f x w).fail = none) (w : World) : (forEach xs f w).fail = none := by
  induction xs generalizing w with
  | nil => rfl
  | cons x xs ih =>
    rw [forEach_cons, Out.andThen_ok _ _ (hf x (List.mem_cons_self _ _) w)]
    exact ih (fun y hy => hf y (List.mem_cons_of_mem _ hy)) _

theorem andThen_log_all (P : Ev → Prop) (o : Out) (f : World → Out)
    (h1 : ∀ e ∈ o.log, P e) (h2 : ∀ w, ∀ e ∈ (f w).log, P e) :
    ∀ e ∈ (o.andThen f).log, P e := by
  unfold Out.andThen
  cases o.fail with
  | some m => exact h1
  | none =>
    intro e he
    rcases List.mem_append.mp he with h | h
    · exact h1 e h
    · exact h2 _ e h

theorem forEach_log_all {α : Type} (P : Ev → Prop) (f : α → World → Out)
    (hf : ∀ x w, ∀ e ∈ (f x w).log, P e) (xs : List α) (w : World) :
    ∀ e ∈ (forEach xs f w).log, P e := by
  induction xs generalizing w with
  | nil => intro e he; simp [forEach_nil, Out.ret] at he
  | cons x xs ih =>
    rw [forEach_cons]
    exact andThen_log_all P _ _ (hf x w) ih

theorem setShape_untouched (w : World) (s : Ptr) (f : Shape → Shape)
    (hf : ∀ sh, (f sh).Body = sh.Body) : Untouched w (setShape w s f) := by
  refine ⟨rfl, ?_, rfl, rfl, rfl⟩
  intro p
  by_cases hp : p = s
  · subst hp; simp [setShape, hf]
  · simp [setShape, Function.update_noteq hp]

theorem setShape2_untouched (w : World) (s1 s2 : Ptr) (f1 f2 : Shape → Shape)
    (h1 : ∀ sh, (f1 sh).Body = sh.Body) (h2 : ∀ sh, (f2 sh).Body = sh.Body) :
    Untouched w (setShape (setShape w s1 f1) s2 f2) :=
  untouched_trans (setShape_untouched w s1 f1 h1) (setShape_untouched _ s2 f2 h2)

theorem CollideWith_untouched (s o : Ptr) (w : World) : Untouched w (CollideWith s o w) :=
  setShape_untouched w s _ (fun _ => rfl)

theorem FinishCollideWith_untouched (s o : Ptr) (w : World) :
    Untouched w (FinishCollideWith s o w) :=
  setShape_untouched w s _ (fun _ => rfl)

theorem listenerCall_untouched (cb : ContactCb) (w : World) :
    Untouched w (listenerCall cb w).w := by
  cases cb with
  | begin c =>
    simp only [listenerCall, Out.ret, BeginContact]
    split
    · split
      · exact ⟨rfl, fun _ => rfl, rfl, rfl, rfl⟩
      · exact untouched_refl w
    · exact untouched_refl w
  | finish c =>
    simp only [listenerCall, Out.ret, EndContact]
    split
    · split
      · exact untouched_trans (FinishCollideWith_untouched _ _ _)
          (FinishCollideWith_untouched _ _ _)
      · exact untouched_refl w
    · exact untouched_refl w
  | preSolve c => exact untouched_refl w
  | postSolve c =>
    simp only [listenerCall, PostSolve]
    split
    · split
      · split
        · split
          · simp only [Out.ret]
            refine setShape2_untouched _ _ _ _ _ ?_ ?_ <;> intro sh <;> rfl
          · exact untouched_refl w
        · exact untouched_refl w
      · exact untouched_refl w
    · exact untouched_refl w

theorem physicsStep_untouched (env : Env) (dt : ℚ) (w : World) :
    Untouched w (physicsStep env dt w).w := by
  unfold physicsStep
  apply andThen_rel Untouched (fun _ _ _ => untouched_trans) w _ _ (untouched_refl w)
  intro w0
  apply andThen_rel Untouched (fun _ _ _ => untouched_trans) w0 _ _
  · exact forEach_rel Untouched untouched_refl (fun _ _ _ => untouched_trans) _
      (fun cb v => listenerCall_untouched cb v) _ _
  · intro w1
    exact ⟨rfl, fun _ => rfl, rfl, rfl, rfl⟩

theorem listenerCall_fail_none (cb : ContactCb) (w : World)
    (hfix : ∀ c, cb = ContactCb.postSolve c → c.fixtureA ≠ none ∧ c.fixtureB ≠ none) :
    (listenerCall cb w).fail = none := by
  cases cb with
  | begin c => rfl
  | finish c => rfl
  | preSolve c => rfl
  | postSolve c =>
    obtain ⟨h1, h2⟩ := hfix c rfl
    obtain ⟨x, hx⟩ := Option.ne_none_iff_exists'.mp h1
    obtain ⟨y, hy⟩ := Option.ne_none_iff_exists'.mp h2
    simp only [listenerCall, PostSolve, hx, hy]
    split
    · split
      · split
        · rfl
        · rfl
      · rfl
    · rfl

theorem physicsStep_fail_none (env : Env) (dt : ℚ) (w : World)
    (hfix : ∀ c, ContactCb.postSolve c ∈ env.stepContacts w dt →
      c.fixtureA ≠ none ∧ c.fixtureB ≠ none) :
    (physicsStep env dt w).fail = none := by
  unfold physicsStep
  rw [Out.andThen_ok _ _ rfl]
  show (Out.andThen (forEach (env.stepContacts w dt) listenerCall w) _).fail = none
  apply andThen_fail_none
  · apply forEach_fail_none
    intro cb hcb v
    apply listenerCall_fail_none
    intro c hc
    subst hc
    exact hfix c hcb
  · intro w1
    rfl

theorem callOnCollision_fail_none (env : Env) (s o : Ptr) (w : World) :
    (callOnCollision env s o w).fail = none := by
  unfold callOnCollision
  split <;> rfl

theorem callHandlers_fail_none (env : Env) (hs : List EventHandler) (d : Payload)
    (w : World) : (callHandlers env hs d w).fail = none :=
  forEach_fail_none _ hs (fun h _ v => by rw [callHandler_eq]) w

theorem Emit_fail_none (env : Env) (src : Option Ptr) (ev : EventType) (d : Payload)
    (w : World) : (Emit env src ev d w).fail = none := by
  unfold Emit
  exact andThen_fail_none _ _ rfl (fun v => callHandlers_fail_none env _ d v)

theorem dispatchCollision_fail_none (env : Env) (c : CollisionEvent) (w : World) :
    (dispatchCollision env c w).fail = none := by
  unfold dispatchCollision
  apply andThen_fail_none _ _ (Emit_fail_none env _ _ _ w)
  intro v
  exact andThen_fail_none _ _ (callOnCollision_fail_none env _ _ _)
    (fun u => callOnCollision_fail_none env _ _ u)

theorem processCollisions_fail_none (env : Env) (w : World) :
    (processCollisions env w).fail = none :=
  forEach_fail_none _ _ (fun c _ v => dispatchCollision_fail_none env c v) _

theorem callOnCollision_rel (R : World → World → Prop) (hrefl : ∀ a, R a a) (env : Env)
    (hc : ∀ id p v, R v (env.onCollision id p v)) (s o : Ptr) (w : World) :
    R w (callOnCollision env s o w).w := by
  unfold callOnCollision
  split
  · exact hrefl w
  · exact hc _ _ _

theorem Emit_rel (R : World → World → Prop) (hrefl : ∀ a, R a a)
    (htrans : ∀ a b c, R a b → R b c → R a c) (env : Env)
    (hh : ∀ id d v, R v (env.handler id d v)) (src : Option Ptr) (ev : EventType)
    (d : Payload) (w : World) : R w (Emit env src ev d w).w := by
  unfold Emit
  apply andThen_rel R htrans w _ _ (hrefl w)
  intro v
  exact forEach_rel R hrefl htrans _
    (fun h u => by rw [callHandler_eq]; exact hh _ d u) _ v

theorem dispatchCollision_rel (R : World → World → Prop) (hrefl : ∀ a, R a a)
    (htrans : ∀ a b c, R a b → R b c → R a c) (hint : ∀ a b, Untouched a b → R a b)
    (env : Env) (hh : ∀ id d v, R v (env.handler id d v))
    (hc : ∀ id p v, R v (env.onCollision id p v)) (c : CollisionEvent) (w : World) :
    R w (dispatchCollision env c w).w := by
  unfold dispatchCollision
  apply andThen_rel R htrans w _ _ (Emit_rel R hrefl htrans env hh _ _ _ w)
  intro v
  apply andThen_rel R htrans v
  · exact htrans _ _ _
      (hint _ _ (untouched_trans (CollideWith_untouched c.ShapeA c.ShapeB v)
        (CollideWith_untouched c.ShapeB c.ShapeA _)))
      (callOnCollision_rel R hrefl env hc _ _ _)
  · intro u
    exact callOnCollision_rel R hrefl env hc _ _ u

theorem processCollisions_rel (R : World → World → Prop) (hrefl : ∀ a, R a a)
    (htrans : ∀ a b c, R a b → R b c → R a c) (hint : ∀ a b, Untouched a b → R a b)
    (env : Env) (hh : ∀ id d v, R v (env.handler id d v))
    (hc : ∀ id p v, R v (env.onCollision id p v)) (w : World) :
    R w (processCollisions env w).w := by
  unfold processCollisions
  exact htrans _ _ _ (hint w { w with collisionQueue := [] } ⟨rfl, fun _ => rfl, rfl, rfl, rfl⟩)
    (forEach_rel R hrefl htrans _ (dispatchCollision_rel R hrefl htrans hint env hh hc) _ _)

/-! ### Logs -/

theorem physicsStep_log (env : Env) (dt : ℚ) (w : World) :
    ∀ e ∈ (physicsStep env dt w).log, Ev.isFrameTail e = false := by
  unfold physicsStep
  apply andThen_log_all
  · intro e he
    simp at he
    subst he
    rfl
  · intro w0
    apply andThen_log_all
    · apply forEach_log_all
      intro cb v e he
      cases cb with
      | begin c => simp [listenerCall, Out.ret] at he
      | finish c => simp [listenerCall, Out.ret] at he
      | preSolve c =>
        simp only [listenerCall] at he
        split at he
        · simp at he
        · simp at he
          subst he
          rfl
      | postSolve c =>
        have : (PostSolve c v).log = [] := by
          unfold PostSolve
          repeat' split
          all_goals rfl
        simp [listenerCall, this] at he
    · intro w1 e he
      simp [Out.ret] at he

theorem Emit_log (env : Env) (src : Option Ptr) (ev : EventType) (d : Payload) (w : World) :
    ∀ e ∈ (Emit env src ev d w).log, Ev.isFrameTail e = false := by
  unfold Emit
  apply andThen_log_all
  · intro e he
    simp at he
    subst he
    rfl
  · intro v
    apply forEach_log_all
    intro h u e he
    rw [callHandler_eq] at he
    simp at he
    subst he
    rfl

theorem callOnCollision_log (env : Env) (s o : Ptr) (w : World) :
    ∀ e ∈ (callOnCollision env s o w).log, Ev.isFrameTail e = false := by
  unfold callOnCollision
  split
  · intro e he
    simp [Out.ret] at he
  · intro e he
    simp at he
    subst he
    rfl

theorem processCollisions_log (env : Env) (w : World) :
    ∀ e ∈ (processCollisions env w).log, Ev.isFrameTail e = false := by
  unfold processCollisions
  apply forEach_log_all
  intro c v
  unfold dispatchCollision
  apply andThen_log_all _ _ _ (Emit_log env _ _ _ v)
  intro u
  exact andThen_log_all _ _ _ (callOnCollision_log env _ _ _)
    (fun x => callOnCollision_log env _ _ x)

theorem callInit_log (env : Env) (depth : Nat) (f : InitFn) (w : World) :
    ∀ e ∈ (callInit env depth f w).log, Ev.isFrameTail e = false := by
  induction depth generalizing f with
  | zero =>
    cases f with
    | user id => intro e he; simp [callInit] at he; subst he; rfl
    | defaultInit => intro e he; simp [callInit, Out.panic] at he
  | succ n ih =>
    cases f with
    | user id => intro e he; simp [callInit] at he; subst he; rfl
    | defaultInit =>
      intro e he
      simp only [callInit] at he
      split at he
      · simp [Out.panic] at he
      · split at he
        · simp [Out.panic] at he
        · exact ih _ e he

theorem GenerateLevelFromMap_log (env : Env) (m : List String) (objects : String → Option Nat)
    (w : World) : ∀ e ∈ (GenerateLevelFromMap env m objects w).log, Ev.isFrameTail e = false := by
  unfold GenerateLevelFromMap
  split
  · intro e he
    simp [Out.ret] at he
  · apply forEach_log_all
    intro yrow v
    apply forEach_log_all
    intro cell u e he
    unfold spawnTile at he
    split at he
    · simp [Out.ret] at he
    · simp at he
      subst he
      rfl

theorem teardown_log (xs : List Ptr) (w : World) :
    ∀ e ∈ (forEach xs teardownShape w).log, Ev.isFrameTail e = false := by
  apply forEach_log_all
  intro obj v e he
  unfold teardownShape at he
  split at he
  · simp at he
    subst he
    rfl
  · simp [Out.ret] at he

theorem enterLevel_log (env : Env) (level : Level) (w : World) :
    ∀ e ∈ (enterLevel env level w).log, Ev.isFrameTail e = false := by
  unfold enterLevel
  apply andThen_log_all
  · intro e he
    split at he
    · exact callInit_log env _ _ _ e he
    · simp [Out.ret] at he
  · intro w5
    apply andThen_log_all _ _ _ (GenerateLevelFromMap_log env _ _ _)
    intro w6 e he
    split at he
    · simp at he
      subst he
      rfl
    · simp [Out.ret] at he

theorem SelectLevel_log (env : Env) (index : Int) (w : World) :
    ∀ e ∈ (SelectLevel env index w).log, Ev.isFrameTail e = false := by
  unfold SelectLevel
  split
  · intro e he
    simp [Out.ret] at he
  · apply andThen_log_all
    · intro e he
      split at he
      · simp at he
        subst he
        rfl
      · simp [Out.ret] at he
    · intro w2
      apply andThen_log_all _ _ _ (teardown_log _ _)
      intro w3
      exact enterLevel_log env _ _

/-! ### Teardown -/

theorem teardownShape_effect (x : Ptr) (w : World) :
    (teardownShape x w).fail = none ∧
    (teardownShape x w).w.Objects = w.Objects ∧
    (teardownShape x w).w.Levels = w.Levels ∧
    (∀ p, ((teardownShape x w).w.heap p).Body = if p = x then none else (w.heap p).Body) ∧
    (∀ b, b ∈ (teardownShape x w).w.liveBodies →
      b ∈ w.liveBodies ∧ (w.heap x).Body ≠ some b) ∧
    (∀ b, (w.heap x).Body = some b → Ev.destroyBody b ∈ (teardownShape x w).log) := by
  unfold teardownShape
  cases hx : (w.heap x).Body with
  | none =>
    refine ⟨rfl, rfl, rfl, ?_, ?_, ?_⟩
    · intro p
      by_cases hp : p = x
      · subst hp; simp [Out.ret, hx]
      · simp [Out.ret, hp]
    · intro b hb
      exact ⟨hb, by simp⟩
    · intro b hb
      cases hb
  | some bx =>
    refine ⟨rfl, rfl, rfl, ?_, ?_, ?_⟩
    · intro p
      by_cases hp : p = x
      · subst hp; simp [setShape]
      · simp [setShape, DestroyBody, Function.update_noteq hp, hp]
    · intro b hb
      simp only [setShape, DestroyBody, List.mem_filter, bne_iff_ne, ne_eq] at hb
      refine ⟨hb.1, ?_⟩
      intro h
      exact hb.2 (Option.some.inj h).symm
    · intro b hb
      cases hb
      simp

theorem teardown_effect (xs : List Ptr) (w : World) :
    (forEach xs teardownShape w).fail = none ∧
    (forEach xs teardownShape w).w.Objects = w.Objects ∧
    (forEach xs teardownShape w).w.Levels = w.Levels ∧
    (∀ p, ((forEach xs teardownShape w).w.heap p).Body =
      if p ∈ xs then none else (w.heap p).Body) ∧
    (∀ b, b ∈ (forEach xs teardownShape w).w.liveBodies →
      b ∈ w.liveBodies ∧ ∀ p ∈ xs, (w.heap p).Body ≠ some b) ∧
    (∀ p ∈ xs, ∀ b, (w.heap p).Body = some b →
      Ev.destroyBody b ∈ (forEach xs teardownShape w).log) := by
  induction xs generalizing w with
  | nil =>
    refine ⟨rfl, rfl, rfl, ?_, ?_, ?_⟩
    · intro p; simp [forEach_nil, Out.ret]
    · intro b hb
      exact ⟨hb, by simp⟩
    · intro p hp
      cases hp
  | cons x xs ih =>
    obtain ⟨t1, t2, t3, t4, t5, t6⟩ := teardownShape_effect x w
    obtain ⟨i1, i2, i3, i4, i5, i6⟩ := ih (teardownShape x w).w
    rw [forEach_cons, Out.andThen_ok _ _ t1]
    refine ⟨i1, i2.trans t2, i3.trans t3, ?_, ?_, ?_⟩
    · intro p
      simp only [i4, t4, List.mem_cons]
      by_cases hp : p = x
      · simp [hp]
      · simp [hp]
    · intro b hb
      obtain ⟨h1, h2⟩ := i5 b hb
      obtain ⟨h3, h4⟩ := t5 b h1
      refine ⟨h3, ?_⟩
      intro p hp
      rcases List.mem_cons.mp hp with hpx | hpx
      · rw [hpx]; exact h4
      · have := h2 p hpx
        rw [t4] at this
        by_cases hp2 : p = x
        · rw [hp2]; exact h4
        · simpa [hp2] using this
    · intro p hp b hb
      simp only [List.mem_append]
      by_cases hpx : p = x
      · left
        rw [hpx] at hb
        exact t6 b hb
      · right
        have hp2 : p ∈ xs := by
          rcases List.mem_cons.mp hp with h | h
          · exact absurd h hpx
          · exact h
        apply i6 p hp2 b
        rw [t4]
        simpa [hpx] using hb

theorem callInit_rel (R : World → World → Prop) (hrefl : ∀ a, R a a) (env : Env)
    (hhook : ∀ id v, R v (env.hook id v)) (depth : Nat) (f : InitFn) (w : World) :
    R w (callInit env depth f w).w := by
  induction depth generalizing f with
  | zero =>
    cases f with
    | user id => exact hhook id w
    | defaultInit => exact hrefl w
  | succ n ih =>
    cases f with
    | user id => exact hhook id w
    | defaultInit =>
      simp only [callInit]
      split
      · exact hrefl w
      · split
        · exact hrefl w
        · exact ih _

theorem GenerateLevelFromMap_rel (R : World → World → Prop) (hrefl : ∀ a, R a a)
    (htrans : ∀ a b c, R a b → R b c → R a c) (env : Env)
    (hspawn : ∀ id pos a b v, R v (env.spawn id pos a b v))
    (m : List String) (objects : String → Option Nat) (w : World) :
    R w (GenerateLevelFromMap env m objects w).w := by
  unfold GenerateLevelFromMap
  split
  · exact hrefl w
  · apply forEach_rel R hrefl htrans
    intro yrow v
    apply forEach_rel R hrefl htrans
    intro cell u
    unfold spawnTile
    split
    · exact hrefl u
    · exact hspawn _ _ _ _ _

theorem enterLevel_rel (R : World → World → Prop) (hrefl : ∀ a, R a a)
    (htrans : ∀ a b c, R a b → R b c → R a c) (env : Env)
    (hhook : ∀ id v, R v (env.hook id v))
    (hspawn : ∀ id pos a b v, R v (env.spawn id pos a b v))
    (level : Level) (w : World) : R w (enterLevel env level w).w := by
  unfold enterLevel
  apply andThen_rel R htrans w
  · split
    · exact callInit_rel R hrefl env hhook _ _ _
    · exact hrefl w
  · intro w5
    apply andThen_rel R htrans w5 _ _
      (GenerateLevelFromMap_rel R hrefl htrans env hspawn _ _ _)
    intro w6
    split
    · exact hhook _ _
    · exact hrefl w6

/-! ### Registry -/

theorem createPhysicsBody_registry (s : Ptr) (w : World) :
    (createPhysicsBody s w).w.Objects = w.Objects ∧
    ∀ p, ((createPhysicsBody s w).w.heap p).ID = (w.heap p).ID := by
  unfold createPhysicsBody
  dsimp only
  split
  · exact ⟨rfl, fun _ => rfl⟩
  · refine ⟨rfl, ?_⟩
    intro p
    by_cases hp : p = s
    · subst hp; simp [Out.ret, setShape, setBody]
    · simp [Out.ret, setShape, setBody, Function.update_noteq hp]

theorem Register_registry (s : Ptr) (w : World) :
    (Register s w).w.Objects = w.Objects ++ [s] ∧
    ∀ p, ((Register s w).w.heap p).ID = (w.heap p).ID := by
  unfold Register
  dsimp only
  obtain ⟨h1, h2⟩ := createPhysicsBody_registry s
    { setShape w s (fun sh => { sh with world := true }) with
      Objects := (setShape w s (fun sh => { sh with world := true })).Objects ++ [s] }
  refine ⟨h1, ?_⟩
  intro p
  rw [h2]
  by_cases hp : p = s
  · subst hp; simp [setShape]
  · simp [setShape, Function.update_noteq hp]

theorem Unregister_registry (s : Ptr) (w : World) :
    (Unregister s w).w.Objects =
      w.Objects.eraseP (fun obj => (w.heap obj).ID == (w.heap s).ID) ∧
    (Unregister s w).w.heap = w.heap := by
  unfold Unregister
  cases hf : w.Objects.find? (fun obj => (w.heap obj).ID == (w.heap s).ID) with
  | none =>
    refine ⟨?_, rfl⟩
    rw [List.eraseP_of_forall_not]
    · rfl
    · intro a ha
      have := List.find?_eq_none.mp hf a ha
      simpa using this
  | some obj =>
    dsimp only
    cases (w.heap obj).Body with
    | none => exact ⟨rfl, rfl⟩
    | some b => exact ⟨rfl, rfl⟩

theorem SelectLevel_empties_registry (env : Env) (j : Int) (v : World)
    (hj : 0 ≤ j ∧ j < v.Levels.length)
    (hhook : ∀ id u, (env.hook id u).Objects = u.Objects)
    (hspawn : ∀ id pos a b u, (env.spawn id pos a b u).Objects = u.Objects) :
    (SelectLevel env j v).w.Objects = [] := by
  have hvalid : ¬ (j < 0 ∨ j ≥ (v.Levels.length : Int)) := by omega
  have hD : (match (v.Levels.getD j.toNat {}).OnDestroy with
        | some id => ({ w := env.hook id { v with CurrentLevel := j },
                        log := [Ev.onDestroy id] } : Out)
        | none => Out.ret { v with CurrentLevel := j }).fail = none := by
    split <;> rfl
  unfold SelectLevel
  rw [if_neg hvalid]
  dsimp only
  rw [Out.andThen_ok _ _ hD, Out.andThen_ok _ _ (teardown_effect _ _).1]
  dsimp only
  have hrel := enterLevel_rel (fun a b => b.Objects = a.Objects) (fun _ => rfl)
    (fun _ _ _ h1 h2 => h2.trans h1) env hhook hspawn
  rw [hrel]
  rfl

theorem eraseP_map_eraseIdx {α β : Type} (g : β → α) (p : α → Bool) (ns : List β) :
    (ns.map g).eraseP p = (ns.eraseIdx ((ns.map g).findIdx p)).map g := by
  induction ns with
  | nil => rfl
  | cons n ns ih =>
    by_cases hp : p (g n) = true
    · simp [List.eraseP_cons, List.findIdx_cons, hp]
    · simp [List.eraseP_cons, List.findIdx_cons, hp, ih]

/-- C10 (counterexample). In a newly created world, registering the shape at
address 0 twice returns normally both times and leaves two registry entries
with the same ID. -/
theorem Register_twice_gives_two_entries :
    ((Register 0 freshWorld).andThen (Register 0)).fail = none ∧
    ((Register 0 freshWorld).andThen (Register 0)).w.Objects = [0, 0] ∧
    registryIDs ((Register 0 freshWorld).andThen (Register 0)).w = ["a", "a"] ∧
    ¬ (registryIDs ((Register 0 freshWorld).andThen (Register 0)).w).Nodup := by
  refine ⟨by decide, by decide, by decide, ?_⟩
  have h : registryIDs ((Register 0 freshWorld).andThen (Register 0)).w = ["a", "a"] := by
    decide
  rw [h]
  decide

/-! ### Unregister -/

theorem find_erase_first {α : Type} (p : α → Bool) (l1 : List α) (x : α) (l2 : List α)
    (hx : p x = true) (h1 : ∀ y ∈ l1, p y = false) :
    (l1 ++ x :: l2).find? p = some x ∧ (l1 ++ x :: l2).eraseP p = l1 ++ l2 := by
  induction l1 with
  | nil => simp [hx]
  | cons y l1 ih =>
    have hy : p y = false := h1 y (List.mem_cons_self _ _)
    obtain ⟨i1, i2⟩ := ih (fun z hz => h1 z (List.mem_cons_of_mem _ hz))
    constructor
    · simp [List.find?_cons, hy, i1]
    · simp [List.eraseP_cons, hy, i2]

/-- C11. If the registry is `l1 ++ x :: l2`, where `x` has the ID of `s`
and no entry of `l1` has it, `Unregister(s)` returns normally with the
registry `l1 ++ l2`: exactly the first entry with that ID is removed and the
others keep their order. The body of `x`, when it has one, is destroyed (one
`destroyBody` event, and the handle leaves the physics world) and no other
body is. If no entry has the ID of `s`, `Unregister(s)` returns the world as
it was and performs no event. -/
theorem Unregister_removes_first_entry_with_ID (s : Ptr) (w : World) :
    (∀ l1 x l2, w.Objects = l1 ++ x :: l2 → (w.heap x).ID = (w.heap s).ID →
      (∀ y ∈ l1, (w.heap y).ID ≠ (w.heap s).ID) →
      (Unregister s w).fail = none ∧
      (Unregister s w).w.Objects = l1 ++ l2 ∧
      (Unregister s w).log =
        (match (w.heap x).Body with
          | some b => [Ev.destroyBody b]
          | none => []) ∧
      (∀ b, (w.heap x).Body = some b → b ∉ (Unregister s w).w.liveBodies) ∧
      (∀ b, (w.heap x).Body ≠ some b →
        (b ∈ (Unregister s w).w.liveBodies ↔ b ∈ w.liveBodies))) ∧
    ((∀ y ∈ w.Objects, (w.heap y).ID ≠ (w.heap s).ID) →
      Unregister s w = { w := w, log := [], fail := none }) := by
  constructor
  · intro l1 x l2 hobj hx h1
    obtain ⟨f1, f2⟩ := find_erase_first (fun obj => (w.heap obj).ID == (w.heap s).ID) l1 x l2
      (by simp [hx]) (fun y hy => by simpa using h1 y hy)
    unfold Unregister
    rw [hobj, f1]
    dsimp only
    cases hb : (w.heap x).Body with
    | none =>
      refine ⟨rfl, ?_, rfl, ?_, ?_⟩
      · simp only [Out.ret, Out.andThen]
        rw [hobj, f2]
      · intro b hb1; cases hb1
      · intro b _
        simp [Out.ret, Out.andThen]
    | some bx =>
      refine ⟨rfl, ?_, ?_, ?_, ?_⟩
      · simp only [Out.ret, Out.andThen, DestroyBody]
        rw [hobj, f2]
      · simp [Out.ret, Out.andThen]
      · intro b hb1
        cases hb1
        simp [Out.ret, Out.andThen, DestroyBody]
      · intro b hne
        have : b ≠ bx := fun h => hne (by rw [h])
        simp [Out.ret, Out.andThen, DestroyBody, this]
  · intro hnone
    unfold Unregister
    have : w.Objects.find? (fun obj => (w.heap obj).ID == (w.heap s).ID) = none := by
      rw [List.find?_eq_none]
      intro y hy
      simpa using hnone y hy
    rw [this]
    rfl

theorem Unregister_removes_first_entry_with_ID_witness :
    pairWorld.Objects = [] ++ 0 :: [1] ∧ (pairWorld.heap 0).ID = (pairWorld.heap 0).ID ∧
    (∀ y ∈ ([] : List Ptr), (pairWorld.heap y).ID ≠ (pairWorld.heap 0).ID) ∧
    (Unregister 0 pairWorld).w.Objects = [1] ∧
    (Unregister 0 pairWorld).log = [Ev.destroyBody 0] ∧
    (Unregister 0 pairWorld).w.liveBodies = [1] :=
  ⟨rfl, rfl, fun _ h => absurd h (List.not_mem_nil _),
   ((Unregister_removes_first_entry_with_ID 0 pairWorld).1 [] 0 [1] rfl rfl
      (fun _ h => absurd h (List.not_mem_nil _))).2.1,
   ((Unregister_removes_first_entry_with_ID 0 pairWorld).1 [] 0 [1] rfl rfl
      (fun _ h => absurd h (List.not_mem_nil _))).2.2.1,
   by decide⟩

/-! ### Body references and the registry -/

theorem createPhysicsBody_shape (s : Ptr) (w : World) :
    (∀ p, p ≠ s → (createPhysicsBody s w).w.heap p = w.heap p) ∧
    ((createPhysicsBody s w).w.heap s).world = (w.heap s).world ∧
    ((createPhysicsBody s w).fail = none →
      ((createPhysicsBody s w).w.heap s).Body = some w.nextBody) ∧
    ((createPhysicsBody s w).fail ≠ none →
      (createPhysicsBody s w).fail = some geometryMsg ∧
      ((createPhysicsBody s w).w.heap s).Body = (w.heap s).Body ∧
      (createPhysicsBody s w).w.liveBodies = w.liveBodies ++ [w.nextBody]) := by
  unfold createPhysicsBody
  dsimp only
  split
  · refine ⟨fun _ _ => rfl, rfl, ?_, ?_⟩
    · intro h; simp [Out.panic] at h
    · intro _; exact ⟨rfl, rfl, rfl⟩
  · refine ⟨?_, ?_, ?_, ?_⟩
    · intro p hp
      simp [Out.ret, setShape, setBody, Function.update_noteq hp]
    · simp [Out.ret, setShape, setBody]
    · intro _
      simp [Out.ret, setShape, setBody]
    · intro h
      simp [Out.ret] at h

theorem Register_shape (s : Ptr) (w : World) :
    (∀ p, p ≠ s → ((Register s w).w.heap p).Body = (w.heap p).Body) ∧
    (∀ p, p ≠ s → ((Register s w).w.heap p).world = (w.heap p).world) ∧
    ((Register s w).w.heap s).world = true ∧
    ((Register s w).fail = none → ((Register s w).w.heap s).Body = some w.nextBody) ∧
    ((Register s w).fail ≠ none →
      (Register s w).fail = some geometryMsg ∧
      ((Register s w).w.heap s).Body = (w.heap s).Body ∧
      (Register s w).w.liveBodies = w.liveBodies ++ [w.nextBody]) := by
  unfold Register
  dsimp only
  obtain ⟨c1, c2, c3, c4⟩ := createPhysicsBody_shape s
    { setShape w s (fun sh => { sh with world := true }) with
      Objects := (setShape w s (fun sh => { sh with world := true })).Objects ++ [s] }
  refine ⟨?_, ?_, ?_, ?_, ?_⟩
  · intro p hp
    rw [c1 p hp]
    simp [setShape, Function.update_noteq hp]
  · intro p hp
    rw [c1 p hp]
    simp [setShape, Function.update_noteq hp]
  · rw [c2]
    simp [setShape]
  · intro h
    exact c3 h
  · intro h
    obtain ⟨d1, d2, d3⟩ := c4 h
    refine ⟨d1, ?_, d3⟩
    rw [d2]
    simp [setShape]

theorem Register_bodiesRegistered (s : Ptr) (w : World) (h : BodiesRegistered w) :
    BodiesRegistered (Register s w).w := by
  intro p hp
  rw [(Register_registry s w).1]
  by_cases hps : p = s
  · simp [hps]
  · rw [(Register_shape s w).1 p hps] at hp
    exact List.mem_append_left _ (h p hp)

theorem SelectLevel_bodiesRegistered (env : Env)
    (hhook : ∀ id v, BodiesRegistered v → BodiesRegistered (env.hook id v))
    (hspawn : ∀ id pos a b v, BodiesRegistered v → BodiesRegistered (env.spawn id pos a b v))
    (j : Int) (w : World) (h : BodiesRegistered w) :
    BodiesRegistered (SelectLevel env j w).w := by
  by_cases hj : j < 0 ∨ j ≥ (w.Levels.length : Int)
  · have : SelectLevel env j w = Out.ret w := by simp [SelectLevel, hj]
    rw [this]
    exact h
  · have hD : ∃ wd ld, BodiesRegistered wd ∧
        (match (w.Levels.getD j.toNat {}).OnDestroy with
          | some id => ({ w := env.hook id { w with CurrentLevel := j },
                          log := [Ev.onDestroy id] } : Out)
          | none => Out.ret { w with CurrentLevel := j }) = { w := wd, log := ld, fail := none } := by
      cases (w.Levels.getD j.toNat {}).OnDestroy with
      | none => exact ⟨{ w with CurrentLevel := j }, [], h, rfl⟩
      | some id =>
        exact ⟨env.hook id { w with CurrentLevel := j }, [Ev.onDestroy id],
          hhook id { w with CurrentLevel := j } h, rfl⟩
    obtain ⟨wd, ld, hwd, hDeq⟩ := hD
    obtain ⟨t1, t2, t3, t4, t5, t6⟩ := teardown_effect wd.Objects wd
    have hnone : ∀ p, ((forEach wd.Objects teardownShape wd).w.heap p).Body = none := by
      intro p
      rw [t4]
      by_cases hp : p ∈ wd.Objects
      · simp [hp]
      · simp only [hp, if_false]
        by_contra hb
        exact hp (hwd p hb)
    unfold SelectLevel
    rw [if_neg hj]
    dsimp only
    rw [hDeq, Out.andThen_ok _ _ rfl]
    dsimp only
    rw [Out.andThen_ok _ _ t1]
    dsimp only
    apply enterLevel_rel (fun a b => BodiesRegistered a → BodiesRegistered b)
      (fun _ h => h) (fun _ _ _ h1 h2 h => h2 (h1 h)) env hhook hspawn
    intro p hp
    exact absurd (hnone p) hp

theorem Unregister_frame (s : Ptr) (w : World) :
    (Unregister s w).w.Width = w.Width ∧ (Unregister s w).w.Height = w.Height := by
  unfold Unregister
  split
  · exact ⟨rfl, rfl⟩
  · dsimp only
    split <;> exact ⟨rfl, rfl⟩

theorem Destroy_heap (w : World) : (Destroy w).w.heap = w.heap := by
  unfold Destroy
  apply andThen_rel (fun a b => b.heap = a.heap) (fun _ _ _ h1 h2 => h2.trans h1) w
  · apply forEach_rel (fun a b => b.heap = a.heap) (fun _ => rfl) (fun _ _ _ h1 h2 => h2.trans h1)
    intro obj v
    split <;> rfl
  · intro v
    rfl

theorem teardown_world (xs : List Ptr) (w : World) (p : Ptr) :
    ((forEach xs teardownShape w).w.heap p).world = (w.heap p).world := by
  apply forEach_rel (fun a b => (b.heap p).world = (a.heap p).world) (fun _ => rfl)
    (fun _ _ _ h1 h2 => h2.trans h1)
  intro x v
  unfold teardownShape
  split
  · by_cases hp : p = x
    · subst hp; simp [setShape, DestroyBody]
    · simp [setShape, DestroyBody, Function.update_noteq hp]
  · rfl

/-- C12 (counterexample). The shape at address 0 is registered, with body 0,
at x = -1 in a world 800 wide. After `Unregister` it is no longer in the
registry and its body has left the physics world, but its body reference is
still body 0 and its world back-reference is still set: the shape holds a
body reference without being registered, `IsOutOfMap` still answers true for
it, and `SetVelocity` on it returns normally. -/
theorem Unregister_leaves_references_set :
    BodiesRegistered strayWorld ∧
    (0 : Ptr) ∈ strayWorld.Objects ∧
    (0 : Ptr) ∉ (Unregister 0 strayWorld).w.Objects ∧
    (0 : BodyRef) ∉ (Unregister 0 strayWorld).w.liveBodies ∧
    ((Unregister 0 strayWorld).w.heap 0).Body = some 0 ∧
    ((Unregister 0 strayWorld).w.heap 0).world = true ∧
    ¬ BodiesRegistered (Unregister 0 strayWorld).w ∧
    IsOutOfMap 0 (Unregister 0 strayWorld).w = true ∧
    (SetVelocity 0 1 1 (Unregister 0 strayWorld).w).fail = none := by
  refine ⟨?_, by decide, by decide, by decide, by decide, by decide, ?_, by decide, by decide⟩
  · intro p hp
    by_cases h0 : p = 0
    · subst h0; decide
    · simp [strayWorld, h0] at hp
  · intro h
    have := h 0 (by decide)
    revert this
    decide

/-- C12 (amended). Level hooks and spawn functions that keep every shape
with a body reference in the registry. In a world where every shape that
holds a body reference is in the registry, that stays so after `Register`
(which sets the world back-reference, and the body reference when it returns
normally) and after `SelectLevel`. The world back-reference of a shape is not
cleared by `Unregister`, by the teardown loop of `SelectLevel` or by
`Destroy`, so `IsOutOfMap` answers after `Unregister` what it answered
before. -/
theorem body_reference_stays_registered (env : Env)
    (hhook : ∀ id v, BodiesRegistered v → BodiesRegistered (env.hook id v))
    (hspawn : ∀ id pos a b v, BodiesRegistered v → BodiesRegistered (env.spawn id pos a b v))
    (w : World) (hinv : BodiesRegistered w) :
    (∀ s, BodiesRegistered (Register s w).w ∧ ((Register s w).w.heap s).world = true ∧
      ((Register s w).fail = none →
        ((Register s w).w.heap s).Body ≠ none ∧ s ∈ (Register s w).w.Objects)) ∧
    (∀ j, BodiesRegistered (SelectLevel env j w).w) ∧
    (∀ s p, ((Unregister s w).w.heap p).world = (w.heap p).world) ∧
    (∀ p, ((forEach w.Objects teardownShape w).w.heap p).world = (w.heap p).world) ∧
    (∀ p, ((Destroy w).w.heap p).world = (w.heap p).world) ∧
    (∀ s, IsOutOfMap s (Unregister s w).w = IsOutOfMap s w) := by
  refine ⟨?_, ?_, ?_, ?_, ?_, ?_⟩
  · intro s
    refine ⟨Register_bodiesRegistered s w hinv, (Register_shape s w).2.2.1, ?_⟩
    intro hok
    constructor
    · rw [(Register_shape s w).2.2.2.1 hok]
      simp
    · rw [(Register_registry s w).1]
      simp
  · intro j
    exact SelectLevel_bodiesRegistered env hhook hspawn j w hinv
  · intro s p
    rw [(Unregister_registry s w).2]
  · intro p
    exact teardown_world _ w p
  · intro p
    rw [Destroy_heap]
  · intro s
    unfold IsOutOfMap
    rw [(Unregister_registry s w).2, (Unregister_frame s w).1, (Unregister_frame s w).2]

theorem body_reference_stays_registered_witness :
    (∀ id v, BodiesRegistered v → BodiesRegistered (spawningEnv.hook id v)) ∧
    (∀ id pos a b v, BodiesRegistered v → BodiesRegistered (spawningEnv.spawn id pos a b v)) ∧
    BodiesRegistered strayWorld ∧
    BodiesRegistered (SelectLevel spawningEnv 0 strayWorld).w ∧
    (SelectLevel spawningEnv 0 strayWorld).w.Objects = [5] ∧
    ((SelectLevel spawningEnv 0 strayWorld).w.heap 5).Body = some 1 ∧
    ((Unregister 0 strayWorld).w.heap 0).world = true := by
  have hh : ∀ id v, BodiesRegistered v → BodiesRegistered (spawningEnv.hook id v) := by
    intro id v hv
    show BodiesRegistered (if id = 21 then (Register 5 v).w else v)
    split
    · exact Register_bodiesRegistered 5 v hv
    · exact hv
  have hs : ∀ id pos a b v, BodiesRegistered v →
      BodiesRegistered (spawningEnv.spawn id pos a b v) := fun _ _ _ _ _ h => h
  have h0 : BodiesRegistered strayWorld := by
    intro p hp
    by_cases h0 : p = 0
    · subst h0; decide
    · simp [strayWorld, h0] at hp
  have h := body_reference_stays_registered spawningEnv hh hs strayWorld h0
  refine ⟨hh, hs, h0, h.2.1 0, by decide, by decide, ?_⟩
  rw [h.2.2.1 0 0]
  decide

/-! ### Degenerate geometry -/

/-- C13 (counterexample). Registering a detached rectangle of width 0 in a new
world fails, and the failed call has appended the shape to the registry and
set its world back-reference. -/
theorem Register_degenerate_appends_before_failing :
    (degenerateWorld.heap 0).kind ≠ ShapeCircle ∧ (degenerateWorld.heap 0).Width ≤ 0 ∧
    degenerateWorld.Objects = [] ∧ (degenerateWorld.heap 0).world = false ∧
    (Register 0 degenerateWorld).fail = some geometryMsg ∧
    (Register 0 degenerateWorld).w.Objects = [0] ∧
    ((Register 0 degenerateWorld).w.heap 0).world = true := by
  decide

/-- C13 (amended). For a shape that is not a circle and whose width or height
is zero or negative, `Register` fails with the geometry panic and the shape
keeps the body reference it had (none for a detached shape). The append to
the registry, the assignment of the world back-reference and the creation
of a body in the physics world have already happened when the check
fails. -/
theorem Register_degenerate_fails (s : Ptr) (w : World)
    (hkind : (w.heap s).kind ≠ ShapeCircle)
    (hgeo : (w.heap s).Width ≤ 0 ∨ (w.heap s).Height ≤ 0) :
    (Register s w).fail = some geometryMsg ∧
    ((Register s w).w.heap s).Body = (w.heap s).Body ∧
    (Register s w).w.Objects = w.Objects ++ [s] ∧
    ((Register s w).w.heap s).world = true ∧
    (Register s w).w.liveBodies = w.liveBodies ++ [w.nextBody] := by
  have hfail : (Register s w).fail ≠ none := by
    unfold Register createPhysicsBody
    dsimp only
    rw [if_pos]
    · simp [Out.panic]
    · refine ⟨?_, ?_⟩
      · simpa [setShape] using hkind
      · simpa [setShape] using hgeo
  obtain ⟨h1, h2, h3⟩ := (Register_shape s w).2.2.2.2 hfail
  exact ⟨h1, h2, (Register_registry s w).1, (Register_shape s w).2.2.1, h3⟩

theorem Register_degenerate_fails_witness :
    (degenerateWorld.heap 0).kind ≠ ShapeCircle ∧
    ((degenerateWorld.heap 0).Width ≤ 0 ∨ (degenerateWorld.heap 0).Height ≤ 0) ∧
    (Register 0 degenerateWorld).fail = some geometryMsg ∧
    ((Register 0 degenerateWorld).w.heap 0).Body = none :=
  ⟨by decide, by decide,
   (Register_degenerate_fails 0 degenerateWorld (by decide) (by decide)).1,
   (Register_degenerate_fails 0 degenerateWorld (by decide) (by decide)).2.1⟩

/-! ### Tag filters -/

theorem getTagGroupIndex_bounds (tag : String) :
    -31998 ≤ getTagGroupIndex tag ∧ getTagGroupIndex tag ≤ 32000 ∧
    (0 ≤ tagHash tag → 1 ≤ getTagGroupIndex tag) := by
  unfold getTagGroupIndex
  have h1 := Int.tmod_lt_of_pos (tagHash tag) (b := 32000) (by decide)
  refine ⟨?_, by omega, ?_⟩
  · by_cases hn : 0 ≤ tagHash tag
    · have := Int.tmod_nonneg 32000 hn
      omega
    · have h2 : 0 ≤ -tagHash tag := by omega
      have h3 := Int.tmod_lt_of_pos (-tagHash tag) (b := 32000) (by decide)
      have h4 : (-tagHash tag).tmod 32000 = -((tagHash tag).tmod 32000) := by
        rw [Int.tmod_def, Int.tmod_def, Int.neg_tdiv]
        ring
      omega
  · intro hn
    have := Int.tmod_nonneg 32000 hn
    omega

set_option maxRecDepth 100000 in
/-- C14 (the code at the failing input). The hash of the 13-character tag
"player-bullet" wraps around to a negative `int`, so the remainder and the
derived group index are negative (-11153), and `SetTagCollisionFilter` with an
empty list assigns the shape carrying the tag the positive group index
11153. Whatever the tag, the derived group index lies between -31998 and
32000, and it is at least 1 when the hash has not wrapped to a negative
value. -/
theorem getTagGroupIndex_negative_after_wrap :
    tagHash "player-bullet" = -1188580620012395154 ∧
    getTagGroupIndex "player-bullet" = -11153 ∧
    GetElementsByTagName "player-bullet" taggedWorld = [0] ∧
    (SetTagCollisionFilter "player-bullet" [] taggedWorld).fail = none ∧
    ((SetTagCollisionFilter "player-bullet" [] taggedWorld).w.bodies 0).groupIndex = 11153 ∧
    (∀ tag, -31998 ≤ getTagGroupIndex tag ∧ getTagGroupIndex tag ≤ 32000 ∧
      (0 ≤ tagHash tag → 1 ≤ getTagGroupIndex tag)) := by
  refine ⟨by decide, by decide, by decide, by decide, by decide, getTagGroupIndex_bounds⟩

set_option maxRecDepth 100000 in
/-- C15 (the code at the failing input). The tag "a" has hash 97 and
`getTagCategoryBit` returns the single bit 256 for it, but
`setupCategoryMaskFiltering` shifts 1 by that value again, in `uint16`: the
category bits and the mask bits assigned to the shape tagged "a" are both 0.
For the tag "player-bullet", whose hash has wrapped to a negative value, the
shift count is negative and `SetTagCollisionFilter` with a non-empty list
panics. -/
theorem category_bit_is_shifted_twice :
    tagHash "a" = 97 ∧ getTagCategoryBit "a" = some 256 ∧
    GetElementsByTagName "a" taggedWorld = [1] ∧
    (SetTagCollisionFilter "a" ["a"] taggedWorld).fail = none ∧
    ((SetTagCollisionFilter "a" ["a"] taggedWorld).w.bodies 1).categoryBits = 0 ∧
    ((SetTagCollisionFilter "a" ["a"] taggedWorld).w.bodies 1).maskBits = 0 ∧
    getTagCategoryBit "player-bullet" = none ∧
    (SetTagCollisionFilter "player-bullet" ["a"] taggedWorld).fail = some negativeShiftMsg := by
  refine ⟨by decide, by decide, by decide, by decide, by decide, by decide, by decide, by decide⟩

/-! ### Event emitter -/

theorem handlersOf_setHandlers (source : Option Ptr) (event : EventType)
    (hs : List EventHandler) (w : World) :
    handlersOf source event (setHandlers source event hs w) = hs := by
  cases source with
  | none => simp [handlersOf, setHandlers]
  | some s => simp [handlersOf, setHandlers, setShape]

theorem handlersOf_setHandlers_ne (source : Option Ptr) (event other : EventType)
    (hs : List EventHandler) (w : World) (hne : other ≠ event) :
    handlersOf source event (setHandlers source other hs w) = handlersOf source event w := by
  cases source with
  | none => simp [handlersOf, setHandlers, Function.update, Ne.symm hne]
  | some s => simp [handlersOf, setHandlers, setShape, Function.update, Ne.symm hne]

theorem handlersOf_registerAll (source : Option Ptr) (event : EventType)
    (hs : List EventHandler) (w : World) :
    handlersOf source event (registerAll source event hs w) =
      handlersOf source event w ++ hs := by
  induction hs generalizing w with
  | nil => simp [registerAll]
  | cons h hs ih =>
    have := ih (On source event h w)
    simp only [registerAll, List.foldl_cons] at this ⊢
    rw [this, On, handlersOf_setHandlers]
    simp

theorem handlersOf_registerAll_ne (source : Option Ptr) (event other : EventType)
    (hs : List EventHandler) (w : World) (hne : other ≠ event) :
    handlersOf source event (registerAll source other hs w) = handlersOf source event w := by
  induction hs generalizing w with
  | nil => simp [registerAll]
  | cons h hs ih =>
    have := ih (On source other h w)
    simp only [registerAll, List.foldl_cons] at this ⊢
    rw [this, On, handlersOf_setHandlers_ne _ _ _ _ _ hne]

theorem callHandlers_log (env : Env) (hs : List EventHandler) (d : Payload) (w : World) :
    (callHandlers env hs d w).log = hs.map (fun h => Ev.handler h.target d) ∧
    (callHandlers env hs d w).fail = none := by
  induction hs generalizing w with
  | nil => simp [callHandlers, forEach_nil, Out.ret]
  | cons h hs ih =>
    have := ih (env.handler h.target d w)
    simp only [callHandlers] at this ⊢
    rw [forEach_cons, callHandler_eq]
    simp [Out.andThen, this]

theorem Emit_log_eq (env : Env) (source : Option Ptr) (event : EventType) (d : Payload)
    (w : World) :
    (Emit env source event d w).log =
      Ev.emit source event d :: (handlersOf source event w).map (fun h => Ev.handler h.target d) ∧
    (Emit env source event d w).fail = none := by
  have := callHandlers_log env (handlersOf source event w) d w
  simp [Emit, Out.andThen, this]

/-- C16 (the code at the failing input). The closure that `Once` registers
calls the user handler and then `RemoveListener`, whose address test never
succeeds, so the closure stays registered: on a fresh world emitter with one
`Once` handler (7) for collisions, two emissions invoke the handler twice, and
the handler list after them still holds the closure. For every emitter and
state, the call of the closure leaves exactly the state that the user handler
produced, with nothing removed. -/
theorem Once_handler_runs_on_every_Emit :
    ((Emit idleEnv none EventCollision (Payload.collision 0 1)
        (Once none EventCollision 7 (NewWorld {} 0))).andThen
      (Emit idleEnv none EventCollision (Payload.collision 0 1))).log =
      [Ev.emit none EventCollision (Payload.collision 0 1),
       Ev.handler 7 (Payload.collision 0 1),
       Ev.emit none EventCollision (Payload.collision 0 1),
       Ev.handler 7 (Payload.collision 0 1)] ∧
    handlersOf none EventCollision
      ((Emit idleEnv none EventCollision (Payload.collision 0 1)
        (Once none EventCollision 7 (NewWorld {} 0))).andThen
      (Emit idleEnv none EventCollision (Payload.collision 0 1))).w =
      [EventHandler.once none EventCollision 7] ∧
    (∀ (env : Env) (source : Option Ptr) (event : EventType) (id : Nat) (d : Payload)
        (w : World),
      handlersOf source event (Once source event id w) =
        handlersOf source event w ++ [EventHandler.once source event id] ∧
      callHandler env d (EventHandler.once source event id) w =
        { w := env.handler id d w, log := [Ev.handler id d], fail := none }) := by
  refine ⟨by decide, by decide, ?_⟩
  intro env source event id d w
  refine ⟨?_, ?_⟩
  · rw [Once, On, handlersOf_setHandlers]
  · rw [callHandler_eq]; rfl

/-- C17 (the code at the failing input). After `On(e, h)` followed by
`RemoveListener(e, h)` the handler is still the last entry of the list of
`e`, and `Emit(e, d)` still invokes it, after the handlers registered before
it: `RemoveListener` compares the addresses of its own two local variables,
which are never equal, and removes nothing. On a fresh world emitter with
handler 7 registered and then removed, one emission invokes handler 7. -/
theorem RemoveListener_removes_nothing :
    (Emit idleEnv none EventCollision (Payload.collision 0 1)
      (RemoveListener none EventCollision (EventHandler.fn 7)
        (On none EventCollision (EventHandler.fn 7) (NewWorld {} 0)))).log =
      [Ev.emit none EventCollision (Payload.collision 0 1),
       Ev.handler 7 (Payload.collision 0 1)] ∧
    (∀ (env : Env) (source : Option Ptr) (event : EventType) (h : EventHandler) (d : Payload)
        (w : World),
      handlersOf source event (RemoveListener source event h (On source event h w)) =
        handlersOf source event w ++ [h] ∧
      (Emit env source event d (RemoveListener source event h (On source event h w))).log =
        Ev.emit source event d ::
          (handlersOf source event w ++ [h]).map (fun g => Ev.handler g.target d)) := by
  refine ⟨by decide, ?_⟩
  intro env source event h d w
  have h1 : handlersOf source event (RemoveListener source event h (On source event h w)) =
      handlersOf source event w ++ [h] := by
    rw [RemoveListener_eq, On, handlersOf_setHandlers]
  refine ⟨h1, ?_⟩
  rw [(Emit_log_eq env source event d _).1, h1]

/-- C18. On an emitter with no handler for event type `e`, after the handlers
`hs` are registered for `e` with `On` in the order of the list and the
handlers `gs` for a different event type, `Emit(e, d)` completes and invokes
exactly the handlers of `hs`, each once, in registration order, each with
payload `d`, and none of `gs`; on the emitter with no handler for `e`,
`Emit(e, d)` invokes nothing and returns the state unchanged. -/
theorem Emit_invokes_handlers_in_registration_order (env : Env) (source : Option Ptr)
    (e other : EventType) (d : Payload) (hs gs : List EventHandler) (w : World)
    (hne : other ≠ e) (hempty : handlersOf source e w = []) :
    (Emit env source e d (registerAll source other gs (registerAll source e hs w))).log =
      Ev.emit source e d :: hs.map (fun h => Ev.handler h.target d) ∧
    (Emit env source e d (registerAll source other gs (registerAll source e hs w))).fail = none ∧
    Emit env source e d w = { w := w, log := [Ev.emit source e d], fail := none } := by
  refine ⟨?_, (Emit_log_eq _ _ _ _ _).2, ?_⟩
  · rw [(Emit_log_eq _ _ _ _ _).1, handlersOf_registerAll_ne _ _ _ _ _ hne,
      handlersOf_registerAll, hempty]
    simp
  · simp [Emit, hempty, callHandlers, forEach_nil, Out.andThen, Out.ret]

theorem Emit_invokes_handlers_in_registration_order_witness :
    (Emit idleEnv none EventCollision (Payload.collision 0 1)
      (registerAll none EventClick [EventHandler.fn 3]
        (registerAll none EventCollision [EventHandler.fn 1, EventHandler.fn 2]
          (NewWorld {} 0)))).log =
      Ev.emit none EventCollision (Payload.collision 0 1) ::
        [EventHandler.fn 1, EventHandler.fn 2].map
          (fun h => Ev.handler h.target (Payload.collision 0 1)) ∧
    (Emit idleEnv none EventCollision (Payload.collision 0 1)
      (registerAll none EventClick [EventHandler.fn 3]
        (registerAll none EventCollision [EventHandler.fn 1, EventHandler.fn 2]
          (NewWorld {} 0)))).fail = none ∧
    Emit idleEnv none EventCollision (Payload.collision 0 1) (NewWorld {} 0) =
      { w := NewWorld {} 0, log := [Ev.emit none EventCollision (Payload.collision 0 1)],
        fail := none } :=
  Emit_invokes_handlers_in_registration_order idleEnv none EventCollision EventClick
    (Payload.collision 0 1) [EventHandler.fn 1, EventHandler.fn 2] [EventHandler.fn 3]
    (NewWorld {} 0) (by decide) (by decide)

/-! ### Direction-change events -/

theorem truncQ_natCast (n : ℕ) : truncQ (n : ℚ) = (n : ℚ) := by simp [truncQ]

theorem truncQ_MetersToPixels_one : truncQ (MetersToPixels 1) = 8 := by
  have h : MetersToPixels 1 = ((8 : ℕ) : ℚ) := by norm_num [MetersToPixels, PTM]
  rw [h, truncQ_natCast]; norm_num

theorem shapeUpdate_movingWorld :
    ((shapeUpdate idleEnv 0 movingWorld).w.heap 0).Velocity = { X := 8, Y := 8 } ∧
    ((shapeUpdate idleEnv 0 movingWorld).w.heap 0).directions =
      { X := some DirectionRight, Y := some DirectionDown } ∧
    ((shapeUpdate idleEnv 0 movingWorld).w.heap 0).events EventDirectionChange = [] ∧
    ((shapeUpdate idleEnv 0 movingWorld).w.heap 0).Body = some 0 := by
  have h8 := truncQ_MetersToPixels_one
  simp [shapeUpdate, updateDirection, updateDirectionX, updateDirectionY, movingWorld, idleEnv,
    Out.andThen, Out.ret, Emit, callHandlers, forEach, handlersOf, setShape, updatePhysicsInfo,
    EPSILON_DIRECTION_CHANGED, NewVector2, h8]

theorem shapeUpdate_steady (env : Env) (s : Ptr) (w : World) (b : BodyRef)
    (hx : 0 < (w.heap s).Velocity.X) (hy : 0 < (w.heap s).Velocity.Y)
    (hd : (w.heap s).directions = { X := some DirectionRight, Y := some DirectionDown })
    (hh : (w.heap s).events EventDirectionChange = [])
    (hb : (w.heap s).Body = some b) :
    (shapeUpdate env s w).log =
      [Ev.emit (some s) EventDirectionChange (Payload.direction s),
       Ev.emit (some s) EventDirectionChange (Payload.direction s)] ∧
    (shapeUpdate env s w).fail = none ∧
    ((shapeUpdate env s w).w.heap s).directions =
      { X := some DirectionRight, Y := some DirectionDown } := by
  have ax : |(w.heap s).Velocity.X| > 0 := abs_pos.mpr (ne_of_gt hx)
  have ay : |(w.heap s).Velocity.Y| > 0 := abs_pos.mpr (ne_of_gt hy)
  simp [shapeUpdate, updateDirection, updateDirectionX, updateDirectionY, Out.andThen, Out.ret,
    Emit, callHandlers, forEach, handlersOf, setShape, updatePhysicsInfo,
    EPSILON_DIRECTION_CHANGED, hd, hh, hb, ax, ay, hx, hy, not_lt_of_gt hx, not_lt_of_gt hy]

theorem andThen_countP_le (p : Ev → Bool) (o : Out) (f : World → Out) :
    (o.andThen f).log.countP p ≤ o.log.countP p + (f o.w).log.countP p := by
  unfold Out.andThen
  cases o.fail with
  | some m => simp
  | none => simp [List.countP_append]

theorem Emit_countP_le (env : Env) (s : Ptr) (src : Option Ptr) (ev : EventType) (d : Payload)
    (w : World) : (Emit env src ev d w).log.countP (Ev.isDirectionChange s) ≤ 1 := by
  rw [(Emit_log_eq env src ev d w).1, List.countP_cons]
  have h : ((handlersOf src ev w).map (fun h => Ev.handler h.target d)).countP
      (Ev.isDirectionChange s) = 0 := by
    rw [List.countP_eq_zero]
    intro e he
    obtain ⟨g, _, rfl⟩ := List.mem_map.mp he
    simp [Ev.isDirectionChange]
  rw [h]
  split <;> simp

theorem emitOrRet_countP_le (c : Prop) [Decidable c] (env : Env) (s : Ptr) (w : World) :
    (if c then Emit env (some s) EventDirectionChange (Payload.direction s) w
      else Out.ret w).log.countP (Ev.isDirectionChange s) ≤ 1 := by
  split
  · exact Emit_countP_le _ _ _ _ _ _
  · simp [Out.ret]

theorem SetXVelocity_log (s : Ptr) (x : ℚ) (w : World) : (SetXVelocity s x w).log = [] := by
  unfold SetXVelocity
  cases (w.heap s).Body with
  | none => rfl
  | some r => simp [bodySetLinearVelocity, Out.andThen, Out.ret]

theorem updatePhysicsInfo_log (s : Ptr) (w : World) : (updatePhysicsInfo s w).log = [] := by
  unfold updatePhysicsInfo
  cases (w.heap s).Body with
  | none => rfl
  | some r => rfl

theorem updateDirectionX_countP_le (env : Env) (s : Ptr) (w : World) :
    (updateDirectionX env s w).log.countP (Ev.isDirectionChange s) ≤ 1 := by
  unfold updateDirectionX
  dsimp only
  split
  · exact emitOrRet_countP_le _ _ _ _
  · split
    · simp [SetXVelocity_log]
    · simp [Out.ret]

theorem updateDirectionY_countP_le (env : Env) (s : Ptr) (w : World) :
    (updateDirectionY env s w).log.countP (Ev.isDirectionChange s) ≤ 1 := by
  unfold updateDirectionY
  dsimp only
  split
  · exact emitOrRet_countP_le _ _ _ _
  · split
    · simp [SetXVelocity_log]
    · simp [Out.ret]

/-- C19 (counterexample). A registered shape with the directions (right, down)
recorded and a cached velocity (-8, -8): one call of `Update` completes and
emits two direction-change events, the first when the X half of
`updateDirection` records left and the second when the Y half records up. -/
theorem Update_emits_once_per_turning_axis :
    0 ∈ turningWorld.Objects ∧
    (turningWorld.heap 0).directions = { X := some DirectionRight, Y := some DirectionDown } ∧
    (shapeUpdate idleEnv 0 turningWorld).fail = none ∧
    (shapeUpdate idleEnv 0 turningWorld).log =
      [Ev.emit (some 0) EventDirectionChange (Payload.direction 0),
       Ev.emit (some 0) EventDirectionChange (Payload.direction 0)] ∧
    ¬ ((shapeUpdate idleEnv 0 turningWorld).log.countP (Ev.isDirectionChange 0) ≤ 1) ∧
    ((shapeUpdate idleEnv 0 turningWorld).w.heap 0).directions =
      { X := some DirectionLeft, Y := some DirectionUp } := by
  refine ⟨by decide, by decide, by decide, by decide, by decide, by decide⟩

/-- C19 (amended). For every shape, in every state and with any handlers, one
call of `Update` emits at most two direction-change events: the X half of
`updateDirection` emits at most one, the Y half emits at most one, and
`updatePhysicsInfo` emits none. -/
theorem Update_emits_at_most_one_direction_change_per_axis (env : Env) (s : Ptr) (w : World) :
    (shapeUpdate env s w).log.countP (Ev.isDirectionChange s) ≤ 2 ∧
    (updateDirectionX env s w).log.countP (Ev.isDirectionChange s) ≤ 1 ∧
    (∀ w1, (updateDirectionY env s w1).log.countP (Ev.isDirectionChange s) ≤ 1) ∧
    (∀ w2, (updatePhysicsInfo s w2).log = []) := by
  refine ⟨?_, updateDirectionX_countP_le env s w, updateDirectionY_countP_le env s,
    updatePhysicsInfo_log s⟩
  have h1 := andThen_countP_le (Ev.isDirectionChange s) (updateDirection env s w)
    (updatePhysicsInfo s)
  have h2 := andThen_countP_le (Ev.isDirectionChange s) (updateDirectionX env s w)
    (updateDirectionY env s)
  have h3 := updateDirectionX_countP_le env s w
  have h4 := updateDirectionY_countP_le env s (updateDirectionX env s w).w
  rw [updatePhysicsInfo_log] at h1
  simp only [List.countP_nil, Nat.add_zero] at h1
  unfold shapeUpdate
  unfold updateDirection at h1 ⊢
  omega

/-- C20 (the code at the failing input). The emission in `updateDirection` is
guarded by both directions being recorded only, not by a change. A registered
shape moving right and down with nothing recorded yet: the first `Update`
records (right, down) and leaves the cached velocity (8, 8); the second
`Update`, with the same velocity and the same pair before and after, completes
and emits two direction-change events. A registered shape with (right, down)
recorded and a cached velocity (8, 0), non-zero on the X axis only: `Update`
emits a direction-change event and the recorded pair stays the same. -/
theorem Update_emits_without_direction_change :
    0 ∈ movingWorld.Objects ∧
    (movingWorld.heap 0).Velocity = { X := 8, Y := 8 } ∧
    (shapeUpdate idleEnv 0 movingWorld).fail = none ∧
    ((shapeUpdate idleEnv 0 movingWorld).w.heap 0).Velocity = { X := 8, Y := 8 } ∧
    ((shapeUpdate idleEnv 0 movingWorld).w.heap 0).directions =
      { X := some DirectionRight, Y := some DirectionDown } ∧
    (shapeUpdate idleEnv 0 (shapeUpdate idleEnv 0 movingWorld).w).fail = none ∧
    (shapeUpdate idleEnv 0 (shapeUpdate idleEnv 0 movingWorld).w).log =
      [Ev.emit (some 0) EventDirectionChange (Payload.direction 0),
       Ev.emit (some 0) EventDirectionChange (Payload.direction 0)] ∧
    ((shapeUpdate idleEnv 0 (shapeUpdate idleEnv 0 movingWorld).w).w.heap 0).directions =
      { X := some DirectionRight, Y := some DirectionDown } ∧
    0 ∈ slidingWorld.Objects ∧
    (slidingWorld.heap 0).Velocity = { X := 8, Y := 0 } ∧
    (slidingWorld.heap 0).directions = { X := some DirectionRight, Y := some DirectionDown } ∧
    (shapeUpdate idleEnv 0 slidingWorld).fail = none ∧
    (shapeUpdate idleEnv 0 slidingWorld).log =
      [Ev.emit (some 0) EventDirectionChange (Payload.direction 0)] ∧
    ((shapeUpdate idleEnv 0 slidingWorld).w.heap 0).directions =
      (slidingWorld.heap 0).directions := by
  obtain ⟨hv, hd, hh, hb⟩ := shapeUpdate_movingWorld
  have h2 := shapeUpdate_steady idleEnv 0 (shapeUpdate idleEnv 0 movingWorld).w 0
    (by rw [hv]; norm_num) (by rw [hv]; norm_num) hd hh hb
  exact ⟨by decide, by decide, by decide, hv, hd, h2.2.1, h2.1, h2.2.2,
    by decide, by decide, by decide, by decide, by decide, by decide⟩

/-! ### Touching list -/

theorem eraseP_none {α : Type} (p : α → Bool) (l : List α) (h : ∀ y ∈ l, p y = false) :
    l.eraseP p = l := by
  induction l with
  | nil => rfl
  | cons y l ih =>
    have hy : p y = false := h y (List.mem_cons_self _ _)
    simp [List.eraseP_cons, hy, ih (fun z hz => h z (List.mem_cons_of_mem _ hz))]

theorem any_eraseP_two {α : Type} (p : α → Bool) (l : List α) (t : α) (ht : p t = true) :
    ((l ++ [t] ++ [t]).eraseP p).any p = true := by
  rw [List.eraseP_append_left ht [t] (by simp : t ∈ l ++ [t])]
  simp [ht]

/-- C21. `CollideWith(t)` appends `t` to the touching list of `s` whatever the
list holds, so its length grows by one. If the list is `l1 ++ x :: l2`,
where `x` has the ID of `t` and no entry of `l1` has it, `FinishCollideWith(t)`
leaves `l1 ++ l2`; if no entry has the ID of `t` it leaves the list as it
was. After `CollideWith(t)` twice and `FinishCollideWith(t)` once,
`IsCollidingWith(t)` is true. -/
theorem CollideWith_appends_and_Finish_removes_first (s t : Ptr) (w : World) :
    ((CollideWith s t w).heap s).CollisionObjects = (w.heap s).CollisionObjects ++ [t] ∧
    ((CollideWith s t w).heap s).CollisionObjects.length =
      (w.heap s).CollisionObjects.length + 1 ∧
    (∀ l1 x l2, (w.heap s).CollisionObjects = l1 ++ x :: l2 →
      (w.heap x).ID = (w.heap t).ID → (∀ y ∈ l1, (w.heap y).ID ≠ (w.heap t).ID) →
      ((FinishCollideWith s t w).heap s).CollisionObjects = l1 ++ l2) ∧
    ((∀ y ∈ (w.heap s).CollisionObjects, (w.heap y).ID ≠ (w.heap t).ID) →
      FinishCollideWith s t w = w) ∧
    IsCollidingWith s t (FinishCollideWith s t (CollideWith s t (CollideWith s t w))) = true := by
  refine ⟨?_, ?_, ?_, ?_, ?_⟩
  · simp [CollideWith, setShape]
  · simp [CollideWith, setShape]
  · intro l1 x l2 hl hx h1
    have := (find_erase_first (fun obj => (w.heap obj).ID == (w.heap t).ID) l1 x l2
      (by simp [hx]) (fun y hy => by simpa using h1 y hy)).2
    simp [FinishCollideWith, setShape, hl, this]
  · intro h
    have := eraseP_none (fun obj => (w.heap obj).ID == (w.heap t).ID)
      (w.heap s).CollisionObjects (fun y hy => by simpa using h y hy)
    simp only [FinishCollideWith, setShape, this]
    show { w with heap := Function.update w.heap s (w.heap s) } = w
    rw [Function.update_eq_self]
  · have hid1 : ∀ v obj, ((CollideWith s t v).heap obj).ID = (v.heap obj).ID := by
      intro v obj
      by_cases h : obj = s
      · subst h; simp [CollideWith, setShape]
      · simp [CollideWith, setShape, Function.update, h]
    have hp : (fun obj => ((CollideWith s t (CollideWith s t w)).heap obj).ID ==
        ((CollideWith s t (CollideWith s t w)).heap t).ID) =
        (fun obj => (w.heap obj).ID == (w.heap t).ID) := by
      funext obj
      rw [hid1, hid1, hid1, hid1]
    have hid2 : ∀ obj, ((FinishCollideWith s t (CollideWith s t (CollideWith s t w))).heap obj).ID
        = (w.heap obj).ID := by
      intro obj
      by_cases h : obj = s
      · subst h; simp [FinishCollideWith, setShape, hid1]
      · simp [FinishCollideWith, setShape, Function.update, h, hid1]
    have hlist : ((FinishCollideWith s t (CollideWith s t (CollideWith s t w))).heap s).CollisionObjects
        = ((w.heap s).CollisionObjects ++ [t] ++ [t]).eraseP
            (fun obj => (w.heap obj).ID == (w.heap t).ID) := by
      simp only [FinishCollideWith, hp]
      simp [setShape, CollideWith]
    unfold IsCollidingWith
    rw [hlist]
    simp only [hid2]
    exact any_eraseP_two _ _ _ (by simp)

theorem CollideWith_appends_and_Finish_removes_first_witness :
    ((CollideWith 0 1 pairWorld).heap 0).CollisionObjects =
      (pairWorld.heap 0).CollisionObjects ++ [1] ∧
    ((FinishCollideWith 0 1 (CollideWith 0 2 (CollideWith 0 1 pairWorld))).heap 0).CollisionObjects
      = [] ++ [2] ∧
    FinishCollideWith 0 1 pairWorld = pairWorld ∧
    IsCollidingWith 0 1
      (FinishCollideWith 0 1 (CollideWith 0 1 (CollideWith 0 1 pairWorld))) = true :=
  ⟨(CollideWith_appends_and_Finish_removes_first 0 1 pairWorld).1,
   (CollideWith_appends_and_Finish_removes_first 0 1
      (CollideWith 0 2 (CollideWith 0 1 pairWorld))).2.2.1 [] 1 [2] (by decide) (by decide)
      (fun _ h => absurd h (List.not_mem_nil _)),
   (CollideWith_appends_and_Finish_removes_first 0 1 pairWorld).2.2.2.1
      (fun _ h => absurd h (List.not_mem_nil _)),
   (CollideWith_appends_and_Finish_removes_first 0 1 pairWorld).2.2.2.2⟩

/-! ### Map bounds -/

/-- C25. For a shape attached to a world of width `W` and height `H`,
`IsOutOfMap` is true exactly when `X < 0`, `X > W`, `Y < 0` or `Y > H`; for a
shape with no world back-reference it is false at every position. -/
theorem IsOutOfMap_iff (s : Ptr) (w : World) :
    ((w.heap s).world = true →
      (IsOutOfMap s w = true ↔
        ((w.heap s).X < 0 ∨ (w.heap s).X > (w.Width : ℚ) ∨
          (w.heap s).Y < 0 ∨ (w.heap s).Y > (w.Height : ℚ)))) ∧
    ((w.heap s).world = false → IsOutOfMap s w = false) := by
  constructor
  · intro h
    simp [IsOutOfMap, h]
  · intro h
    simp [IsOutOfMap, h]

theorem IsOutOfMap_iff_witness :
    IsOutOfMap 0 boundsWorld = true ∧ IsOutOfMap 1 boundsWorld = false ∧
    IsOutOfMap 2 boundsWorld = false :=
  ⟨((IsOutOfMap_iff 0 boundsWorld).1 rfl).mpr (Or.inl (by decide)),
   Bool.eq_false_iff.mpr (fun h =>
     absurd (((IsOutOfMap_iff 1 boundsWorld).1 rfl).mp h) (by decide)),
   (IsOutOfMap_iff 2 boundsWorld).2 rfl⟩

/-! ### Tile maps -/

/-- A loop whose body never fails and performs `k x` whatever the state. -/
theorem forEach_log_eq {α : Type} (f : α → World → Out) (k : α → List Ev)
    (hf : ∀ x w, (f x w).fail = none ∧ (f x w).log = k x) (xs : List α) (w : World) :
    (forEach xs f w).fail = none ∧ (forEach xs f w).log = (xs.map k).flatten := by
  induction xs generalizing w with
  | nil => simp [forEach_nil, Out.ret]
  | cons x xs ih =>
    obtain ⟨h1, h2⟩ := hf x w
    obtain ⟨i1, i2⟩ := ih (f x w).w
    rw [forEach_cons, Out.andThen_ok _ _ h1]
    simp [i1, i2, h2]

theorem spawnTile_log (env : Env) (objects : String → Option Nat) (tw th : ℚ) (y : Nat)
    (cell : Nat × Char) (w : World) :
    (spawnTile env objects tw th y cell w).fail = none ∧
    (spawnTile env objects tw th y cell w).log = tileCall objects tw th y cell := by
  unfold spawnTile tileCall
  cases objects (String.singleton cell.2) with
  | none => simp [Out.ret]
  | some fn => simp

theorem GenerateLevelFromMap_log_eq (env : Env) (m : List String)
    (objects : String → Option Nat) (w : World) :
    (GenerateLevelFromMap env m objects w).fail = none ∧
    (GenerateLevelFromMap env m objects w).log =
      (m.enum.map (fun yrow =>
        ((rowCells yrow.2).map
          (tileCall objects ((w.Width : ℚ) / (((m.headD "").utf8ByteSize : ℕ) : ℚ))
            ((w.Height : ℚ) / ((m.length : ℕ) : ℚ)) yrow.1)).flatten)).flatten := by
  unfold GenerateLevelFromMap
  split
  · rename_i h
    have hm : m = [] := List.length_eq_zero.mp h
    subst hm
    simp [Out.ret]
  · dsimp only
    refine forEach_log_eq
      (fun (yrow : Nat × String) w1 =>
        forEach (rowCells yrow.2)
          (spawnTile env objects ((w.Width : ℚ) / (((m.headD "").utf8ByteSize : ℕ) : ℚ))
            ((w.Height : ℚ) / ((m.length : ℕ) : ℚ)) yrow.1) w1)
      (fun (yrow : Nat × String) =>
        ((rowCells yrow.2).map
          (tileCall objects ((w.Width : ℚ) / (((m.headD "").utf8ByteSize : ℕ) : ℚ))
            ((w.Height : ℚ) / ((m.length : ℕ) : ℚ)) yrow.1)).flatten) ?_ m.enum w
    intro yrow v
    exact forEach_log_eq _ _ (fun cell u => spawnTile_log env objects _ _ yrow.1 cell u) _ v

theorem rowCellsFrom_snd (cs : List Char) (i : Nat) : (rowCellsFrom cs i).map Prod.snd = cs := by
  induction cs generalizing i with
  | nil => rfl
  | cons c cs ih => simp [rowCellsFrom, ih]

theorem tileCall_spawnFn (objects : String → Option Nat) (tw th : ℚ) (y : Nat)
    (cells : List (Nat × Char)) :
    ((cells.map (tileCall objects tw th y)).flatten).filterMap Ev.spawnFn =
      (cells.map Prod.snd).filterMap (fun c => objects (String.singleton c)) ∧
    ∀ e ∈ (cells.map (tileCall objects tw th y)).flatten, (Ev.spawnFn e).isSome = true := by
  induction cells with
  | nil => simp
  | cons cell cells ih =>
    obtain ⟨i1, i2⟩ := ih
    constructor
    · simp only [List.map_cons, List.flatten_cons, List.filterMap_append, i1]
      unfold tileCall
      cases h : objects (String.singleton cell.2) with
      | none => simp [h]
      | some fn => simp [h, Ev.spawnFn]
    · intro e he
      simp only [List.map_cons, List.flatten_cons, List.mem_append] at he
      rcases he with he | he
      · unfold tileCall at he
        cases h : objects (String.singleton cell.2) with
        | none => simp [h] at he
        | some fn =>
          simp [h] at he
          subst he
          rfl
      · exact i2 e he

/-- C26. For every tile map and every mapping, `GenerateLevelFromMap` returns
normally and the calls it makes are calls of spawn functions only: one for
each character of the map whose one-character string is a key of the
mapping, of that key's function, rows from first to last and characters from
left to right within a row. A character without an entry causes no call, and
for the empty map no call is made and the world is returned as it was. -/
theorem GenerateLevelFromMap_calls_in_row_major_order (env : Env) (m : List String)
    (objects : String → Option Nat) (w : World) :
    (GenerateLevelFromMap env m objects w).fail = none ∧
    (GenerateLevelFromMap env m objects w).log.filterMap Ev.spawnFn =
      (m.map (fun row => row.data.filterMap (fun c => objects (String.singleton c)))).flatten ∧
    (∀ e ∈ (GenerateLevelFromMap env m objects w).log, (Ev.spawnFn e).isSome = true) ∧
    (GenerateLevelFromMap env [] objects w).log = [] ∧
    (GenerateLevelFromMap env [] objects w).w = w := by
  obtain ⟨h1, h2⟩ := GenerateLevelFromMap_log_eq env m objects w
  refine ⟨h1, ?_, ?_, rfl, rfl⟩
  · rw [h2]
    generalize (w.Width : ℚ) / (((m.headD "").utf8ByteSize : ℕ) : ℚ) = tw
    generalize (w.Height : ℚ) / ((m.length : ℕ) : ℚ) = th
    have key : ∀ (l : List String) (n : Nat),
        ((l.enumFrom n).map (fun yrow =>
          ((rowCells yrow.2).map (tileCall objects tw th yrow.1)).flatten)).flatten.filterMap
          Ev.spawnFn =
        (l.map (fun row => row.data.filterMap (fun c => objects (String.singleton c)))).flatten := by
      intro l
      induction l with
      | nil => intro n; rfl
      | cons row l ih =>
        intro n
        simp only [List.enumFrom_cons, List.map_cons, List.flatten_cons, List.filterMap_append,
          ih (n + 1)]
        rw [(tileCall_spawnFn objects tw th n (rowCells row)).1, rowCells, rowCellsFrom_snd]
    exact key m 0
  · rw [h2]
    intro e he
    simp only [List.mem_flatten, List.mem_map] at he
    obtain ⟨l, ⟨yrow, _, rfl⟩, hel⟩ := he
    exact (tileCall_spawnFn objects _ _ yrow.1 (rowCells yrow.2)).2 e hel

theorem rowCellsFrom_single_byte (cs : List Char) (i : Nat) (h : ∀ c ∈ cs, c.utf8Size = 1) :
    rowCellsFrom cs i = cs.enumFrom i := by
  induction cs generalizing i with
  | nil => rfl
  | cons c cs ih =>
    simp only [rowCellsFrom, List.enumFrom_cons, h c (List.mem_cons_self _ _)]
    rw [ih (i + 1) (fun d hd => h d (List.mem_cons_of_mem _ hd))]

theorem utf8ByteSize_go_single_byte (cs : List Char) (h : ∀ c ∈ cs, c.utf8Size = 1) :
    String.utf8ByteSize.go cs = cs.length := by
  induction cs with
  | nil => rfl
  | cons c cs ih =>
    simp only [String.utf8ByteSize.go, List.length_cons, h c (List.mem_cons_self _ _)]
    rw [ih (fun d hd => h d (List.mem_cons_of_mem _ hd))]

theorem utf8ByteSize_single_byte (row : String) (h : ∀ c ∈ row.data, c.utf8Size = 1) :
    row.utf8ByteSize = row.length := by
  cases row with
  | mk cs => exact utf8ByteSize_go_single_byte cs h

/-- C27 (counterexample). In a world 800 by 600 with the map "#." over ".#"
(2 rows of 2 single-byte characters), the spawn function of the tile at row 1,
column 1 receives the position (399.75, 299.75) and the size (400.5, 300.5),
not the position (399.5, 299.5) and the size (401, 301), and the one of the
tile at row 0, column 0 receives the position (-0.25, -0.25). -/
theorem GenerateLevelFromMap_quarter_unit_overlap :
    (NewWorld {} 0).Width = 800 ∧ (NewWorld {} 0).Height = 600 ∧
    (GenerateLevelFromMap idleEnv ["#.", ".#"] wallItems (NewWorld {} 0)).log =
      [Ev.spawn 1 (-1 / 4) (-1 / 4) (801 / 2) (601 / 2),
       Ev.spawn 1 (1599 / 4) (1199 / 4) (801 / 2) (601 / 2)] ∧
    (GenerateLevelFromMap idleEnv ["#.", ".#"] wallItems (NewWorld {} 0)).log ≠
      [Ev.spawn 1 (0 * 800 / 2 - 1 / 2) (0 * 600 / 2 - 1 / 2) (800 / 2 + 1) (600 / 2 + 1),
       Ev.spawn 1 (1 * 800 / 2 - 1 / 2) (1 * 600 / 2 - 1 / 2) (800 / 2 + 1) (600 / 2 + 1)] := by
  have hlog : (GenerateLevelFromMap idleEnv ["#.", ".#"] wallItems (NewWorld {} 0)).log =
      [Ev.spawn 1 (-1 / 4) (-1 / 4) (801 / 2) (601 / 2),
       Ev.spawn 1 (1599 / 4) (1199 / 4) (801 / 2) (601 / 2)] := by
    rw [(GenerateLevelFromMap_log_eq _ _ _ _).2]
    have h1 : ("#.".utf8ByteSize : ℕ) = 2 := by decide
    have c1 : rowCells "#." = [(0, '#'), (1, '.')] := by decide
    have c2 : rowCells ".#" = [(0, '.'), (1, '#')] := by decide
    have o1 : wallItems (String.singleton '#') = some 1 := by decide
    have o2 : wallItems (String.singleton '.') = none := by decide
    simp [List.enum, List.enumFrom, c1, c2, tileCall, o1, o2, NewWorld, h1]
    norm_num
  refine ⟨rfl, rfl, hlog, ?_⟩
  rw [hlog]
  norm_num

theorem tileCall_flatten (objects : String → Option Nat) (tw th : ℚ) (y : Nat)
    (px : Nat → ℚ) (py sw sh : ℚ)
    (hx : ∀ c : Nat, (c : ℚ) * tw - 1 / 2 / 2 = px c) (hy : (y : ℚ) * th - 1 / 2 / 2 = py)
    (hw : tw + 1 / 2 = sw) (hh : th + 1 / 2 = sh) (cells : List (Nat × Char)) :
    (cells.map (tileCall objects tw th y)).flatten =
      cells.filterMap (fun cell =>
        (objects (String.singleton cell.2)).map (fun fn => Ev.spawn fn (px cell.1) py sw sh)) := by
  induction cells with
  | nil => rfl
  | cons cell cells ih =>
    simp only [List.map_cons, List.flatten_cons, ih, List.filterMap_cons]
    unfold tileCall
    cases h : objects (String.singleton cell.2) with
    | none => simp
    | some fn =>
      simp only [Option.map_some', List.singleton_append, hx, hy, hw, hh]

/-- C27 (amended). In a world of width `W` and height `H`, for a map of `R`
rows (at least one) of `C` single-byte characters each, `GenerateLevelFromMap`
returns normally and the spawn function of the tile at row `r`, column `c`
receives the position `(c*W/C - 1/4, r*H/R - 1/4)` and the size
`(W/C + 1/2, H/R + 1/2)`: the rectangle extends a quarter of a unit beyond the
tile cell on each of the four sides. -/
theorem GenerateLevelFromMap_tile_rectangle (env : Env) (m : List String)
    (objects : String → Option Nat) (w : World) (C : Nat) (hm : m ≠ [])
    (hrows : ∀ row ∈ m, row.length = C ∧ ∀ ch ∈ row.data, ch.utf8Size = 1) :
    (GenerateLevelFromMap env m objects w).fail = none ∧
    (GenerateLevelFromMap env m objects w).log =
      (m.enum.map (fun yrow =>
        yrow.2.data.enum.filterMap (fun cell =>
          (objects (String.singleton cell.2)).map (fun fn =>
            Ev.spawn fn
              ((cell.1 : ℚ) * (w.Width : ℚ) / (C : ℚ) - 1 / 4)
              ((yrow.1 : ℚ) * (w.Height : ℚ) / (m.length : ℚ) - 1 / 4)
              ((w.Width : ℚ) / (C : ℚ) + 1 / 2)
              ((w.Height : ℚ) / (m.length : ℚ) + 1 / 2))))).flatten := by
  obtain ⟨h1, h2⟩ := GenerateLevelFromMap_log_eq env m objects w
  refine ⟨h1, ?_⟩
  rw [h2]
  have hC : (m.headD "").utf8ByteSize = C := by
    cases m with
    | nil => exact absurd rfl hm
    | cons row rest =>
      have := hrows row (List.mem_cons_self _ _)
      simp only [List.headD_cons]
      rw [utf8ByteSize_single_byte row this.2, this.1]
  rw [hC]
  congr 1
  apply List.map_congr_left
  intro yrow hy
  have hrow : yrow.2 ∈ m := by
    obtain ⟨i, r⟩ := yrow
    exact (List.mem_enum hy).2 ▸ List.getElem_mem _
  rw [rowCells, rowCellsFrom_single_byte _ _ (hrows _ hrow).2]
  exact tileCall_flatten objects ((w.Width : ℚ) / ((C : ℕ) : ℚ))
    ((w.Height : ℚ) / ((m.length : ℕ) : ℚ)) yrow.1
    (fun c => (c : ℚ) * (w.Width : ℚ) / (C : ℚ) - 1 / 4)
    ((yrow.1 : ℚ) * (w.Height : ℚ) / (m.length : ℚ) - 1 / 4)
    ((w.Width : ℚ) / (C : ℚ) + 1 / 2) ((w.Height : ℚ) / (m.length : ℚ) + 1 / 2)
    (fun c => by ring) (by ring) rfl rfl _

theorem GenerateLevelFromMap_tile_rectangle_witness :
    (GenerateLevelFromMap idleEnv ["#.", ".#"] wallItems (NewWorld {} 0)).fail = none ∧
    (GenerateLevelFromMap idleEnv ["#.", ".#"] wallItems (NewWorld {} 0)).log =
      ((["#.", ".#"] : List String).enum.map (fun yrow =>
        yrow.2.data.enum.filterMap (fun cell =>
          (wallItems (String.singleton cell.2)).map (fun fn =>
            Ev.spawn fn
              ((cell.1 : ℚ) * ((NewWorld {} 0).Width : ℚ) / ((2 : ℕ) : ℚ) - 1 / 4)
              ((yrow.1 : ℚ) * ((NewWorld {} 0).Height : ℚ) /
                (((["#.", ".#"] : List String).length : ℕ) : ℚ) - 1 / 4)
              (((NewWorld {} 0).Width : ℚ) / ((2 : ℕ) : ℚ) + 1 / 2)
              (((NewWorld {} 0).Height : ℚ) /
                (((["#.", ".#"] : List String).length : ℕ) : ℚ) + 1 / 2))))).flatten :=
  GenerateLevelFromMap_tile_rectangle idleEnv ["#.", ".#"] wallItems (NewWorld {} 0) 2
    (by decide) (by decide)

/-! ### Contacts that begin and end within one step -/

/-- C28 (the code at the failing input). Two registered shapes, address 0
(body 0) and address 1 (body 1), neither listing the other. The engine calls
`BeginContact` and then `EndContact` for the pair within one step:
`BeginContact` only queues the pair, `EndContact` finds nothing to remove, and
the `processCollisions` that follows the step appends each shape to the
other's touching list. After it `IsCollidingWith` is true both ways although
the contact has ended; when `EndContact` comes after the queue was drained it
does remove the entries. -/
theorem contact_ended_before_drain_stays_listed :
    0 ∈ pairWorld.Objects ∧ 1 ∈ pairWorld.Objects ∧
    IsCollidingWith 0 1 pairWorld = false ∧ IsCollidingWith 1 0 pairWorld = false ∧
    (BeginContact grazeContact pairWorld).collisionQueue = [{ ShapeA := 0, ShapeB := 1 }] ∧
    ((physicsStep grazingEnv 1 pairWorld).andThen (processCollisions grazingEnv)).fail = none ∧
    IsCollidingWith 0 1
      ((physicsStep grazingEnv 1 pairWorld).andThen (processCollisions grazingEnv)).w = true ∧
    IsCollidingWith 1 0
      ((physicsStep grazingEnv 1 pairWorld).andThen (processCollisions grazingEnv)).w = true ∧
    IsCollidingWith 0 1
      (processCollisions idleEnv
        (EndContact grazeContact (BeginContact grazeContact pairWorld))).w = true ∧
    IsCollidingWith 0 1
      (EndContact grazeContact
        (processCollisions idleEnv (BeginContact grazeContact pairWorld)).w) = false ∧
    IsCollidingWith 1 0
      (EndContact grazeContact
        (processCollisions idleEnv (BeginContact grazeContact pairWorld)).w) = false := by
  refine ⟨by decide, by decide, by decide, by decide, by decide, by decide, by decide,
    by decide, by decide, by decide, by decide⟩

/-! ### The default level -/

theorem callInit_defaultInit_overflows (env : Env) (depth : Nat) (w : World)
    (hcur : w.CurrentLevel = 0) (hlev : (w.Levels.getD 0 {}).Init = some InitFn.defaultInit)
    (hlen : 0 < w.Levels.length) :
    callInit env depth InitFn.defaultInit w = Out.panic "stack overflow" w := by
  induction depth with
  | zero => rfl
  | succ d ih =>
    unfold callInit
    have h1 : ¬ (w.CurrentLevel < 0 ∨ w.CurrentLevel ≥ (w.Levels.length : Int)) := by
      rw [hcur]
      omega
    rw [if_neg h1]
    simp only [hcur, Int.toNat_zero, hlev]
    exact ih

/-- C29 (the code at the failing input). In a world created by `NewWorld`
with no levels supplied, the `Init` of the default level calls
`world.Levels[world.CurrentLevel].Init(world)`, which is that same function:
`SelectLevel(0)` makes level 0 current, empties the registry and then enters
a recursion with no exit, so that for every stack depth allowed the call ends
in a stack overflow instead of returning. -/
theorem SelectLevel_of_default_level_overflows (env : Env) (props : WorldProps) (now : ℚ)
    (hprops : props.Levels = []) :
    (NewWorld props now).Levels.length = 1 ∧
    ((NewWorld props now).Levels.getD 0 {}).Init = some InitFn.defaultInit ∧
    (SelectLevel env 0 (NewWorld props now)).fail = some "stack overflow" ∧
    (∀ depth w, w.CurrentLevel = 0 → w.Levels = (NewWorld props now).Levels →
      callInit env depth InitFn.defaultInit w = Out.panic "stack overflow" w) := by
  have hL : (NewWorld props now).Levels =
      [{ Map := [], MapItems := fun _ => none, Init := some InitFn.defaultInit,
         Tick := none, Render := none }] := by
    simp [NewWorld, hprops]
  refine ⟨by rw [hL]; rfl, by rw [hL]; rfl, ?_, ?_⟩
  · unfold SelectLevel
    rw [if_neg (by rw [hL]; simp)]
    simp only [Int.toNat_zero, hL, List.getD_cons_zero]
    have hobj : (NewWorld props now).Objects = [] := rfl
    simp only [Out.ret_andThen, hobj, forEach_nil, enterLevel]
    rw [callInit_defaultInit_overflows env env.maxDepth _ rfl (by simp [installLevel, hL])
      (by simp [installLevel, hL])]
    rfl
  · intro depth w hcur hlev
    exact callInit_defaultInit_overflows env depth w hcur (by rw [hlev, hL]; rfl)
      (by rw [hlev, hL]; simp)

theorem SelectLevel_of_default_level_overflows_witness :
    (NewWorld {} 0).Levels.length = 1 ∧
    ((NewWorld {} 0).Levels.getD 0 {}).Init = some InitFn.defaultInit ∧
    (SelectLevel idleEnv 0 (NewWorld {} 0)).fail = some "stack overflow" ∧
    (∀ depth w, w.CurrentLevel = 0 → w.Levels = (NewWorld {} 0).Levels →
      callInit idleEnv depth InitFn.defaultInit w = Out.panic "stack overflow" w) :=
  SelectLevel_of_default_level_overflows idleEnv {} 0 rfl

/-! ### Cached transform -/

theorem SetX_coherent (s : Ptr) (x : ℚ) (w : World) (r : BodyRef)
    (hb : (w.heap s).Body = some r) :
    (SetX s x w).fail = none ∧ CacheCoherent s (SetX s x w).w = true := by
  simp [SetX, CacheCoherent, setShape, setBody, bodySetTransform, Out.ret, hb,
    MetersToPixels, PixelsToMeters, PTM]

theorem SetY_coherent (s : Ptr) (y : ℚ) (w : World) (r : BodyRef)
    (hb : (w.heap s).Body = some r) :
    (SetY s y w).fail = none ∧ CacheCoherent s (SetY s y w).w = true := by
  simp [SetY, CacheCoherent, setShape, setBody, bodySetTransform, Out.ret, hb,
    MetersToPixels, PixelsToMeters, PTM]

theorem SetPosition_coherent (s : Ptr) (x y : ℚ) (w : World) (r : BodyRef)
    (hb : (w.heap s).Body = some r) :
    (SetPosition s x y w).fail = none ∧ CacheCoherent s (SetPosition s x y w).w = true := by
  simp [SetPosition, CacheCoherent, setShape, setBody, bodySetTransform, Out.ret, hb,
    MetersToPixels, PixelsToMeters, PTM]

/-- C30 (the code at the failing input). A registered shape, 10 by 10 at
(0, 0) with angle 0, whose cached transform is what `updatePhysicsInfo` would
read back. After `SetRotation(90)` the cached angle is 90 and the angle of the
body is `90 * Deg`, so the following `updatePhysicsInfo` changes
`RotationAngle`. After `SetScale(2)` the centre of the body is at the cached
top-left corner (0, 0), so the following `updatePhysicsInfo` changes `X` and
`Y` from 0 to -5. For every shape with a body, after `SetX`, `SetY` and
`SetPosition` with any argument the cached transform is what
`updatePhysicsInfo` would read back. -/
theorem SetRotation_and_SetScale_break_cached_transform :
    0 ∈ coherentWorld.Objects ∧ CacheCoherent 0 coherentWorld = true ∧
    (SetRotation 0 90 coherentWorld).fail = none ∧
    CacheCoherent 0 (SetRotation 0 90 coherentWorld).w = false ∧
    ((SetRotation 0 90 coherentWorld).w.heap 0).RotationAngle = 90 ∧
    (((SetRotation 0 90 coherentWorld).andThen (updatePhysicsInfo 0)).w.heap 0).RotationAngle =
      90 * Deg ∧
    (90 : ℚ) * Deg ≠ 90 ∧
    (SetScale 0 2 coherentWorld).fail = none ∧
    CacheCoherent 0 (SetScale 0 2 coherentWorld).w = false ∧
    ((SetScale 0 2 coherentWorld).w.heap 0).X = 0 ∧
    ((SetScale 0 2 coherentWorld).w.heap 0).Y = 0 ∧
    (((SetScale 0 2 coherentWorld).andThen (updatePhysicsInfo 0)).w.heap 0).X = -5 ∧
    (((SetScale 0 2 coherentWorld).andThen (updatePhysicsInfo 0)).w.heap 0).Y = -5 ∧
    (∀ s w r, (w.heap s).Body = some r →
      (∀ x, (SetX s x w).fail = none ∧ CacheCoherent s (SetX s x w).w = true) ∧
      (∀ y, (SetY s y w).fail = none ∧ CacheCoherent s (SetY s y w).w = true) ∧
      (∀ x y, (SetPosition s x y w).fail = none ∧
        CacheCoherent s (SetPosition s x y w).w = true)) := by
  have hd : (90 : ℚ) * Deg ≠ 90 := by norm_num [Deg]
  refine ⟨by decide, ?_, rfl, ?_, rfl, ?_, hd, rfl, ?_, rfl, rfl, ?_, ?_, ?_⟩
  · simp [CacheCoherent, coherentWorld, MetersToPixels, PTM]
    norm_num
  · simp [CacheCoherent, SetRotation, coherentWorld, setShape, setBody, bodySetTransform,
      Out.ret, MetersToPixels, PTM]
    norm_num [Deg]
  · simp [SetRotation, coherentWorld, setShape, setBody, bodySetTransform, Out.ret,
      Out.andThen, updatePhysicsInfo]
  · simp [CacheCoherent, SetScale, coherentWorld, setShape, setBody, bodySetTransform,
      Out.ret, MetersToPixels, PixelsToMeters, PTM]
  · simp [SetScale, coherentWorld, setShape, setBody, bodySetTransform, Out.ret,
      Out.andThen, updatePhysicsInfo, MetersToPixels, PixelsToMeters, PTM]
    norm_num
  · simp [SetScale, coherentWorld, setShape, setBody, bodySetTransform, Out.ret,
      Out.andThen, updatePhysicsInfo, MetersToPixels, PixelsToMeters, PTM]
    norm_num
  · intro s w r hb
    exact ⟨fun x => SetX_coherent s x w r hb, fun y => SetY_coherent s y w r hb,
      fun x y => SetPosition_coherent s x y w r hb⟩

theorem insertRev_length {α : Type} (less : α → α → Bool) (x : α) (r : List α) :
    (insertRev less x r).length = r.length + 1 := by
  induction r with
  | nil => rfl
  | cons y r ih =>
    unfold insertRev
    split <;> simp [ih]

/-! ### Insertion sort of package sort -/

theorem lessAt_cons_succ {α : Type} (less : α → α → Bool) (p : α) (l : List α) (i j : Nat) :
    lessAt less (p :: l) (i + 1) (j + 1) = lessAt less l i j := by
  simp [lessAt]

theorem swapAt_cons_succ {α : Type} (p : α) (l : List α) (i j : Nat) :
    swapAt (p :: l) (i + 1) (j + 1) = p :: swapAt l i j := by
  unfold swapAt
  simp only [List.getElem?_cons_succ]
  cases l[i]? <;> cases l[j]? <;> simp

theorem lessAt_adjacent {α : Type} (less : α → α → Bool) (pre : List α) (y x : α)
    (post : List α) :
    lessAt less (pre ++ y :: x :: post) (pre.length + 1) pre.length = less x y := by
  induction pre with
  | nil => simp [lessAt]
  | cons p pre ih => simpa [lessAt_cons_succ] using ih

theorem swapAt_adjacent {α : Type} (pre : List α) (y x : α) (post : List α) :
    swapAt (pre ++ y :: x :: post) (pre.length + 1) pre.length = pre ++ x :: y :: post := by
  induction pre with
  | nil => simp [swapAt]
  | cons p pre ih => simpa [swapAt_cons_succ] using ih

theorem insertionInner_eq {α : Type} (less : α → α → Bool) (x : α) (r post : List α) :
    insertionInner less 0 r.length (r.reverse ++ x :: post) =
      (insertRev less x r).reverse ++ post := by
  induction r generalizing post with
  | nil => simp [insertionInner, insertRev]
  | cons y r ih =>
    have hl : r.reverse.length = r.length := List.length_reverse r
    have h1 : lessAt less (r.reverse ++ y :: x :: post) (r.length + 1) r.length = less x y := by
      have := lessAt_adjacent less r.reverse y x post
      rwa [hl] at this
    have h2 : swapAt (r.reverse ++ y :: x :: post) (r.length + 1) r.length =
        r.reverse ++ x :: y :: post := by
      have := swapAt_adjacent r.reverse y x post
      rwa [hl] at this
    simp only [List.length_cons, List.reverse_cons, List.append_assoc, List.singleton_append,
      insertionInner, insertRev, h1, h2]
    by_cases hxy : less x y = true
    · simp [hxy, ih]
    · simp [hxy]

theorem insertionSort_fold {α : Type} (less : α → α → Bool) (r rest : List α) :
    (List.range' r.length rest.length).foldl (fun d i => insertionInner less 0 i d)
        (r.reverse ++ rest) =
      (rest.foldl (fun acc x => insertRev less x acc) r).reverse := by
  induction rest generalizing r with
  | nil => simp
  | cons x rest ih =>
    have hlen : (insertRev less x r).length = r.length + 1 := insertRev_length less x r
    simp only [List.length_cons, List.range'_succ, List.foldl_cons, insertionInner_eq]
    have := ih (insertRev less x r)
    rw [hlen] at this
    exact this

theorem insertionSort_func_eq {α : Type} (less : α → α → Bool) (l : List α) :
    insertionSort_func less l 0 l.length = insertionSortList less l := by
  cases l with
  | nil => rfl
  | cons x rest =>
    have := insertionSort_fold less [x] rest
    simpa [insertionSort_func, insertionSortList, insertRev] using this
theorem insertRev_perm {α : Type} (less : α → α → Bool) (x : α) (r : List α) :
    (insertRev less x r).Perm (x :: r) := by
  induction r with
  | nil => exact List.Perm.refl _
  | cons y r ih =>
    unfold insertRev
    split
    · exact (List.Perm.cons y ih).trans (List.Perm.swap x y r)
    · exact List.Perm.refl _

theorem insertRev_fold_perm {α : Type} (less : α → α → Bool) (l r : List α) :
    (l.foldl (fun acc x => insertRev less x acc) r).Perm (l.reverse ++ r) := by
  induction l generalizing r with
  | nil => exact List.Perm.refl _
  | cons x l ih =>
    simp only [List.foldl_cons, List.reverse_cons, List.append_assoc, List.singleton_append]
    exact (ih _).trans (List.Perm.append_left _ (insertRev_perm less x r))

theorem insertionSortList_perm {α : Type} (less : α → α → Bool) (l : List α) :
    (insertionSortList less l).Perm l := by
  unfold insertionSortList
  refine (List.reverse_perm _).trans ((insertRev_fold_perm less l []).trans ?_)
  simp

theorem insertRev_sorted {α : Type} (less : α → α → Bool) (h : StrictWeakOrder less) (x : α)
    (r : List α) (hr : r.Pairwise (fun a b => less a b = false)) :
    (insertRev less x r).Pairwise (fun a b => less a b = false) := by
  obtain ⟨hirr, htr, hneg⟩ := h
  induction r with
  | nil => simp [insertRev]
  | cons y r ih =>
    rw [List.pairwise_cons] at hr
    unfold insertRev
    split
    · rename_i hxy
      rw [List.pairwise_cons]
      refine ⟨?_, ih hr.2⟩
      intro z hz
      rcases List.mem_cons.mp ((List.Perm.mem_iff (insertRev_perm less x r)).mp hz) with hz | hz
      · rw [hz]
        by_contra hc
        have hyx : less y x = true := by simpa using hc
        have := htr x y x hxy hyx
        rw [hirr x] at this
        exact Bool.false_ne_true this
      · exact hr.1 z hz
    · rename_i hxy
      have hxy0 : less x y = false := by simpa using hxy
      rw [List.pairwise_cons]
      refine ⟨?_, List.pairwise_cons.mpr hr⟩
      intro z hz
      rcases List.mem_cons.mp hz with hz | hz
      · rw [hz]; exact hxy0
      · exact hneg x y z hxy0 (hr.1 z hz)

theorem insertRev_fold_sorted {α : Type} (less : α → α → Bool) (h : StrictWeakOrder less)
    (l r : List α) (hr : r.Pairwise (fun a b => less a b = false)) :
    (l.foldl (fun acc x => insertRev less x acc) r).Pairwise (fun a b => less a b = false) := by
  induction l generalizing r with
  | nil => exact hr
  | cons x l ih => exact ih _ (insertRev_sorted less h x r hr)

theorem insertionSortList_sorted {α : Type} (less : α → α → Bool) (h : StrictWeakOrder less)
    (l : List α) : (insertionSortList less l).Pairwise (fun a b => less b a = false) := by
  unfold insertionSortList
  rw [List.pairwise_reverse]
  exact insertRev_fold_sorted less h l [] List.Pairwise.nil

theorem insertRev_filter {α : Type} (less : α → α → Bool) (p : α → Bool)
    (hp : ∀ a b, less a b = true → p a = true → p b = true → False) (x : α) (r : List α) :
    (insertRev less x r).filter p = (x :: r).filter p := by
  induction r with
  | nil => rfl
  | cons y r ih =>
    unfold insertRev
    split
    · rename_i hxy
      rw [List.filter_cons, ih]
      by_cases hx : p x = true
      · have hy : p y = false := by
          by_contra hc
          exact hp x y hxy hx (by simpa using hc)
        simp [List.filter_cons, hx, hy]
      · simp [List.filter_cons, hx]
    · rfl

theorem insertRev_fold_filter {α : Type} (less : α → α → Bool) (p : α → Bool)
    (hp : ∀ a b, less a b = true → p a = true → p b = true → False) (l r : List α) :
    (l.foldl (fun acc x => insertRev less x acc) r).filter p = (l.reverse ++ r).filter p := by
  induction l generalizing r with
  | nil => rfl
  | cons x l ih =>
    simp only [List.foldl_cons, List.reverse_cons, List.append_assoc, List.singleton_append]
    rw [ih, List.filter_append, List.filter_append, insertRev_filter less p hp]

/-- Insertion sort keeps the order of the elements of any class no two
members of which are ordered by `less`. -/
theorem insertionSortList_stable {α : Type} (less : α → α → Bool) (p : α → Bool)
    (hp : ∀ a b, less a b = true → p a = true → p b = true → False) (l : List α) :
    (insertionSortList less l).filter p = l.filter p := by
  unfold insertionSortList
  rw [List.filter_reverse, insertRev_fold_filter less p hp]
  simp [List.filter_reverse]

theorem sortSlice_short {α : Type} (less : α → α → Bool) (l : List α) (h : l.length ≤ 12) :
    sortSlice less l = insertionSortList less l := by
  unfold sortSlice pdqsort_func
  simp only [Nat.sub_zero, if_pos h]
  exact insertionSort_func_eq less l

/-! ### Draw order -/

theorem drawLess_iff (a b : Shape) :
    drawLess a b = true ↔
      (a.Tag = "border" ∧ b.Tag ≠ "border") ∨
      ((a.Tag = "border" ↔ b.Tag = "border") ∧ a.ZIndex < b.ZIndex) := by
  unfold drawLess
  by_cases ha : a.Tag = "border" <;> by_cases hb : b.Tag = "border" <;> simp [ha, hb]

theorem drawLess_strictWeak {α : Type} (f : α → Shape) :
    StrictWeakOrder (fun a b => drawLess (f a) (f b)) := by
  refine ⟨?_, ?_, ?_⟩
  · intro a
    rw [Bool.eq_false_iff]
    intro h
    rcases (drawLess_iff _ _).mp h with h1 | h1
    · exact h1.2 h1.1
    · exact lt_irrefl _ h1.2
  · intro a b c hab hbc
    rcases (drawLess_iff _ _).mp hab with h1 | h1 <;>
      rcases (drawLess_iff _ _).mp hbc with h2 | h2
    · exact absurd h2.1 h1.2
    · exact (drawLess_iff _ _).mpr (Or.inl ⟨h1.1, fun hc => h1.2 (h2.1.mpr hc)⟩)
    · exact (drawLess_iff _ _).mpr (Or.inl ⟨h1.1.mpr h2.1, h2.2⟩)
    · exact (drawLess_iff _ _).mpr (Or.inr ⟨h1.1.trans h2.1, lt_trans h1.2 h2.2⟩)
  · intro a b c hab hbc
    rw [Bool.eq_false_iff] at hab hbc ⊢
    intro hac
    rw [Ne, drawLess_iff] at hab hbc
    rw [drawLess_iff] at hac
    by_cases ha : (f a).Tag = "border" <;> by_cases hb : (f b).Tag = "border" <;>
      by_cases hc : (f c).Tag = "border" <;> simp [ha, hb, hc] at hab hbc hac <;> omega

theorem drawLess_false_iff (a b : Shape) :
    drawLess b a = false ↔
      ((b.Tag = "border" → a.Tag = "border") ∧
        ((a.Tag = "border" ↔ b.Tag = "border") → a.ZIndex ≤ b.ZIndex)) := by
  rw [Bool.eq_false_iff, Ne, drawLess_iff]
  by_cases ha : a.Tag = "border" <;> by_cases hb : b.Tag = "border" <;> simp [ha, hb]

theorem drawLess_key (a b : Shape) (h : drawLess a b = true) : drawKey a ≠ drawKey b := by
  intro hk
  have h1 : decide (a.Tag = "border") = decide (b.Tag = "border") := congrArg Prod.fst hk
  have h2 : a.ZIndex = b.ZIndex := congrArg Prod.snd hk
  rcases (drawLess_iff _ _).mp h with h3 | h3
  · have : b.Tag = "border" := by
      have := h3.1
      simpa [this] using h1.symm
    exact h3.2 this
  · omega

theorem insertionSortList_sortsSlices {α : Type} :
    SortsSlices (fun (less : α → α → Bool) l => insertionSortList less l) :=
  fun less l h => ⟨insertionSortList_perm less l, insertionSortList_sorted less h l⟩

theorem Draw_sorted (sort : (DrawRef → DrawRef → Bool) → List DrawRef → List DrawRef)
    (rand : Nat → String × String) (w : World) (hsort : SortsSlices sort) :
    (Draw sort rand w).drawn.Perm (allShapes w) ∧
    (Draw sort rand w).drawn.Pairwise (fun a b =>
      drawLess (derefShape w (Draw sort rand w).tempShapes b)
        (derefShape w (Draw sort rand w).tempShapes a) = false) :=
  hsort _ (allShapes w) (drawLess_strictWeak _)

/-- C22. For every registry, every buffer of commands and every sort that
keeps what `sort.Slice` promises, the shapes that `Draw` draws are a
permutation of the combined list (the registered shapes followed by one
transient shape per buffered command), and for any two of them, the one drawn
first `a` and the one drawn later `b`: if `b` is tagged "border" so is `a`,
and if both or neither are tagged "border" the z-index of `a` is at most that
of `b`. One transient shape is built per command. -/
theorem Draw_orders_border_first_then_z (sort : (DrawRef → DrawRef → Bool) → List DrawRef →
    List DrawRef) (rand : Nat → String × String) (w : World) (hsort : SortsSlices sort) :
    (Draw sort rand w).drawn.Perm
      (w.Objects.map DrawRef.live ++ (List.range w.drawCommands.length).map DrawRef.temp) ∧
    (Draw sort rand w).tempShapes.length = w.drawCommands.length ∧
    (Draw sort rand w).drawn.Pairwise (fun a b =>
      (((derefShape w (Draw sort rand w).tempShapes b).Tag = "border" →
          (derefShape w (Draw sort rand w).tempShapes a).Tag = "border") ∧
        (((derefShape w (Draw sort rand w).tempShapes a).Tag = "border" ↔
            (derefShape w (Draw sort rand w).tempShapes b).Tag = "border") →
          (derefShape w (Draw sort rand w).tempShapes a).ZIndex ≤
            (derefShape w (Draw sort rand w).tempShapes b).ZIndex))) := by
  obtain ⟨h1, h2⟩ := Draw_sorted sort rand w hsort
  refine ⟨h1, by simp [Draw, buildTempShapes, List.enum], ?_⟩
  exact h2.imp (fun {a b} h => (drawLess_false_iff _ _).mp h)

theorem Draw_orders_border_first_then_z_witness :
    ((Draw insertionSortList fixedRand layeredWorld).drawn.Perm
      (layeredWorld.Objects.map DrawRef.live ++
        (List.range layeredWorld.drawCommands.length).map DrawRef.temp) ∧
    (Draw insertionSortList fixedRand layeredWorld).tempShapes.length =
      layeredWorld.drawCommands.length ∧
    (Draw insertionSortList fixedRand layeredWorld).drawn.Pairwise (fun a b =>
      (((derefShape layeredWorld (Draw insertionSortList fixedRand layeredWorld).tempShapes b).Tag
            = "border" →
          (derefShape layeredWorld (Draw insertionSortList fixedRand layeredWorld).tempShapes a).Tag
            = "border") ∧
        (((derefShape layeredWorld
              (Draw insertionSortList fixedRand layeredWorld).tempShapes a).Tag = "border" ↔
            (derefShape layeredWorld
              (Draw insertionSortList fixedRand layeredWorld).tempShapes b).Tag = "border") →
          (derefShape layeredWorld
              (Draw insertionSortList fixedRand layeredWorld).tempShapes a).ZIndex ≤
            (derefShape layeredWorld
              (Draw insertionSortList fixedRand layeredWorld).tempShapes b).ZIndex)))) ∧
    (Draw insertionSortList fixedRand layeredWorld).drawn =
      [DrawRef.live 0, DrawRef.live 2, DrawRef.live 1] ∧
    (Draw sortSlice fixedRand layeredWorld).drawn =
      [DrawRef.live 0, DrawRef.live 2, DrawRef.live 1] :=
  ⟨Draw_orders_border_first_then_z insertionSortList fixedRand layeredWorld
    insertionSortList_sortsSlices, by decide, by decide⟩

/-! ### The immediate-draw buffer -/

theorem NewShape_detached (props : Option ShapeProps) (id name : String) :
    (NewShape props id name).Body = none ∧ (NewShape props id name).world = false := by
  unfold NewShape
  generalize shapeDefaults _ name = q
  dsimp only
  split <;> exact ⟨rfl, rfl⟩

theorem Pen_frame (shapeType : ShapeType) (props : Option ShapeProps) (w : World) :
    (Pen shapeType props w).drawCommands.length = w.drawCommands.length + 1 ∧
    (Pen shapeType props w).Objects = w.Objects ∧ (Pen shapeType props w).heap = w.heap ∧
    (Pen shapeType props w).bodies = w.bodies ∧
    (Pen shapeType props w).liveBodies = w.liveBodies ∧
    (Pen shapeType props w).nextBody = w.nextBody := by
  unfold Pen
  refine ⟨?_, rfl, rfl, rfl, rfl, rfl⟩
  dsimp only
  rw [List.length_append, List.length_singleton]

theorem penAll_frame (cmds : List (ShapeType × Option ShapeProps)) (w : World) :
    (penAll cmds w).drawCommands.length = w.drawCommands.length + cmds.length ∧
    (penAll cmds w).Objects = w.Objects ∧ (penAll cmds w).heap = w.heap ∧
    (penAll cmds w).bodies = w.bodies ∧ (penAll cmds w).liveBodies = w.liveBodies ∧
    (penAll cmds w).nextBody = w.nextBody := by
  induction cmds generalizing w with
  | nil => simp [penAll]
  | cons c cmds ih =>
    obtain ⟨h1, h2, h3, h4, h5, h6⟩ := ih (Pen c.1 c.2 w)
    obtain ⟨p1, p2, p3, p4, p5, p6⟩ := Pen_frame c.1 c.2 w
    simp only [penAll, List.foldl_cons] at h1 h2 h3 h4 h5 h6 ⊢
    refine ⟨?_, h2.trans p2, h3.trans p3, h4.trans p4, h5.trans p5, h6.trans p6⟩
    rw [h1, p1, List.length_cons]
    omega

theorem allShapes_temps (w : World) :
    (allShapes w).filter DrawRef.isTemp = (List.range w.drawCommands.length).map DrawRef.temp := by
  unfold allShapes
  rw [List.filter_append]
  have h1 : (w.Objects.map DrawRef.live).filter DrawRef.isTemp = [] := by
    rw [List.filter_eq_nil_iff]
    intro a ha
    obtain ⟨p, _, rfl⟩ := List.mem_map.mp ha
    simp [DrawRef.isTemp]
  have h2 : ((List.range w.drawCommands.length).map DrawRef.temp).filter DrawRef.isTemp =
      (List.range w.drawCommands.length).map DrawRef.temp := by
    rw [List.filter_eq_self]
    intro a ha
    obtain ⟨i, _, rfl⟩ := List.mem_map.mp ha
    rfl
  rw [h1, h2, List.nil_append]

/-- C24. On a world whose buffer is empty, after any sequence of `Pen`
calls, one `Draw` (with a sort that keeps what `sort.Slice` promises) builds
one transient shape per command and draws each of them exactly once; it
leaves the buffer empty, so that the next `Draw` draws no transient shape;
the registry, the shapes, the bodies and the physics world are as before the
`Pen` calls, and no transient shape has a body or a world. -/
theorem Draw_drains_the_buffer (sort : (DrawRef → DrawRef → Bool) → List DrawRef →
    List DrawRef) (rand : Nat → String × String) (w : World)
    (cmds : List (ShapeType × Option ShapeProps)) (hsort : SortsSlices sort)
    (hempty : w.drawCommands = []) :
    (penAll cmds w).drawCommands.length = cmds.length ∧
    ((Draw sort rand (penAll cmds w)).drawn.filter DrawRef.isTemp).Perm
      ((List.range cmds.length).map DrawRef.temp) ∧
    ((Draw sort rand (penAll cmds w)).drawn.filter DrawRef.isTemp).length = cmds.length ∧
    (Draw sort rand (penAll cmds w)).tempShapes.length = cmds.length ∧
    (Draw sort rand (penAll cmds w)).w.drawCommands = [] ∧
    (Draw sort rand (Draw sort rand (penAll cmds w)).w).drawn.filter DrawRef.isTemp = [] ∧
    (Draw sort rand (penAll cmds w)).w.Objects = w.Objects ∧
    (Draw sort rand (penAll cmds w)).w.heap = w.heap ∧
    (Draw sort rand (penAll cmds w)).w.bodies = w.bodies ∧
    (Draw sort rand (penAll cmds w)).w.liveBodies = w.liveBodies ∧
    (Draw sort rand (penAll cmds w)).w.nextBody = w.nextBody ∧
    (∀ sh ∈ (Draw sort rand (penAll cmds w)).tempShapes, sh.Body = none ∧ sh.world = false) := by
  obtain ⟨h1, h2, h3, h4, h5, h6⟩ := penAll_frame cmds w
  have hlen : (penAll cmds w).drawCommands.length = cmds.length := by
    rw [h1, hempty]; simp
  have hperm := (Draw_sorted sort rand (penAll cmds w) hsort).1
  have hfil : ((Draw sort rand (penAll cmds w)).drawn.filter DrawRef.isTemp).Perm
      ((List.range cmds.length).map DrawRef.temp) := by
    have := hperm.filter DrawRef.isTemp
    rwa [allShapes_temps, hlen] at this
  have hperm2 := (Draw_sorted sort rand (Draw sort rand (penAll cmds w)).w hsort).1
  refine ⟨hlen, hfil, ?_, ?_, rfl, ?_, h2, h3, h4, h5, h6, ?_⟩
  · rw [hfil.length_eq]; simp
  · simp [Draw, buildTempShapes, List.enum, hlen]
  · have := hperm2.filter DrawRef.isTemp
    rw [allShapes_temps] at this
    have hnil : (Draw sort rand (penAll cmds w)).w.drawCommands = [] := rfl
    rw [hnil] at this
    exact List.Perm.eq_nil (by simpa using this)
  · intro sh hsh
    simp only [Draw, buildTempShapes, List.mem_map] at hsh
    obtain ⟨icmd, _, rfl⟩ := hsh
    have hd := NewShape_detached (some icmd.2.Props) (rand icmd.1).1 (rand icmd.1).2
    exact ⟨hd.1, hd.2⟩

theorem Draw_drains_the_buffer_witness :
    ((penAll sketchCmds layeredWorld).drawCommands.length = sketchCmds.length ∧
    ((Draw insertionSortList fixedRand (penAll sketchCmds layeredWorld)).drawn.filter
      DrawRef.isTemp).Perm ((List.range sketchCmds.length).map DrawRef.temp) ∧
    ((Draw insertionSortList fixedRand (penAll sketchCmds layeredWorld)).drawn.filter
      DrawRef.isTemp).length = sketchCmds.length ∧
    (Draw insertionSortList fixedRand (penAll sketchCmds layeredWorld)).tempShapes.length =
      sketchCmds.length ∧
    (Draw insertionSortList fixedRand (penAll sketchCmds layeredWorld)).w.drawCommands = [] ∧
    (Draw insertionSortList fixedRand
      (Draw insertionSortList fixedRand (penAll sketchCmds layeredWorld)).w).drawn.filter
        DrawRef.isTemp = [] ∧
    (Draw insertionSortList fixedRand (penAll sketchCmds layeredWorld)).w.Objects =
      layeredWorld.Objects ∧
    (Draw insertionSortList fixedRand (penAll sketchCmds layeredWorld)).w.heap =
      layeredWorld.heap ∧
    (Draw insertionSortList fixedRand (penAll sketchCmds layeredWorld)).w.bodies =
      layeredWorld.bodies ∧
    (Draw insertionSortList fixedRand (penAll sketchCmds layeredWorld)).w.liveBodies =
      layeredWorld.liveBodies ∧
    (Draw insertionSortList fixedRand (penAll sketchCmds layeredWorld)).w.nextBody =
      layeredWorld.nextBody ∧
    (∀ sh ∈ (Draw insertionSortList fixedRand (penAll sketchCmds layeredWorld)).tempShapes,
      sh.Body = none ∧ sh.world = false)) ∧
    (Draw sortSlice fixedRand (penAll sketchCmds layeredWorld)).drawn =
      [DrawRef.live 0, DrawRef.live 2, DrawRef.temp 1, DrawRef.live 1, DrawRef.temp 0] ∧
    (Draw sortSlice fixedRand
      (Draw sortSlice fixedRand (penAll sketchCmds layeredWorld)).w).drawn =
      [DrawRef.live 0, DrawRef.live 2, DrawRef.live 1] :=
  ⟨Draw_drains_the_buffer insertionSortList fixedRand layeredWorld sketchCmds
    insertionSortList_sortsSlices rfl, by decide, by decide⟩

/-! ### Stability of the draw order -/

set_option maxRecDepth 100000 in
/-- C23 (counterexample). Thirteen registered shapes tagged "x", all with
z-index 1 except the second, which has z-index 0, and no command in the
buffer. With the algorithm of `sort.Slice` the shape of address 6 is drawn
before the shape of address 0, which has the same sort key and comes before
it in the registry: the pivot chosen in the middle of the slice is swapped to
the front and stays ahead of the shapes it was behind. -/
theorem Draw_reorders_equal_keys_of_thirteen :
    allShapes crowdWorld =
      [DrawRef.live 0, DrawRef.live 1, DrawRef.live 2, DrawRef.live 3, DrawRef.live 4,
       DrawRef.live 5, DrawRef.live 6, DrawRef.live 7, DrawRef.live 8, DrawRef.live 9,
       DrawRef.live 10, DrawRef.live 11, DrawRef.live 12] ∧
    drawKey (crowdWorld.heap 0) = drawKey (crowdWorld.heap 6) ∧
    (Draw sortSlice fixedRand crowdWorld).drawn =
      [DrawRef.live 1, DrawRef.live 6, DrawRef.live 2, DrawRef.live 3, DrawRef.live 4,
       DrawRef.live 5, DrawRef.live 0, DrawRef.live 7, DrawRef.live 8, DrawRef.live 9,
       DrawRef.live 10, DrawRef.live 11, DrawRef.live 12] ∧
    (Draw sortSlice fixedRand crowdWorld).drawn.filter
        (fun r => decide (drawKey
          (derefShape crowdWorld (Draw sortSlice fixedRand crowdWorld).tempShapes r) =
            (false, 1))) ≠
      (allShapes crowdWorld).filter
        (fun r => decide (drawKey
          (derefShape crowdWorld (Draw sortSlice fixedRand crowdWorld).tempShapes r) =
            (false, 1))) := by
  refine ⟨by decide, by decide, by decide, by decide⟩

/-- C23 (amended). When the registry and the buffer hold at most 12 shapes
together, `sort.Slice` runs its insertion sort and the draw order is stable:
for every sort key, the shapes with that key are drawn in the order they have
in the combined list (registered shapes in registry order, then transient
shapes in command order); the drawn shapes are a permutation of the combined
list and none is less than one drawn before it. -/
theorem Draw_stable_up_to_twelve (rand : Nat → String × String) (w : World)
    (h : w.Objects.length + w.drawCommands.length ≤ 12) :
    (∀ k : Bool × Int,
      (Draw sortSlice rand w).drawn.filter
          (fun r => decide (drawKey (derefShape w (Draw sortSlice rand w).tempShapes r) = k)) =
        (allShapes w).filter
          (fun r => decide (drawKey (derefShape w (Draw sortSlice rand w).tempShapes r) = k))) ∧
    (Draw sortSlice rand w).drawn.Perm (allShapes w) ∧
    (Draw sortSlice rand w).drawn.Pairwise (fun a b =>
      drawLess (derefShape w (Draw sortSlice rand w).tempShapes b)
        (derefShape w (Draw sortSlice rand w).tempShapes a) = false) := by
  have hlen : (allShapes w).length ≤ 12 := by
    simp only [allShapes, List.length_append, List.length_map, List.length_range]
    exact h
  have hd : (Draw sortSlice rand w).drawn =
      insertionSortList (fun a b => drawLess (derefShape w (buildTempShapes rand w) a)
        (derefShape w (buildTempShapes rand w) b)) (allShapes w) :=
    sortSlice_short _ _ hlen
  have ht : (Draw sortSlice rand w).tempShapes = buildTempShapes rand w := rfl
  rw [hd, ht]
  refine ⟨?_, insertionSortList_perm _ _, insertionSortList_sorted _ (drawLess_strictWeak _) _⟩
  intro k
  apply insertionSortList_stable
  intro a b hab ha hb
  have ha1 := of_decide_eq_true ha
  have hb1 := of_decide_eq_true hb
  exact drawLess_key _ _ hab (ha1.trans hb1.symm)

theorem Draw_stable_up_to_twelve_witness :
    ((∀ k : Bool × Int,
      (Draw sortSlice fixedRand tiedWorld).drawn.filter
          (fun r => decide (drawKey
            (derefShape tiedWorld (Draw sortSlice fixedRand tiedWorld).tempShapes r) = k)) =
        (allShapes tiedWorld).filter
          (fun r => decide (drawKey
            (derefShape tiedWorld (Draw sortSlice fixedRand tiedWorld).tempShapes r) = k))) ∧
    (Draw sortSlice fixedRand tiedWorld).drawn.Perm (allShapes tiedWorld) ∧
    (Draw sortSlice fixedRand tiedWorld).drawn.Pairwise (fun a b =>
      drawLess (derefShape tiedWorld (Draw sortSlice fixedRand tiedWorld).tempShapes b)
        (derefShape tiedWorld (Draw sortSlice fixedRand tiedWorld).tempShapes a) = false)) ∧
    (Draw sortSlice fixedRand tiedWorld).drawn =
      [DrawRef.live 1, DrawRef.live 0, DrawRef.live 2] :=
  ⟨Draw_stable_up_to_twelve fixedRand tiedWorld (by decide), by decide⟩

/-! ### Hooks that register and unregister -/

theorem runUserCall_registry (c : UserCall) (w : World) :
    (runUserCall w c).Objects = applyUserCall (fun p => (w.heap p).ID) w.Objects c ∧
    ∀ p, ((runUserCall w c).heap p).ID = (w.heap p).ID := by
  cases c with
  | register s => exact Register_registry s w
  | unregister s =>
    obtain ⟨h1, h2⟩ := Unregister_registry s w
    exact ⟨h1, fun p => by show ((Unregister s w).w.heap p).ID = _; rw [h2]⟩

theorem runScript_registry (cs : List UserCall) (w : World) :
    (runScript cs w).Objects = applyScript (fun p => (w.heap p).ID) cs w.Objects ∧
    ∀ p, ((runScript cs w).heap p).ID = (w.heap p).ID := by
  induction cs generalizing w with
  | nil => exact ⟨rfl, fun _ => rfl⟩
  | cons c cs ih =>
    obtain ⟨h1, h2⟩ := runUserCall_registry c w
    obtain ⟨i1, i2⟩ := ih (runUserCall w c)
    have hids : (fun p => ((runUserCall w c).heap p).ID) = (fun p => (w.heap p).ID) :=
      funext h2
    simp only [runScript, List.foldl_cons, applyScript] at i1 i2 ⊢
    refine ⟨?_, fun p => (i2 p).trans (h2 p)⟩
    rw [i1, hids, h1]

theorem tracks_ret (sc : Scripts) (v : World) : Tracks sc v (Out.ret v) :=
  ⟨fun _ => rfl, rfl⟩

theorem tracks_andThen (sc : Scripts) (v : World) (o : Out) (f : World → Out)
    (h1 : Tracks sc v o) (h2 : ∀ u, Tracks sc u (f u)) : Tracks sc v (o.andThen f) := by
  unfold Out.andThen
  cases o.fail with
  | some m => exact h1
  | none =>
    obtain ⟨a1, a2⟩ := h1
    obtain ⟨b1, b2⟩ := h2 o.w
    have hids : (fun p => (o.w.heap p).ID) = (fun p => (v.heap p).ID) := funext a1
    refine ⟨fun p => (b1 p).trans (a1 p), ?_⟩
    show (f o.w).w.Objects = _
    rw [b2, hids, a2]
    simp [logScript, applyScript, List.foldl_append]

theorem tracks_forEach {α : Type} (sc : Scripts) (f : α → World → Out)
    (hf : ∀ x u, Tracks sc u (f x u)) (xs : List α) (v : World) :
    Tracks sc v (forEach xs f v) := by
  induction xs generalizing v with
  | nil => exact tracks_ret sc v
  | cons x xs ih =>
    rw [forEach_cons]
    exact tracks_andThen sc v _ _ (hf x v) ih

theorem tracks_hook (env : Env) (sc : Scripts) (h : FollowsScripts env sc) (id : Nat)
    (e : Ev) (he : enterScript sc e = sc.hook id) (v : World) :
    Tracks sc v { w := env.hook id v, log := [e] } := by
  refine ⟨h.hookIDs id v, ?_⟩
  show (env.hook id v).Objects = _
  rw [h.hookObjects, (runScript_registry _ v).1]
  simp [logScript, he]

theorem tracks_callInit (env : Env) (sc : Scripts) (h : FollowsScripts env sc) (depth : Nat)
    (f : InitFn) (v : World) : Tracks sc v (callInit env depth f v) := by
  induction depth generalizing f with
  | zero =>
    cases f with
    | user id => exact tracks_hook env sc h id (Ev.init id) rfl v
    | defaultInit => exact ⟨fun _ => rfl, rfl⟩
  | succ n ih =>
    cases f with
    | user id => exact tracks_hook env sc h id (Ev.init id) rfl v
    | defaultInit =>
      simp only [callInit]
      split
      · exact ⟨fun _ => rfl, rfl⟩
      · split
        · exact ⟨fun _ => rfl, rfl⟩
        · exact ih _

theorem tracks_spawnTile (env : Env) (sc : Scripts) (h : FollowsScripts env sc)
    (objects : String → Option Nat) (tw th : ℚ) (y : Nat) (cell : Nat × Char) (v : World) :
    Tracks sc v (spawnTile env objects tw th y cell v) := by
  unfold spawnTile
  split
  · exact tracks_ret sc v
  · refine ⟨h.spawnIDs _ _ _ _ v, ?_⟩
    dsimp only
    rw [h.spawnObjects, (runScript_registry _ v).1]
    simp [logScript, enterScript]

theorem tracks_GenerateLevelFromMap (env : Env) (sc : Scripts) (h : FollowsScripts env sc)
    (m : List String) (objects : String → Option Nat) (v : World) :
    Tracks sc v (GenerateLevelFromMap env m objects v) := by
  unfold GenerateLevelFromMap
  split
  · exact tracks_ret sc v
  · exact tracks_forEach sc _
      (fun yrow u => tracks_forEach sc _ (fun cell t => tracks_spawnTile env sc h _ _ _ _ cell t)
        _ u) _ v

theorem tracks_enterLevel (env : Env) (sc : Scripts) (h : FollowsScripts env sc)
    (level : Level) (v : World) : Tracks sc v (enterLevel env level v) := by
  unfold enterLevel
  apply tracks_andThen
  · split
    · exact tracks_callInit env sc h _ _ v
    · exact tracks_ret sc v
  · intro w5
    apply tracks_andThen
    · exact tracks_GenerateLevelFromMap env sc h _ _ w5
    · intro w6
      split
      · rename_i id _
        exact tracks_hook env sc h id (Ev.onMount id) rfl w6
      · exact tracks_ret sc w6
theorem stampUserCall_ordered (ids : Ptr → String) (g : Ledger) (c : UserCall)
    (h : g.Ordered) : (stampUserCall ids g c).Ordered := by
  obtain ⟨h1, h2, h3⟩ := h
  cases c with
  | register s =>
    refine ⟨?_, ?_, ?_⟩
    · show g.objs ++ [s] =
        (g.stamps ++ [g.registered.length]).map (fun n => (g.registered ++ [s]).getD n 0)
      rw [h1, List.map_append]
      congr 1
      · apply List.map_congr_left
        intro n hn
        exact (List.getD_append _ _ _ _ (h3 n hn)).symm
      · simp [List.getD_append_right]
    · show (g.stamps ++ [g.registered.length]).Pairwise _
      rw [List.pairwise_append]
      refine ⟨h2, List.pairwise_singleton _ _, ?_⟩
      intro a ha b hb
      simp only [List.mem_singleton] at hb
      rw [hb]
      exact h3 a ha
    · intro n hn
      show n < (g.registered ++ [s]).length
      have hn1 : n ∈ g.stamps ++ [g.registered.length] := hn
      rw [List.length_append]
      rcases List.mem_append.mp hn1 with h | h
      · have := h3 n h
        omega
      · simp only [List.mem_singleton] at h
        rw [h]
        simp
  | unregister s =>
    refine ⟨?_, ?_, ?_⟩
    · show g.objs.eraseP (fun x => ids x == ids s) =
        (g.stamps.eraseIdx (g.objs.findIdx (fun x => ids x == ids s))).map
          (fun n => g.registered.getD n 0)
      rw [h1]
      exact eraseP_map_eraseIdx _ _ _
    · exact h2.sublist (List.eraseIdx_sublist _ _)
    · intro n hn
      exact h3 n ((List.eraseIdx_sublist _ _).subset hn)

theorem stampUserCall_fresh (ids : Ptr → String) (g : Ledger) (c : UserCall)
    (h : g.fresh = true → (g.objs.map ids).Nodup) :
    (stampUserCall ids g c).fresh = true → ((stampUserCall ids g c).objs.map ids).Nodup := by
  cases c with
  | register s =>
    intro hf
    have hf1 : (g.fresh && !(g.objs.map ids).contains (ids s)) = true := hf
    simp only [Bool.and_eq_true, Bool.not_eq_true', List.contains_eq_any_beq,
      List.any_eq_false] at hf1
    show ((g.objs ++ [s]).map ids).Nodup
    rw [List.map_append]
    apply List.Nodup.append (h hf1.1) (List.nodup_singleton _)
    intro x hx hx1
    simp only [List.map_cons, List.map_nil, List.mem_singleton] at hx1
    rw [hx1] at hx
    have := hf1.2 (ids s) hx
    simp at this
  | unregister s =>
    intro hf
    show ((g.objs.eraseP _).map ids).Nodup
    exact (h hf).sublist ((List.eraseP_sublist _).map _)

theorem stampUserCall_objs (ids : Ptr → String) (g : Ledger) (c : UserCall) :
    (stampUserCall ids g c).objs = applyUserCall ids g.objs c := by
  cases c <;> rfl

theorem stampScript_ordered (ids : Ptr → String) (cs : List UserCall) (g : Ledger)
    (h : g.Ordered) : (stampScript ids g cs).Ordered := by
  induction cs generalizing g with
  | nil => exact h
  | cons c cs ih => exact ih _ (stampUserCall_ordered ids g c h)

theorem stampScript_fresh (ids : Ptr → String) (cs : List UserCall) (g : Ledger)
    (h : g.fresh = true → (g.objs.map ids).Nodup) :
    (stampScript ids g cs).fresh = true → ((stampScript ids g cs).objs.map ids).Nodup := by
  induction cs generalizing g with
  | nil => exact h
  | cons c cs ih => exact ih _ (stampUserCall_fresh ids g c h)

theorem stampScript_objs (ids : Ptr → String) (cs : List UserCall) (g : Ledger) :
    (stampScript ids g cs).objs = applyScript ids cs g.objs := by
  induction cs generalizing g with
  | nil => rfl
  | cons c cs ih =>
    simp only [stampScript, applyScript, List.foldl_cons] at ih ⊢
    rw [ih, stampUserCall_objs]
theorem logScript_nil_of_all (sc : Scripts) (log : List Ev)
    (h : ∀ e ∈ log, enterScript sc e = []) : logScript sc log = [] := by
  induction log with
  | nil => rfl
  | cons e log ih =>
    simp only [logScript, List.map_cons, List.flatten_cons, h e (List.mem_cons_self _ _),
      List.nil_append]
    exact ih (fun x hx => h x (List.mem_cons_of_mem _ hx))

theorem logScript_append (sc : Scripts) (l1 l2 : List Ev) :
    logScript sc (l1 ++ l2) = logScript sc l1 ++ logScript sc l2 := by
  simp [logScript]

theorem teardown_logScript (sc : Scripts) (xs : List Ptr) (w : World) :
    logScript sc (forEach xs teardownShape w).log = [] := by
  apply logScript_nil_of_all
  apply forEach_log_all
  intro obj v e he
  unfold teardownShape at he
  split at he
  · simp at he
    subst he
    rfl
  · simp [Out.ret] at he

theorem teardown_IDs (xs : List Ptr) (w : World) :
    ∀ p, ((forEach xs teardownShape w).w.heap p).ID = (w.heap p).ID := by
  apply forEach_rel (fun a b => ∀ p, (b.heap p).ID = (a.heap p).ID) (fun _ _ => rfl)
    (fun _ _ _ h1 h2 p => (h2 p).trans (h1 p))
  intro obj v p
  unfold teardownShape
  split
  · by_cases hp : p = obj
    · subst hp; simp [setShape, DestroyBody]
    · simp [setShape, DestroyBody, Function.update_noteq hp]
  · rfl

theorem SelectLevel_registry (env : Env) (sc : Scripts) (h : FollowsScripts env sc) (k : Int)
    (v : World) (hk : 0 ≤ k ∧ k < v.Levels.length) :
    (∀ p, ((SelectLevel env k v).w.heap p).ID = (v.heap p).ID) ∧
    (SelectLevel env k v).w.Objects =
      applyScript (fun p => (v.heap p).ID) (logScript sc (SelectLevel env k v).log) [] := by
  have hvalid : ¬ (k < 0 ∨ k ≥ (v.Levels.length : Int)) := by omega
  have hD : (match (v.Levels.getD k.toNat {}).OnDestroy with
        | some id => ({ w := env.hook id { v with CurrentLevel := k },
                        log := [Ev.onDestroy id] } : Out)
        | none => Out.ret { v with CurrentLevel := k }).fail = none := by
    split <;> rfl
  have hDid : ∀ p, ((match (v.Levels.getD k.toNat {}).OnDestroy with
        | some id => ({ w := env.hook id { v with CurrentLevel := k },
                        log := [Ev.onDestroy id] } : Out)
        | none => Out.ret { v with CurrentLevel := k }).w.heap p).ID = (v.heap p).ID := by
    intro p
    split
    · exact h.hookIDs _ _ p
    · rfl
  have hDlog : logScript sc (match (v.Levels.getD k.toNat {}).OnDestroy with
        | some id => ({ w := env.hook id { v with CurrentLevel := k },
                        log := [Ev.onDestroy id] } : Out)
        | none => Out.ret { v with CurrentLevel := k }).log = [] := by
    split <;> rfl
  unfold SelectLevel
  rw [if_neg hvalid]
  dsimp only
  rw [Out.andThen_ok _ _ hD, Out.andThen_ok _ _ (teardown_effect _ _).1]
  dsimp only
  generalize (match (v.Levels.getD k.toNat {}).OnDestroy with
        | some id => ({ w := env.hook id { v with CurrentLevel := k },
                        log := [Ev.onDestroy id] } : Out)
        | none => Out.ret { v with CurrentLevel := k }) = oD at hDid hDlog
  have hT := teardown_IDs oD.w.Objects oD.w
  have hTlog := teardown_logScript sc oD.w.Objects oD.w
  generalize forEach oD.w.Objects teardownShape oD.w = oT at hT hTlog
  obtain ⟨e1, e2⟩ := tracks_enterLevel env sc h (v.Levels.getD k.toNat {})
    (installLevel (v.Levels.getD k.toNat {}) oT.w)
  have hids : (fun p => ((installLevel (v.Levels.getD k.toNat {}) oT.w).heap p).ID) =
      (fun p => (v.heap p).ID) := by
    funext p
    exact (hT p).trans (hDid p)
  refine ⟨fun p => (e1 p).trans ((hT p).trans (hDid p)), ?_⟩
  rw [e2, hids, logScript_append, logScript_append, hDlog, hTlog]
  rfl

theorem runCall_ordered (env : Env) (sc : Scripts) (h : FollowsScripts env sc)
    (c : RegistryCall) (st st1 : Stamped) (hrun : runCall env sc c st = some st1)
    (hord : st.Ordered) (hfresh : st.fresh = true → (registryIDs st.w).Nodup) :
    st1.Ordered ∧ (st1.fresh = true → (registryIDs st1.w).Nodup) := by
  have hg : st.ledger.Ordered := hord
  have hgf : st.ledger.fresh = true → (st.ledger.objs.map st.ids).Nodup := hfresh
  cases c with
  | register s =>
    simp only [runCall] at hrun
    split at hrun
    · cases hrun
      obtain ⟨r1, r2⟩ := Register_registry s st.w
      have ho := stampUserCall_ordered st.ids st.ledger (UserCall.register s) hg
      have hf := stampUserCall_fresh st.ids st.ledger (UserCall.register s) hgf
      refine ⟨⟨?_, ho.2.1, ho.2.2⟩, ?_⟩
      · show (Register s st.w).w.Objects = _
        rw [r1]
        exact ho.1
      · intro hfr
        have := hf hfr
        show (registryIDs (Register s st.w).w).Nodup
        unfold registryIDs
        rw [r1]
        have hids : (fun p => ((Register s st.w).w.heap p).ID) = st.ids := funext r2
        rw [hids]
        exact this
    · cases hrun
  | unregister s =>
    simp only [runCall] at hrun
    cases hrun
    obtain ⟨u1, u2⟩ := Unregister_registry s st.w
    have ho := stampUserCall_ordered st.ids st.ledger (UserCall.unregister s) hg
    have hf := stampUserCall_fresh st.ids st.ledger (UserCall.unregister s) hgf
    refine ⟨⟨?_, ho.2.1, ho.2.2⟩, ?_⟩
    · show (Unregister s st.w).w.Objects = _
      rw [u1]
      exact ho.1
    · intro hfr
      have := hf hfr
      show (registryIDs (Unregister s st.w).w).Nodup
      unfold registryIDs
      rw [u1, u2]
      exact this
  | selectLevel k =>
    simp only [runCall] at hrun
    split at hrun
    · cases hrun
      by_cases hk : k < 0 ∨ k ≥ (st.w.Levels.length : Int)
      · have hs : SelectLevel env k st.w = Out.ret st.w := by
          simp [SelectLevel, hk]
        have hl : stampSelectLevel env sc k st = st.ledger := by
          simp [stampSelectLevel, hk]
        refine ⟨⟨?_, ?_, ?_⟩, ?_⟩
        · show (SelectLevel env k st.w).w.Objects = (stampSelectLevel env sc k st).stamps.map
            (fun n => (stampSelectLevel env sc k st).registered.getD n 0)
          rw [hs, hl]
          exact hord.1
        · show (stampSelectLevel env sc k st).stamps.Pairwise _
          rw [hl]
          exact hord.2.1
        · show ∀ n ∈ (stampSelectLevel env sc k st).stamps,
            n < (stampSelectLevel env sc k st).registered.length
          rw [hl]
          exact hord.2.2
        · show (stampSelectLevel env sc k st).fresh = true →
            (registryIDs (SelectLevel env k st.w).w).Nodup
          rw [hl, hs]
          exact hfresh
      · obtain ⟨s1, s2⟩ := SelectLevel_registry env sc h k st.w (by omega)
        have hg1o : (match (st.w.Levels.getD k.toNat {}).OnDestroy with
            | some id => stampScript st.ids st.ledger (sc.hook id)
            | none => st.ledger).Ordered := by
          split
          · exact stampScript_ordered _ _ _ hg
          · exact hg
        generalize hg1 : (match (st.w.Levels.getD k.toNat {}).OnDestroy with
            | some id => stampScript st.ids st.ledger (sc.hook id)
            | none => st.ledger) = g1 at hg1o
        have hl : stampSelectLevel env sc k st =
            stampScript st.ids { g1 with objs := [], stamps := [] }
              (logScript sc (SelectLevel env k st.w).log) := by
          simp only [stampSelectLevel, if_neg hk, hg1]
        have hreset : ({ g1 with objs := [], stamps := [] } : Ledger).Ordered :=
          ⟨rfl, List.Pairwise.nil, fun n hn => by cases hn⟩
        have ho := stampScript_ordered st.ids (logScript sc (SelectLevel env k st.w).log) _ hreset
        have hf := stampScript_fresh st.ids (logScript sc (SelectLevel env k st.w).log)
          ({ g1 with objs := [], stamps := [] } : Ledger) (fun _ => List.nodup_nil)
        have hobjs := stampScript_objs st.ids (logScript sc (SelectLevel env k st.w).log)
          ({ g1 with objs := [], stamps := [] } : Ledger)
        rw [← hl] at ho hf hobjs
        have hO : (SelectLevel env k st.w).w.Objects = (stampSelectLevel env sc k st).objs := by
          rw [s2, hobjs]
          rfl
        refine ⟨⟨?_, ho.2.1, ho.2.2⟩, ?_⟩
        · show (SelectLevel env k st.w).w.Objects = _
          rw [hO]
          exact ho.1
        · intro hfr
          have := hf hfr
          show (registryIDs (SelectLevel env k st.w).w).Nodup
          unfold registryIDs
          rw [hO]
          have hids : (fun p => ((SelectLevel env k st.w).w.heap p).ID) = st.ids := funext s1
          rw [hids]
          exact this
    · cases hrun

theorem runCalls_ordered (env : Env) (sc : Scripts) (h : FollowsScripts env sc)
    (calls : List RegistryCall) (st st1 : Stamped) (hrun : runCalls env sc calls st = some st1)
    (hord : st.Ordered) (hfresh : st.fresh = true → (registryIDs st.w).Nodup) :
    st1.Ordered ∧ (st1.fresh = true → (registryIDs st1.w).Nodup) := by
  induction calls generalizing st with
  | nil =>
    simp only [runCalls] at hrun
    cases hrun
    exact ⟨hord, hfresh⟩
  | cons c cs ih =>
    simp only [runCalls] at hrun
    cases hc : runCall env sc c st with
    | none => rw [hc] at hrun; cases hrun
    | some st2 =>
      rw [hc] at hrun
      obtain ⟨i1, i2⟩ := runCall_ordered env sc h c st st2 hc hord hfresh
      exact ih st2 hrun i1 i2

theorem spawningEnv_followsScripts : FollowsScripts spawningEnv spawningScripts := by
  refine ⟨?_, ?_, ?_, ?_⟩
  · intro id u
    by_cases hid : id = 21
    · simp [spawningEnv, spawningScripts, hid, runScript, runUserCall]
    · simp [spawningEnv, spawningScripts, hid, runScript]
  · intro id u p
    by_cases hid : id = 21
    · simp only [spawningEnv, hid, if_true]
      exact (Register_registry 5 u).2 p
    · simp [spawningEnv, hid]
  · intro id pos a b u
    rfl
  · intro id pos a b u p
    rfl

/-- C10 (amended). Level hooks and spawn functions whose effect on the
registry is that of the `Register` and `Unregister` calls of their scripts;
any sequence of `Register`, `Unregister` and `SelectLevel` calls that return
normally, from a newly created world with any shapes allocated. The registry
lists shapes in the order they were registered, by the program or by a hook:
it is the list of all registered shapes read at stamps that increase strictly
along the registry. If every `Register` call made, by the program or by a
hook, was for a shape whose ID was not in the registry at that moment, no two
registry entries have the same ID. -/
theorem registry_in_registration_order (env : Env) (sc : Scripts)
    (hsc : FollowsScripts env sc) (props : WorldProps) (now : ℚ) (shapes : Ptr → Shape)
    (calls : List RegistryCall) (st : Stamped)
    (hrun : runCalls env sc calls (newStamped props now shapes) = some st) :
    st.w.Objects = st.stamps.map (fun n => st.registered.getD n 0) ∧
    st.stamps.Pairwise (fun a b => a < b) ∧
    (∀ n ∈ st.stamps, n < st.registered.length) ∧
    (st.fresh = true → (registryIDs st.w).Nodup) := by
  obtain ⟨⟨h1, h2, h3⟩, h4⟩ := runCalls_ordered env sc hsc calls _ st hrun
    ⟨rfl, List.Pairwise.nil, fun n hn => by cases hn⟩ (fun _ => List.nodup_nil)
  exact ⟨h1, h2, h3, h4⟩

theorem registry_in_registration_order_witness :
    ∃ st : Stamped,
      runCalls spawningEnv spawningScripts sampleCalls (newStamped lobbyProps 0 lobbyShapes)
        = some st ∧
      st.w.Objects = [1] ∧ st.stamps = [3] ∧ st.registered = [0, 1, 5, 1] ∧ st.fresh = true ∧
      st.w.Objects = st.stamps.map (fun n => st.registered.getD n 0) ∧
      st.stamps.Pairwise (fun a b => a < b) ∧
      (registryIDs st.w).Nodup ∧
      ((runCalls spawningEnv spawningScripts
        [RegistryCall.register 0, RegistryCall.register 1, RegistryCall.selectLevel 0,
         RegistryCall.register 1] (newStamped lobbyProps 0 lobbyShapes)).map
          (fun s => (s.w.Objects, s.stamps, s.registered))) =
        some ([5, 1], [2, 3], [0, 1, 5, 1]) := by
  have hsome : (runCalls spawningEnv spawningScripts sampleCalls
      (newStamped lobbyProps 0 lobbyShapes)).isSome = true := by decide
  obtain ⟨st, hst⟩ := Option.isSome_iff_exists.mp hsome
  have hvals : (runCalls spawningEnv spawningScripts sampleCalls
      (newStamped lobbyProps 0 lobbyShapes)).map
        (fun s => (s.w.Objects, s.stamps, s.registered, s.fresh))
      = some ([1], [3], [0, 1, 5, 1], true) := by decide
  rw [hst] at hvals
  simp only [Option.map_some', Option.some.injEq, Prod.mk.injEq] at hvals
  obtain ⟨h1, h2, h3, h4⟩ := registry_in_registration_order spawningEnv spawningScripts
    spawningEnv_followsScripts lobbyProps 0 lobbyShapes sampleCalls st hst
  exact ⟨st, hst, hvals.1, hvals.2.1, hvals.2.2.1, hvals.2.2.2, h1, h2, h4 hvals.2.2.2,
    by decide⟩

/-! ### Update with a pending switch -/

theorem Update_reads_pending (env : Env) (fr : Frame) (w : World) (hp : w.Paused = false)
    (hfix : ∀ v dt c, ContactCb.postSolve c ∈ env.stepContacts v dt →
      c.fixtureA ≠ none ∧ c.fixtureB ≠ none) :
    ∃ w1 l1 w2 l2,
      physicsStep env (elapsed w fr.now) { w with lastUpdate := some fr.now } =
        { w := w1, log := l1, fail := none } ∧
      processCollisions env w1 = { w := w2, log := l2, fail := none } ∧
      Untouched w w1 ∧
      (∀ k, w2.pendingLevelSwitch = some k →
        Update env fr w =
          { w := (SelectLevel env k { w2 with pendingLevelSwitch := none }).w
            log := l1 ++ l2 ++ (SelectLevel env k { w2 with pendingLevelSwitch := none }).log
            fail := (SelectLevel env k { w2 with pendingLevelSwitch := none }).fail } ∧
        ∀ e ∈ (Update env fr w).log, Ev.isFrameTail e = false) := by
  have h1f := physicsStep_fail_none env (elapsed w fr.now) { w with lastUpdate := some fr.now }
    (hfix _ _)
  have h1k : Untouched w (physicsStep env (elapsed w fr.now)
      { w with lastUpdate := some fr.now }).w :=
    untouched_trans (⟨rfl, fun _ => rfl, rfl, rfl, rfl⟩ :
      Untouched w { w with lastUpdate := some fr.now })
      (physicsStep_untouched env (elapsed w fr.now) { w with lastUpdate := some fr.now })
  have h1l := physicsStep_log env (elapsed w fr.now) { w with lastUpdate := some fr.now }
  generalize ho1 : physicsStep env (elapsed w fr.now) { w with lastUpdate := some fr.now } = o1
    at h1f h1k h1l
  obtain ⟨w1, l1, f1⟩ := o1
  simp only at h1f h1k h1l
  subst h1f
  have h2f := processCollisions_fail_none env w1
  have h2l := processCollisions_log env w1
  generalize ho2 : processCollisions env w1 = o2 at h2f h2l
  obtain ⟨w2, l2, f2⟩ := o2
  simp only at h2f h2l
  subst h2f
  refine ⟨w1, l1, w2, l2, rfl, ho2, h1k, ?_⟩
  intro k hk
  have hU : Update env fr w =
      { w := (SelectLevel env k { w2 with pendingLevelSwitch := none }).w
        log := l1 ++ l2 ++ (SelectLevel env k { w2 with pendingLevelSwitch := none }).log
        fail := (SelectLevel env k { w2 with pendingLevelSwitch := none }).fail } := by
    unfold Update
    rw [if_neg (by rw [hp]; decide)]
    dsimp only
    rw [ho1, Out.andThen_ok _ _ rfl]
    simp only []
    rw [ho2, Out.andThen_ok _ _ rfl]
    simp only [hk, List.append_assoc]
  refine ⟨hU, ?_⟩
  rw [hU]
  intro e he
  simp only [List.mem_append] at he
  rcases he with (he | he) | he
  · exact h1l e he
  · exact h2l e he
  · exact SelectLevel_log env k _ e he

/-- C4 (counterexample). Level 0 active, a switch to level 1 pending, one
queued collision, and a collision handler on the world emitter that calls
`SwitchToLevel(0)`. `Update` dispatches the collision, the handler overwrites
the pending request, and the switch applied is the one to level 0: level 0
is current afterwards and the init hook of level 1 (hook 21) is not
called. -/
theorem Update_applies_switch_requested_by_handler :
    contestedWorld.Paused = false ∧ contestedWorld.pendingLevelSwitch = some 1 ∧
    (0 ≤ (1 : Int) ∧ (1 : Int) < contestedWorld.Levels.length) ∧
    (Update meddlingEnv idleFrame contestedWorld).fail = none ∧
    (Update meddlingEnv idleFrame contestedWorld).log =
      [Ev.physicsStep (elapsed contestedWorld idleFrame.now),
       Ev.emit none EventCollision (Payload.collision 0 0),
       Ev.handler 7 (Payload.collision 0 0),
       Ev.onDestroy 10, Ev.destroyBody 0, Ev.init 20] ∧
    (Update meddlingEnv idleFrame contestedWorld).w.CurrentLevel = 0 ∧
    Ev.init 21 ∉ (Update meddlingEnv idleFrame contestedWorld).log := by
  have hlog : (Update meddlingEnv idleFrame contestedWorld).log =
      [Ev.physicsStep (elapsed contestedWorld idleFrame.now),
       Ev.emit none EventCollision (Payload.collision 0 0),
       Ev.handler 7 (Payload.collision 0 0),
       Ev.onDestroy 10, Ev.destroyBody 0, Ev.init 20] := rfl
  refine ⟨by decide, by decide, by decide, rfl, hlog, rfl, ?_⟩
  rw [hlog]
  simp

/-- C4 (amended). An unpaused world with a pending switch to a valid level
`j` and an engine that hands `PostSolve` contacts with two fixtures. One
`Update` steps the physics, dispatches the queue, and then applies the switch
that is pending at that moment, on the world with the request cleared: the
log of the call is the log of the step, of the dispatch and of that
`SelectLevel`, with no shape `Update`, no `Tick` call and no input sampling.
The switch applied is the one to `j` when the event handlers and collision
callbacks leave the pending switch and the level table alone. -/
theorem Update_applies_pending_switch_and_skips_rest (env : Env) (fr : Frame) (w : World)
    (j : Int) (hp : w.Paused = false) (hpend : w.pendingLevelSwitch = some j)
    (hj : 0 ≤ j ∧ j < w.Levels.length)
    (hfix : ∀ v dt c, ContactCb.postSolve c ∈ env.stepContacts v dt →
      c.fixtureA ≠ none ∧ c.fixtureB ≠ none) :
    ∃ w1 l1 w2 l2,
      physicsStep env (elapsed w fr.now) { w with lastUpdate := some fr.now } =
        { w := w1, log := l1, fail := none } ∧
      processCollisions env w1 = { w := w2, log := l2, fail := none } ∧
      (∀ k, w2.pendingLevelSwitch = some k →
        Update env fr w =
          { w := (SelectLevel env k { w2 with pendingLevelSwitch := none }).w
            log := l1 ++ l2 ++ (SelectLevel env k { w2 with pendingLevelSwitch := none }).log
            fail := (SelectLevel env k { w2 with pendingLevelSwitch := none }).fail } ∧
        ∀ e ∈ (Update env fr w).log, Ev.isFrameTail e = false) ∧
      ((∀ id d v, SwitchKept v (env.handler id d v)) →
        (∀ id p v, SwitchKept v (env.onCollision id p v)) →
        w2.pendingLevelSwitch = some j ∧ (0 ≤ j ∧ j < w2.Levels.length) ∧
        Update env fr w =
          { w := (SelectLevel env j { w2 with pendingLevelSwitch := none }).w
            log := l1 ++ l2 ++ (SelectLevel env j { w2 with pendingLevelSwitch := none }).log
            fail := (SelectLevel env j { w2 with pendingLevelSwitch := none }).fail } ∧
        ∀ e ∈ (Update env fr w).log, Ev.isFrameTail e = false) := by
  obtain ⟨w1, l1, w2, l2, h1, h2, h1k, hU⟩ := Update_reads_pending env fr w hp hfix
  refine ⟨w1, l1, w2, l2, h1, h2, hU, ?_⟩
  intro hh hc
  have h2k := processCollisions_rel SwitchKept switchKept_refl (fun _ _ _ => switchKept_trans)
    (fun _ _ h => untouched_switchKept h) env hh hc w1
  rw [h2] at h2k
  have hpend2 : w2.pendingLevelSwitch = some j := by
    rw [h2k.pending, h1k.pending]
    exact hpend
  have hlev2 : w2.Levels = w.Levels := by
    rw [h2k.levels, h1k.levels]
  exact ⟨hpend2, by rw [hlev2]; exact hj, (hU j hpend2).1, (hU j hpend2).2⟩

theorem Update_applies_pending_switch_and_skips_rest_witness :
    pendingWorld.Paused = false ∧ pendingWorld.pendingLevelSwitch = some 1 ∧
    (0 ≤ (1 : Int) ∧ (1 : Int) < pendingWorld.Levels.length) ∧
    (∀ e ∈ (Update idleEnv idleFrame pendingWorld).log, Ev.isFrameTail e = false) ∧
    (Update idleEnv idleFrame pendingWorld).log =
      [Ev.physicsStep (elapsed pendingWorld idleFrame.now),
       Ev.emit none EventCollision (Payload.collision 0 0),
       Ev.onDestroy 11, Ev.destroyBody 0, Ev.init 21] ∧
    (Update idleEnv idleFrame pendingWorld).w.pendingLevelSwitch = none ∧
    (Update idleEnv idleFrame pendingWorld).w.CurrentLevel = 1 :=
  ⟨by decide, by decide, by decide,
   (Update_applies_pending_switch_and_skips_rest idleEnv idleFrame pendingWorld 1
      (by decide) (by decide) (by decide) (fun _ _ c hc => by simp [idleEnv] at hc)).elim
      (fun _ h1 => h1.elim (fun _ h2 => h2.elim (fun _ h3 => h3.elim
        (fun _ h4 => (h4.2.2.2 (fun _ _ _ => ⟨rfl, rfl⟩) (fun _ _ _ => ⟨rfl, rfl⟩)).2.2.2)))),
   rfl, rfl, rfl⟩
/-! ### Two requests, then Update -/

/-- C3 (counterexample). Three levels, level 0 active, one queued collision
and a collision handler on the world emitter that calls `SwitchToLevel(0)`.
After `SwitchToLevel(1); SwitchToLevel(2)` the pending switch is 2, yet the
next `Update` applies level 0: the handler runs in the dispatch of the queue,
before the pending switch is read. The init hook of level 2 (hook 22) is not
called. On the same world paused, `Update` returns at once and applies no
switch. -/
theorem Update_after_two_requests_applies_handler_request :
    (0 ≤ (1 : Int) ∧ (1 : Int) < crossroadsWorld.Levels.length) ∧
    (0 ≤ (2 : Int) ∧ (2 : Int) < crossroadsWorld.Levels.length) ∧
    (SwitchToLevel 2 (SwitchToLevel 1 crossroadsWorld)).pendingLevelSwitch = some 2 ∧
    (Update meddlingEnv idleFrame (SwitchToLevel 2 (SwitchToLevel 1 crossroadsWorld))).fail =
      none ∧
    (Update meddlingEnv idleFrame (SwitchToLevel 2 (SwitchToLevel 1 crossroadsWorld))).log =
      [Ev.physicsStep (elapsed crossroadsWorld idleFrame.now),
       Ev.emit none EventCollision (Payload.collision 0 0),
       Ev.handler 7 (Payload.collision 0 0),
       Ev.onDestroy 10, Ev.destroyBody 0, Ev.init 20] ∧
    (Update meddlingEnv idleFrame
      (SwitchToLevel 2 (SwitchToLevel 1 crossroadsWorld))).w.CurrentLevel = 0 ∧
    Ev.init 22 ∉
      (Update meddlingEnv idleFrame (SwitchToLevel 2 (SwitchToLevel 1 crossroadsWorld))).log ∧
    (Update idleEnv idleFrame
      (SwitchToLevel 2 (SwitchToLevel 1 { crossroadsWorld with Paused := true }))).log = [] ∧
    (Update idleEnv idleFrame
      (SwitchToLevel 2 (SwitchToLevel 1 { crossroadsWorld with Paused := true }))).w.CurrentLevel
      = 0 := by
  have hlog :
      (Update meddlingEnv idleFrame (SwitchToLevel 2 (SwitchToLevel 1 crossroadsWorld))).log =
      [Ev.physicsStep (elapsed crossroadsWorld idleFrame.now),
       Ev.emit none EventCollision (Payload.collision 0 0),
       Ev.handler 7 (Payload.collision 0 0),
       Ev.onDestroy 10, Ev.destroyBody 0, Ev.init 20] := rfl
  refine ⟨by decide, by decide, rfl, rfl, hlog, rfl, ?_, rfl, rfl⟩
  rw [hlog]
  simp

/-- C3 (amended). For a valid index `i`, `SwitchToLevel i` only writes the
pending switch: the result is the same world with `pendingLevelSwitch = some
i` (so the active level, the registry, the installed Tick and Render
functions and the collision queue are unchanged; the function takes no
environment, so it calls no hook). A second request overwrites the first. The
next `Update` returns at once, leaving the request pending, when the world is
paused; otherwise it steps the physics, dispatches the queue and applies the
switch that is pending after the dispatch, which is the last request `i`
when event handlers and collision callbacks leave the pending switch and the
level table alone. One `SelectLevel` is run, none for the overwritten
request. -/
theorem SwitchToLevel_records_last_request (env : Env) (fr : Frame) (w : World) (i : Int)
    (hi : 0 ≤ i ∧ i < w.Levels.length) :
    SwitchToLevel i w = { w with pendingLevelSwitch := some i } ∧
    (SwitchToLevel i w).pendingLevelSwitch = some i ∧
    (SwitchToLevel i w).CurrentLevel = w.CurrentLevel ∧
    (SwitchToLevel i w).Objects = w.Objects ∧
    (SwitchToLevel i w).Tick = w.Tick ∧
    (SwitchToLevel i w).Render = w.Render ∧
    (SwitchToLevel i w).collisionQueue = w.collisionQueue ∧
    ∀ a : Int, 0 ≤ a ∧ a < w.Levels.length →
      SwitchToLevel i (SwitchToLevel a w) = SwitchToLevel i w ∧
      (SwitchToLevel i (SwitchToLevel a w)).pendingLevelSwitch = some i ∧
      (w.Paused = true →
        Update env fr (SwitchToLevel i (SwitchToLevel a w)) =
          { w := SwitchToLevel i (SwitchToLevel a w), log := [], fail := none }) ∧
      (w.Paused = false →
        (∀ v dt c, ContactCb.postSolve c ∈ env.stepContacts v dt →
          c.fixtureA ≠ none ∧ c.fixtureB ≠ none) →
        ∃ w1 l1 w2 l2,
          physicsStep env (elapsed w fr.now)
            { SwitchToLevel i (SwitchToLevel a w) with lastUpdate := some fr.now } =
            { w := w1, log := l1, fail := none } ∧
          processCollisions env w1 = { w := w2, log := l2, fail := none } ∧
          (∀ k, w2.pendingLevelSwitch = some k →
            Update env fr (SwitchToLevel i (SwitchToLevel a w)) =
              { w := (SelectLevel env k { w2 with pendingLevelSwitch := none }).w
                log := l1 ++ l2 ++
                  (SelectLevel env k { w2 with pendingLevelSwitch := none }).log
                fail := (SelectLevel env k { w2 with pendingLevelSwitch := none }).fail }) ∧
          ((∀ id d v, SwitchKept v (env.handler id d v)) →
            (∀ id p v, SwitchKept v (env.onCollision id p v)) →
            w2.pendingLevelSwitch = some i ∧ w2.Levels = w.Levels ∧
            Update env fr (SwitchToLevel i (SwitchToLevel a w)) =
              { w := (SelectLevel env i { w2 with pendingLevelSwitch := none }).w
                log := l1 ++ l2 ++
                  (SelectLevel env i { w2 with pendingLevelSwitch := none }).log
                fail :=
                  (SelectLevel env i { w2 with pendingLevelSwitch := none }).fail })) := by
  have hv : ∀ (k : Int) (v : World), v.Levels = w.Levels → 0 ≤ k ∧ k < w.Levels.length →
      SwitchToLevel k v = { v with pendingLevelSwitch := some k } := by
    intro k v hv hk
    have : ¬ (k < 0 ∨ k ≥ (v.Levels.length : Int)) := by
      rw [hv]; omega
    simp [SwitchToLevel, this]
  have h1 := hv i w rfl hi
  refine ⟨h1, ?_, ?_, ?_, ?_, ?_, ?_, ?_⟩
  · rw [h1]
  · rw [h1]
  · rw [h1]
  · rw [h1]
  · rw [h1]
  · rw [h1]
  · intro a ha
    have h2 := hv a w rfl ha
    have h3 : SwitchToLevel i (SwitchToLevel a w) = SwitchToLevel i w := by
      rw [h2, h1]
      exact hv i _ rfl hi
    have hpa : (SwitchToLevel i (SwitchToLevel a w)).Paused = w.Paused := by
      rw [h3, h1]
    have hpe : (SwitchToLevel i (SwitchToLevel a w)).pendingLevelSwitch = some i := by
      rw [h3, h1]
    have hle : (SwitchToLevel i (SwitchToLevel a w)).Levels = w.Levels := by
      rw [h3, h1]
    have hlu : (SwitchToLevel i (SwitchToLevel a w)).lastUpdate = w.lastUpdate := by
      rw [h3, h1]
    refine ⟨h3, hpe, ?_, ?_⟩
    · intro hp
      unfold Update
      rw [if_pos (by rw [hpa, hp])]
      rfl
    · intro hp hfix
      have hel : elapsed (SwitchToLevel i (SwitchToLevel a w)) fr.now = elapsed w fr.now := by
        unfold elapsed
        rw [hlu]
      obtain ⟨w1, l1, w2, l2, e1, e2, h1k, hU⟩ :=
        Update_reads_pending env fr (SwitchToLevel i (SwitchToLevel a w))
          (by rw [hpa]; exact hp) hfix
      rw [hel] at e1
      refine ⟨w1, l1, w2, l2, e1, e2, fun k hk => (hU k hk).1, ?_⟩
      intro hh hc
      have h2k := processCollisions_rel SwitchKept switchKept_refl
        (fun _ _ _ => switchKept_trans) (fun _ _ h => untouched_switchKept h) env hh hc w1
      rw [e2] at h2k
      have hpend2 : w2.pendingLevelSwitch = some i := by
        rw [h2k.pending, h1k.pending]
        exact hpe
      exact ⟨hpend2, by rw [h2k.levels, h1k.levels, hle], (hU i hpend2).1⟩

theorem SwitchToLevel_records_last_request_witness :
    (0 ≤ (2 : Int) ∧ (2 : Int) < crossroadsWorld.Levels.length) ∧
    (0 ≤ (1 : Int) ∧ (1 : Int) < crossroadsWorld.Levels.length) ∧
    SwitchToLevel 2 crossroadsWorld = { crossroadsWorld with pendingLevelSwitch := some 2 } ∧
    (SwitchToLevel 2 (SwitchToLevel 1 crossroadsWorld)).pendingLevelSwitch = some 2 ∧
    (∃ (w2 : World) (l : List Ev), w2.pendingLevelSwitch = some 2 ∧
      Update idleEnv idleFrame (SwitchToLevel 2 (SwitchToLevel 1 crossroadsWorld)) =
        { w := (SelectLevel idleEnv 2 { w2 with pendingLevelSwitch := none }).w
          log := l ++ (SelectLevel idleEnv 2 { w2 with pendingLevelSwitch := none }).log
          fail := (SelectLevel idleEnv 2 { w2 with pendingLevelSwitch := none }).fail }) ∧
    (Update idleEnv idleFrame (SwitchToLevel 2 (SwitchToLevel 1 crossroadsWorld))).log =
      [Ev.physicsStep (elapsed crossroadsWorld idleFrame.now),
       Ev.emit none EventCollision (Payload.collision 0 0),
       Ev.handler 7 (Payload.collision 0 0),
       Ev.onDestroy 12, Ev.destroyBody 0, Ev.init 22] ∧
    (Update idleEnv idleFrame
      (SwitchToLevel 2 (SwitchToLevel 1 crossroadsWorld))).w.CurrentLevel = 2 ∧
    (Update idleEnv idleFrame
      (SwitchToLevel 2 (SwitchToLevel 1 crossroadsWorld))).w.pendingLevelSwitch = none :=
  ⟨by decide, by decide,
   (SwitchToLevel_records_last_request idleEnv idleFrame crossroadsWorld 2 (by decide)).1,
   ((SwitchToLevel_records_last_request idleEnv idleFrame crossroadsWorld 2
      (by decide)).2.2.2.2.2.2.2 1 (by decide)).2.1,
   (((SwitchToLevel_records_last_request idleEnv idleFrame crossroadsWorld 2
      (by decide)).2.2.2.2.2.2.2 1 (by decide)).2.2.2 (by decide)
      (fun _ _ c hc => by simp [idleEnv] at hc)).elim
      (fun _ h1 => h1.elim (fun l1 h2 => h2.elim (fun w2 h3 => h3.elim
        (fun l2 h4 => ⟨w2, l1 ++ l2,
          (h4.2.2.2 (fun _ _ _ => ⟨rfl, rfl⟩) (fun _ _ _ => ⟨rfl, rfl⟩)).1,
          (h4.2.2.2 (fun _ _ _ => ⟨rfl, rfl⟩) (fun _ _ _ => ⟨rfl, rfl⟩)).2.2⟩)))),
   rfl, rfl, rfl⟩
/-! ### SwitchToLevel, then Update -/

theorem held_refl (S : List Ptr) (a : World) : Held S a a :=
  ⟨fun _ _ h => h, fun _ _ _ => rfl⟩

theorem held_trans {S : List Ptr} {a b c : World} (h1 : Held S a b) (h2 : Held S b c) :
    Held S a c :=
  ⟨fun p hp h => h2.objects p hp (h1.objects p hp h),
   fun p hp h => by rw [h2.body p hp (h1.objects p hp h), h1.body p hp h]⟩

theorem untouched_held {S : List Ptr} {a b : World} (h : Untouched a b) : Held S a b :=
  ⟨fun p _ hp => by rw [h.objects]; exact hp, fun p _ _ => h.body p⟩

theorem applyScript_mem (ids : Ptr → String) (cs : List UserCall) (objs : List Ptr) (p : Ptr)
    (h : p ∈ applyScript ids cs objs) : p ∈ objs ∨ UserCall.register p ∈ cs := by
  induction cs generalizing objs with
  | nil => exact Or.inl h
  | cons c cs ih =>
    have h1 : p ∈ applyScript ids cs (applyUserCall ids objs c) := h
    rcases ih _ h1 with h2 | h2
    · cases c with
      | register s =>
        have h3 : p ∈ objs ++ [s] := h2
        rcases List.mem_append.mp h3 with h4 | h4
        · exact Or.inl h4
        · have h5 : p = s := by simpa using h4
          subst h5
          exact Or.inr (List.mem_cons_self _ _)
      | unregister s =>
        exact Or.inl (List.mem_of_mem_eraseP h2)
    · exact Or.inr (List.mem_cons_of_mem _ h2)

/-- The calls of `enterLevel` for a level whose init function is not the
default one of `NewWorld`: the init hook, then the spawn functions of the
map, then the mount hook; the call returns normally. -/
theorem enterLevel_order (env : Env) (level : Level) (w : World)
    (hI : level.Init ≠ some InitFn.defaultInit) :
    (enterLevel env level w).fail = none ∧
    (enterLevel env level w).log =
      (match level.Init with
        | some (InitFn.user id) => [Ev.init id]
        | _ => []) ++
      (GenerateLevelFromMap env level.Map level.MapItems
        (match level.Init with
          | some (InitFn.user id) => env.hook id w
          | _ => w)).log ++
      (match level.OnMount with
        | some id => [Ev.onMount id]
        | none => []) := by
  have hinit : (match level.Init with
        | some f => callInit env env.maxDepth f w
        | none => Out.ret w) =
      { w := (match level.Init with
          | some (InitFn.user id) => env.hook id w
          | _ => w)
        log := (match level.Init with
          | some (InitFn.user id) => [Ev.init id]
          | _ => [])
        fail := none } := by
    cases hf : level.Init with
    | none => rfl
    | some f =>
      cases f with
      | user id => simp [callInit]
      | defaultInit => exact absurd hf hI
  unfold enterLevel
  rw [hinit, Out.andThen_ok _ _ rfl]
  dsimp only
  have hg := (GenerateLevelFromMap_log_eq env level.Map level.MapItems
    (match level.Init with
      | some (InitFn.user id) => env.hook id w
      | _ => w)).1
  rw [Out.andThen_ok _ _ hg]
  dsimp only
  cases level.OnMount with
  | none => simp [Out.ret]
  | some id => simp

/-- Function `SelectLevel` at a valid index: the destroy hook leaves the
world `wd`, every shape in the registry of `wd` loses its body, the registry
is emptied, and the level is entered from that state `wt`. -/
theorem SelectLevel_teardown (env : Env) (j : Int) (v : World)
    (hj : 0 ≤ j ∧ j < v.Levels.length) :
    ∃ wd wt lt,
      (∀ S, (∀ id, (v.Levels.getD j.toNat {}).OnDestroy = some id →
        ∀ u, Held S u (env.hook id u)) → Held S v wd) ∧
      wt.Objects = [] ∧
      (∀ p ∈ wd.Objects, (wt.heap p).Body = none) ∧
      (∀ p ∈ wd.Objects, ∀ b, (wd.heap p).Body = some b →
        b ∉ wt.liveBodies ∧ Ev.destroyBody b ∈ lt) ∧
      SelectLevel env j v =
        { w := (enterLevel env (v.Levels.getD j.toNat {}) wt).w
          log := lt ++ (enterLevel env (v.Levels.getD j.toNat {}) wt).log
          fail := (enterLevel env (v.Levels.getD j.toNat {}) wt).fail } := by
  have hvalid : ¬ (j < 0 ∨ j ≥ (v.Levels.length : Int)) := by omega
  -- the destroy hook
  have hD : ∃ wd ld,
      (∀ S, (∀ id, (v.Levels.getD j.toNat {}).OnDestroy = some id →
        ∀ u, Held S u (env.hook id u)) → Held S v wd) ∧
      (match (v.Levels.getD j.toNat {}).OnDestroy with
        | some id => ({ w := env.hook id { v with CurrentLevel := j },
                        log := [Ev.onDestroy id] } : Out)
        | none => Out.ret { v with CurrentLevel := j }) = { w := wd, log := ld, fail := none } := by
    cases hod : (v.Levels.getD j.toNat {}).OnDestroy with
    | none =>
      exact ⟨{ v with CurrentLevel := j }, [], fun S _ => ⟨fun _ _ h => h, fun _ _ _ => rfl⟩,
        rfl⟩
    | some id =>
      refine ⟨env.hook id { v with CurrentLevel := j }, [Ev.onDestroy id], fun S hd => ?_, rfl⟩
      have h1 := hd id rfl { v with CurrentLevel := j }
      exact ⟨fun p hp h => h1.objects p hp h, fun p hp h => h1.body p hp h⟩
  obtain ⟨wd, ld, hH, hDeq⟩ := hD
  obtain ⟨t1, t2, t3, t4, t5, t6⟩ := teardown_effect wd.Objects wd
  generalize hoT : forEach wd.Objects teardownShape wd = oT at t1 t2 t3 t4 t5 t6
  obtain ⟨w3, l3, f3⟩ := oT
  simp only at t1 t2 t3 t4 t5 t6
  subst t1
  refine ⟨wd, installLevel (v.Levels.getD j.toNat {}) w3, ld ++ l3, hH, rfl, ?_, ?_, ?_⟩
  · intro p hp
    show (w3.heap p).Body = none
    rw [t4]
    simp [hp]
  · intro p hp b hb
    constructor
    · intro hmem
      exact (t5 b hmem).2 p hp hb
    · apply List.mem_append_right
      exact t6 p hp b hb
  · unfold SelectLevel
    rw [if_neg hvalid]
    dsimp only
    rw [hDeq, Out.andThen_ok _ _ rfl]
    dsimp only
    rw [hoT, Out.andThen_ok _ _ rfl]
    simp only [List.append_assoc]

/-- C2 (counterexample). World `crowdedWorld`: level 0 active, live shapes
0, 1, 2 with bodies 0, 1, 2, a valid level 1, one queued collision and a
collision handler on the world emitter; `SwitchToLevel(1)`, then one unpaused
`Update`. Four runs, each with one piece of user code that is not idle.
(1) The collision handler calls `Unregister` on shape 0: the shape has left
the registry when the teardown runs, and its body reference is still set
afterwards. (2) The destroy hook run by the switch calls `Unregister` on
shape 1: its body reference is still set afterwards. (3) The collision
handler calls `SwitchToLevel(0)`: level 0 is entered, the init hook of level
1 is not called. (4) The init hook of level 1 registers shape 0: a previously
live shape is in the registry afterwards. -/
theorem Update_after_SwitchToLevel_keeps_reference_or_shape :
    crowdedWorld.Paused = false ∧ crowdedWorld.CurrentLevel = 0 ∧
    crowdedWorld.Objects = [0, 1, 2] ∧
    (0 ≤ (1 : Int) ∧ (1 : Int) < crowdedWorld.Levels.length) ∧
    ((Update dodgingEnv idleFrame (SwitchToLevel 1 crowdedWorld)).fail = none ∧
      (Update dodgingEnv idleFrame (SwitchToLevel 1 crowdedWorld)).log =
        [Ev.physicsStep (elapsed crowdedWorld idleFrame.now),
         Ev.emit none EventCollision (Payload.collision 0 1),
         Ev.handler 7 (Payload.collision 0 1),
         Ev.onDestroy 11, Ev.destroyBody 1, Ev.destroyBody 2, Ev.init 21] ∧
      ((Update dodgingEnv idleFrame (SwitchToLevel 1 crowdedWorld)).w.heap 0).Body = some 0) ∧
    ((Update desertingEnv idleFrame (SwitchToLevel 1 crowdedWorld)).fail = none ∧
      (Update desertingEnv idleFrame (SwitchToLevel 1 crowdedWorld)).log =
        [Ev.physicsStep (elapsed crowdedWorld idleFrame.now),
         Ev.emit none EventCollision (Payload.collision 0 1),
         Ev.handler 7 (Payload.collision 0 1),
         Ev.onDestroy 11, Ev.destroyBody 0, Ev.destroyBody 2, Ev.init 21] ∧
      ((Update desertingEnv idleFrame (SwitchToLevel 1 crowdedWorld)).w.heap 1).Body =
        some 1) ∧
    ((Update meddlingEnv idleFrame (SwitchToLevel 1 crowdedWorld)).fail = none ∧
      (Update meddlingEnv idleFrame (SwitchToLevel 1 crowdedWorld)).log =
        [Ev.physicsStep (elapsed crowdedWorld idleFrame.now),
         Ev.emit none EventCollision (Payload.collision 0 1),
         Ev.handler 7 (Payload.collision 0 1),
         Ev.onDestroy 10, Ev.destroyBody 0, Ev.destroyBody 1, Ev.destroyBody 2,
         Ev.init 20] ∧
      (Update meddlingEnv idleFrame (SwitchToLevel 1 crowdedWorld)).w.CurrentLevel = 0) ∧
    ((Update revivingEnv idleFrame (SwitchToLevel 1 crowdedWorld)).fail = none ∧
      (Update revivingEnv idleFrame (SwitchToLevel 1 crowdedWorld)).log =
        [Ev.physicsStep (elapsed crowdedWorld idleFrame.now),
         Ev.emit none EventCollision (Payload.collision 0 1),
         Ev.handler 7 (Payload.collision 0 1),
         Ev.onDestroy 11, Ev.destroyBody 0, Ev.destroyBody 1, Ev.destroyBody 2,
         Ev.init 21] ∧
      (Update revivingEnv idleFrame (SwitchToLevel 1 crowdedWorld)).w.Objects = [0] ∧
      ((Update revivingEnv idleFrame (SwitchToLevel 1 crowdedWorld)).w.heap 0).Body =
        some 3) :=
  ⟨by decide, rfl, rfl, by decide, ⟨rfl, rfl, rfl⟩, ⟨rfl, rfl, rfl⟩, ⟨rfl, rfl, rfl⟩,
   ⟨rfl, rfl, rfl, rfl⟩⟩

/-- C2 (amended). An unpaused world, a valid level `j`, an engine that hands
`PostSolve` contacts with two fixtures, event handlers and collision
callbacks that leave the pending switch and the level table alone, and user
code run before the teardown (event handlers, collision callbacks, the
destroy hook that `SelectLevel` calls) that takes no previously live shape
out of the registry and changes none of their body references. After
`SwitchToLevel j` and one `Update` there is a torn-down world `wt` with an
empty registry in which every previously live shape has no body reference
and its former body is no longer in the physics world (its destruction is in
the log before the level is entered); the call is the entering of level `j`
from `wt`: its init hook, then the spawn functions of its map, then its mount
hook. When those hooks and spawn functions act on the registry through the
`Register` and `Unregister` calls of their scripts, the registry afterwards
is what these calls, in that order, make of the empty registry, and a
previously live shape is in it only if one of them registers it again. -/
theorem Update_after_SwitchToLevel_rebuilds_registry (env : Env) (fr : Frame) (w : World)
    (j : Int) (hp : w.Paused = false) (hj : 0 ≤ j ∧ j < w.Levels.length)
    (hfix : ∀ v dt c, ContactCb.postSolve c ∈ env.stepContacts v dt →
      c.fixtureA ≠ none ∧ c.fixtureB ≠ none)
    (hh : ∀ id d v, SwitchKept v (env.handler id d v) ∧ Held w.Objects v (env.handler id d v))
    (hc : ∀ id p v,
      SwitchKept v (env.onCollision id p v) ∧ Held w.Objects v (env.onCollision id p v))
    (hd : ∀ id, (w.Levels.getD j.toNat {}).OnDestroy = some id →
      ∀ v, Held w.Objects v (env.hook id v)) :
    ∃ (wt : World) (pre : List Ev),
      wt.Objects = [] ∧
      (∀ p ∈ w.Objects, (wt.heap p).Body = none) ∧
      (∀ p ∈ w.Objects, ∀ b, (w.heap p).Body = some b →
        b ∉ wt.liveBodies ∧ Ev.destroyBody b ∈ pre) ∧
      Update env fr (SwitchToLevel j w) =
        { w := (enterLevel env (w.Levels.getD j.toNat {}) wt).w
          log := pre ++ (enterLevel env (w.Levels.getD j.toNat {}) wt).log
          fail := (enterLevel env (w.Levels.getD j.toNat {}) wt).fail } ∧
      ((w.Levels.getD j.toNat {}).Init ≠ some InitFn.defaultInit →
        (Update env fr (SwitchToLevel j w)).fail = none ∧
        (enterLevel env (w.Levels.getD j.toNat {}) wt).log =
          (match (w.Levels.getD j.toNat {}).Init with
            | some (InitFn.user id) => [Ev.init id]
            | _ => []) ++
          (GenerateLevelFromMap env (w.Levels.getD j.toNat {}).Map
            (w.Levels.getD j.toNat {}).MapItems
            (match (w.Levels.getD j.toNat {}).Init with
              | some (InitFn.user id) => env.hook id wt
              | _ => wt)).log ++
          (match (w.Levels.getD j.toNat {}).OnMount with
            | some id => [Ev.onMount id]
            | none => [])) ∧
      (∀ sc, FollowsScripts env sc →
        (Update env fr (SwitchToLevel j w)).w.Objects =
          applyScript (fun p => (wt.heap p).ID)
            (logScript sc (enterLevel env (w.Levels.getD j.toNat {}) wt).log) [] ∧
        ∀ p ∈ w.Objects,
          UserCall.register p ∉
            logScript sc (enterLevel env (w.Levels.getD j.toNat {}) wt).log →
          p ∉ (Update env fr (SwitchToLevel j w)).w.Objects) ∧
      ((∀ id v p, p ∈ w.Objects → p ∉ v.Objects → p ∉ (env.hook id v).Objects) →
        (∀ id pos a b v p, p ∈ w.Objects → p ∉ v.Objects →
          p ∉ (env.spawn id pos a b v).Objects) →
        ∀ p ∈ w.Objects, p ∉ (Update env fr (SwitchToLevel j w)).w.Objects) := by
  have hvalid : ¬ (j < 0 ∨ j ≥ (w.Levels.length : Int)) := by omega
  have hsw : SwitchToLevel j w = { w with pendingLevelSwitch := some j } := by
    simp [SwitchToLevel, hvalid]
  rw [hsw]
  obtain ⟨w1, l1, w2, l2, e1, e2, h1k, hU⟩ :=
    Update_reads_pending env fr { w with pendingLevelSwitch := some j } hp hfix
  -- the dispatch of the queue
  have h2k := processCollisions_rel SwitchKept switchKept_refl (fun _ _ _ => switchKept_trans)
    (fun _ _ h => untouched_switchKept h) env (fun id d v => (hh id d v).1)
    (fun id p v => (hc id p v).1) w1
  have h2h := processCollisions_rel (Held w.Objects) (held_refl w.Objects)
    (fun _ _ _ => held_trans) (fun _ _ h => untouched_held h) env (fun id d v => (hh id d v).2)
    (fun id p v => (hc id p v).2) w1
  rw [e2] at h2k h2h
  have hpend2 : w2.pendingLevelSwitch = some j := by
    rw [h2k.pending, h1k.pending]
  have hlev2 : w2.Levels = w.Levels := by
    rw [h2k.levels, h1k.levels]
  have hheld1 : Held w.Objects { w with pendingLevelSwitch := some j } w1 := untouched_held h1k
  have hheld2 : Held w.Objects w w2 :=
    held_trans ⟨fun p hp h => hheld1.objects p hp h, fun p hp h => hheld1.body p hp h⟩ h2h
  -- the level switch
  obtain ⟨wd, wt, lt, s0, s1, s2, s3, s4⟩ :=
    SelectLevel_teardown env j { w2 with pendingLevelSwitch := none }
      (by show 0 ≤ j ∧ j < (w2.Levels.length : Int); rw [hlev2]; exact hj)
  have hheldd : Held w.Objects w wd := by
    have h3 := s0 w.Objects
      (by show ∀ id, (w2.Levels.getD j.toNat {}).OnDestroy = some id → _; rw [hlev2]; exact hd)
    exact held_trans hheld2 ⟨fun p hp h => h3.objects p hp h, fun p hp h => h3.body p hp h⟩
  have hUe : Update env fr { w with pendingLevelSwitch := some j } =
      { w := (enterLevel env (w.Levels.getD j.toNat {}) wt).w
        log := (l1 ++ l2 ++ lt) ++ (enterLevel env (w.Levels.getD j.toNat {}) wt).log
        fail := (enterLevel env (w.Levels.getD j.toNat {}) wt).fail } := by
    rw [(hU j hpend2).1, s4]
    simp only [hlev2, List.append_assoc]
  have hw : (Update env fr { w with pendingLevelSwitch := some j }).w =
      (enterLevel env (w.Levels.getD j.toNat {}) wt).w := by rw [hUe]
  refine ⟨wt, l1 ++ l2 ++ lt, s1, ?_, ?_, hUe, ?_, ?_, ?_⟩
  · intro p hp1
    exact s2 p (hheldd.objects p hp1 hp1)
  · intro p hp1 b hb
    obtain ⟨h3, h4⟩ := s3 p (hheldd.objects p hp1 hp1) b
      (by rw [hheldd.body p hp1 hp1]; exact hb)
    exact ⟨h3, List.mem_append_right _ h4⟩
  · intro hI
    have ho := enterLevel_order env (w.Levels.getD j.toNat {}) wt hI
    refine ⟨?_, ho.2⟩
    rw [hUe]
    exact ho.1
  · intro sc hsc
    have ht := (tracks_enterLevel env sc hsc (w.Levels.getD j.toNat {}) wt).2
    rw [s1] at ht
    refine ⟨by rw [hw]; exact ht, ?_⟩
    intro p _ hnot hmem
    rw [hw, ht] at hmem
    rcases applyScript_mem _ _ _ _ hmem with h5 | h5
    · simp at h5
    · exact hnot h5
  · intro hhook hspawn p hp1
    rw [hw]
    have hrel := enterLevel_rel (fun a b => p ∉ a.Objects → p ∉ b.Objects)
      (fun _ h => h) (fun _ _ _ h1 h2 h => h2 (h1 h)) env
      (fun id v => hhook id v p hp1) (fun id pos a b v => hspawn id pos a b v p hp1)
      (w.Levels.getD j.toNat {}) wt
    apply hrel
    rw [s1]
    simp

theorem Update_after_SwitchToLevel_rebuilds_registry_witness :
    crowdedWorld.Paused = false ∧
    (0 ≤ (1 : Int) ∧ (1 : Int) < crowdedWorld.Levels.length) ∧
    (∃ wt : World, wt.Objects = [] ∧
      (∀ p ∈ crowdedWorld.Objects, (wt.heap p).Body = none) ∧
      (Update spawningEnv idleFrame (SwitchToLevel 1 crowdedWorld)).w.Objects =
        applyScript (fun p => (wt.heap p).ID) [UserCall.register 5] []) ∧
    (Update spawningEnv idleFrame (SwitchToLevel 1 crowdedWorld)).fail = none ∧
    (Update spawningEnv idleFrame (SwitchToLevel 1 crowdedWorld)).w.Objects = [5] ∧
    (∀ p ∈ crowdedWorld.Objects,
      ((Update spawningEnv idleFrame (SwitchToLevel 1 crowdedWorld)).w.heap p).Body = none) ∧
    (Update spawningEnv idleFrame (SwitchToLevel 1 crowdedWorld)).w.liveBodies = [3] ∧
    (Update spawningEnv idleFrame (SwitchToLevel 1 crowdedWorld)).log =
      [Ev.physicsStep (elapsed crowdedWorld idleFrame.now),
       Ev.emit none EventCollision (Payload.collision 0 1),
       Ev.handler 7 (Payload.collision 0 1),
       Ev.onDestroy 11, Ev.destroyBody 0, Ev.destroyBody 1, Ev.destroyBody 2, Ev.init 21] :=
  ⟨by decide, by decide,
   (Update_after_SwitchToLevel_rebuilds_registry spawningEnv idleFrame crowdedWorld 1
      (by decide) (by decide) (fun _ _ c hc => by simp [spawningEnv, idleEnv] at hc)
      (fun _ _ v => ⟨⟨rfl, rfl⟩, held_refl _ v⟩) (fun _ _ v => ⟨⟨rfl, rfl⟩, held_refl _ v⟩)
      (fun id hid v => by
        have h : some 11 = some id := hid
        cases h
        exact held_refl _ v)).elim
      (fun wt h => h.elim (fun _ h1 =>
        ⟨wt, h1.1, h1.2.1, (h1.2.2.2.2.2.1 spawningScripts spawningEnv_followsScripts).1⟩)),
   rfl, rfl, by decide, rfl, rfl⟩

end Life
